import Mathlib

/-! HPC-based intrusion detection: robust statistics, feature engineering, anomaly
detection, baseline collection, profile text, configuration, the sample source and
the command line programs.

A shallow embedding of `src/src/statistics.c` (types from `src/include/hpc_ids.h`).

Conventions of the embedding:

* a C `double` is a rational number (`ℚ`): arithmetic is exact, every value is
  finite, there is no NaN and no rounding;
* a `double *values, int count` pair is a `List ℚ` whose length is `count`;
* a `uint64_t` counter value is a natural number;
* a function that writes through an output pointer takes the previous contents
  of the pointee and returns the C return code together with the new contents;
* `time(NULL)` is a parameter (`now`).
-/

namespace HpcIds

/-! ## Robust statistics -/

/-- Comparator `compare_doubles` of statistics.c: the sign of `a - b`. -/
def compare_doubles (a b : ℚ) : Int :=
  let diff := a - b
  (if diff > 0 then 1 else 0) - (if diff < 0 then 1 else 0)

/-- Insertion of one element in front of the first element that the comparator
does not place before it. -/
def qsort_insert (cmp : ℚ → ℚ → Int) (x : ℚ) : List ℚ → List ℚ
  | [] => [x]
  | y :: ys => if cmp x y ≤ 0 then x :: y :: ys else y :: qsort_insert cmp x ys

/-- Library routine `qsort`, as a comparator-driven insertion sort. Under
`compare_doubles` the result is the one ascending arrangement of the input, so the
choice of sorting algorithm does not show in the result. -/
def qsort (cmp : ℚ → ℚ → Int) : List ℚ → List ℚ
  | [] => []
  | x :: xs => qsort_insert cmp x (qsort cmp xs)

/-- Function `compute_median` of statistics.c. -/
def compute_median (values : List ℚ) : ℚ :=
  let count := values.length
  if count = 0 then 0
  else
    let sorted := qsort compare_doubles values
    if count % 2 = 0 then
      (sorted.getD (count / 2 - 1) 0 + sorted.getD (count / 2) 0) / 2
    else
      sorted.getD (count / 2) 0

/-- Function `compute_mad` of statistics.c. -/
def compute_mad (values : List ℚ) (median : ℚ) : ℚ :=
  let count := values.length
  if count = 0 then 0
  else
    let deviations := values.map fun v => |v - median|
    compute_median deviations

/-- Function `compute_robust_z_score` of statistics.c. -/
def compute_robust_z_score (value median mad : ℚ) : ℚ :=
  let epsilon : ℚ := 1 / 1000000000
  let adjusted_mad := if mad < epsilon then epsilon else mad
  (value - median) / adjusted_mad

/-- Record `baseline_stats_t` of hpc_ids.h. -/
structure baseline_stats_t where
  median : ℚ
  mad : ℚ
  min : ℚ
  max : ℚ
  samples : Int
  deriving DecidableEq

/-- The min/max loop of `compute_baseline_stats` (indices `1 .. count-1`). -/
def minmax_loop : List ℚ → ℚ → ℚ → ℚ × ℚ
  | [], mn, mx => (mn, mx)
  | v :: vs, mn, mx =>
    minmax_loop vs (if v < mn then v else mn) (if v > mx then v else mx)

/-- Function `compute_baseline_stats` of statistics.c. The first argument is the
previous contents of `*stats`; the result is the return code and the new
contents. -/
def compute_baseline_stats (stats : baseline_stats_t) (values : List ℚ) :
    Int × baseline_stats_t :=
  match values with
  | [] => (-1, { median := 0, mad := 0, min := 0, max := 0, samples := 0 })
  | v0 :: rest =>
    let stats := { stats with median := compute_median values }
    let stats := { stats with mad := compute_mad values stats.median }
    let stats := { stats with samples := (values.length : Int) }
    let mm := minmax_loop rest v0 v0
    (0, { stats with min := mm.1, max := mm.2 })

/-! ## Feature engineering -/

/-- Record `hpc_measurement_t` of hpc_ids.h. -/
structure hpc_measurement_t where
  wall_time : ℚ
  perf_time : ℚ
  counter : String
  value : Nat
  duration_ms : Int

/-- Record `feature_vector_t` of hpc_ids.h. -/
structure feature_vector_t where
  wall_time : ℚ
  ipc : ℚ
  branch_miss_rate : ℚ
  cache_miss_rate : ℚ
  l1d_mpki : ℚ
  itlb_mpki : ℚ
  dtlb_mpki : ℚ
  deriving DecidableEq

/-- The local variables of `engineer_features` that the extraction loop
updates. -/
structure counter_state where
  cycles : Nat
  instructions : Nat
  branches : Nat
  branch_misses : Nat
  cache_refs : Nat
  cache_misses : Nat
  l1d_misses : Nat
  itlb_misses : Nat
  dtlb_misses : Nat
  counters_found : Int
  deriving DecidableEq

/-- All counters initialised to 0. -/
def counter_state.init : counter_state :=
  { cycles := 0, instructions := 0, branches := 0, branch_misses := 0,
    cache_refs := 0, cache_misses := 0, l1d_misses := 0,
    itlb_misses := 0, dtlb_misses := 0, counters_found := 0 }

/-- One iteration of the extraction loop of `engineer_features`. -/
def extract_step (s : counter_state) (m : hpc_measurement_t) : counter_state :=
  let counter := m.counter
  let value := m.value
  if counter = "cycles" then
    { s with cycles := value, counters_found := s.counters_found + 1 }
  else if counter = "instructions" then
    { s with instructions := value, counters_found := s.counters_found + 1 }
  else if counter = "branches" then
    { s with branches := value, counters_found := s.counters_found + 1 }
  else if counter = "branch-misses" then
    { s with branch_misses := value, counters_found := s.counters_found + 1 }
  else if counter = "cache-references" then
    { s with cache_refs := value, counters_found := s.counters_found + 1 }
  else if counter = "cache-misses" then
    { s with cache_misses := value, counters_found := s.counters_found + 1 }
  else if counter = "L1-dcache-load-misses" then
    { s with l1d_misses := value, counters_found := s.counters_found + 1 }
  else if counter = "iTLB-load-misses" then
    { s with itlb_misses := value, counters_found := s.counters_found + 1 }
  else if counter = "dTLB-load-misses" then
    { s with dtlb_misses := value, counters_found := s.counters_found + 1 }
  else s

/-- The extraction loop of `engineer_features`, run over the whole interval. -/
def extract_counters (measurements : List hpc_measurement_t) : counter_state :=
  measurements.foldl extract_step counter_state.init

/-- Function `engineer_features` of statistics.c. `features` is the previous
contents of `*features`; the result is the return code and the new contents. -/
def engineer_features (measurements : List hpc_measurement_t) (now : ℚ)
    (features : feature_vector_t) : Int × feature_vector_t :=
  if measurements.length = 0 then (-1, features)
  else
    let s := extract_counters measurements
    if s.cycles = 0 ∨ s.instructions = 0 then (-1, features)
    else
      let ipc : ℚ := (s.instructions : ℚ) / (s.cycles : ℚ)
      let branch_miss_rate : ℚ :=
        if s.branches > 0 then (s.branch_misses : ℚ) / (s.branches : ℚ) else 0
      let cache_miss_rate : ℚ :=
        if s.cache_refs > 0 then (s.cache_misses : ℚ) / (s.cache_refs : ℚ) else 0
      let instructions_k : ℚ := (s.instructions : ℚ) / 1000
      let l1d_mpki : ℚ :=
        if instructions_k > 0 then (s.l1d_misses : ℚ) / instructions_k else 0
      let itlb_mpki : ℚ :=
        if instructions_k > 0 then (s.itlb_misses : ℚ) / instructions_k else 0
      let dtlb_mpki : ℚ :=
        if instructions_k > 0 then (s.dtlb_misses : ℚ) / instructions_k else 0
      (0, { wall_time := now, ipc := ipc, branch_miss_rate := branch_miss_rate,
            cache_miss_rate := cache_miss_rate, l1d_mpki := l1d_mpki,
            itlb_mpki := itlb_mpki, dtlb_mpki := dtlb_mpki })

/-- A sample carrying only a counter name and a value. -/
def sample (counter : String) (value : Nat) : hpc_measurement_t :=
  { wall_time := 0, perf_time := 0, counter := counter, value := value,
    duration_ms := 200 }

/-- The interval of the feature-derivation example. -/
def example_interval : List hpc_measurement_t :=
  [sample "cycles" 10000000, sample "instructions" 20000000, sample "branches" 1000000,
   sample "branch-misses" 10000, sample "cache-references" 100000,
   sample "cache-misses" 5000, sample "L1-dcache-load-misses" 40000,
   sample "iTLB-load-misses" 200, sample "dTLB-load-misses" 400]

/-- The all-zero feature vector. -/
def feature_vector_t.zero : feature_vector_t :=
  { wall_time := 0, ipc := 0, branch_miss_rate := 0, cache_miss_rate := 0,
    l1d_mpki := 0, itlb_mpki := 0, dtlb_mpki := 0 }

/-- The all-zero summary, as `memset` leaves it. -/
def baseline_stats_t.zero : baseline_stats_t :=
  { median := 0, mad := 0, min := 0, max := 0, samples := 0 }

/-- The value carried by the first sample named `name`, 0 when no sample has that
name. -/
def first_occurrence_value (name : String) (ms : List hpc_measurement_t) : Nat :=
  match ms.find? (fun m => m.counter = name) with
  | some m => m.value
  | none => 0

/-- The value carried by the last sample named `name`, 0 when no sample has that
name. -/
def last_occurrence_value (name : String) (ms : List hpc_measurement_t) : Nat :=
  first_occurrence_value name ms.reverse

/-- The nine counter names that the extraction loop of `engineer_features`
compares against. -/
def recognised_counters : List String :=
  ["cycles", "instructions", "branches", "branch-misses", "cache-references",
   "cache-misses", "L1-dcache-load-misses", "iTLB-load-misses", "dTLB-load-misses"]

/-! ## Anomaly detection

A shallow embedding of `src/src/detection.c`.

* a `const char *app_name` that may be `NULL` is an `Option String`;
* `time_t` is an integer; one call of `detect_anomalies` reads the clock as `now`,
  and the alerts it builds are stamped with the same reading;
* the alert sink is the sequence of alerts handed to `log_alert`; opening and
  writing the alert file is outside the model;
* `app_baselines` holds the first `num_apps` records of the C array, so `num_apps`
  is the length of the list.
-/

/-- Record `anomaly_alert_t` of hpc_ids.h. -/
structure anomaly_alert_t where
  application_name : String
  baseline_type : String
  feature : String
  measured_value : ℚ
  baseline_median : ℚ
  robust_z_score : ℚ
  threshold : ℚ
  severity : String
  timestamp : ℚ
  deriving DecidableEq

/-- Record `config_t` of hpc_ids.h. -/
structure config_t where
  app_directory : String
  baseline_directory : String
  alert_output_file : String
  sampling_interval_ms : Int
  runs_per_app : Int
  min_samples_per_app : Int
  max_runtime_seconds : Int
  core_affinity : Int
  robust_z_threshold_medium : ℚ
  robust_z_threshold_high : ℚ
  robust_z_threshold_critical : ℚ
  alert_cooldown_seconds : Int
  use_robust_statistics : Bool
  perf_events : List String
  num_events : Int
  deriving DecidableEq

/-- Record `baseline_t` of hpc_ids.h. -/
structure baseline_t where
  ipc : baseline_stats_t
  branch_miss_rate : baseline_stats_t
  cache_miss_rate : baseline_stats_t
  l1d_mpki : baseline_stats_t
  itlb_mpki : baseline_stats_t
  dtlb_mpki : baseline_stats_t
  deriving DecidableEq

/-- Record `app_baseline_t` of hpc_ids.h. -/
structure app_baseline_t where
  name : String
  baseline : baseline_t
  has_baseline : Bool
  deriving DecidableEq

/-- Record `hpc_ids_t` of hpc_ids.h. The field `alerts` stands for `alert_file`:
the alerts handed to `log_alert` so far, oldest first. -/
structure hpc_ids_t where
  config : config_t
  global_baseline : baseline_t
  app_baselines : List app_baseline_t
  feature_samples : List feature_vector_t
  alerts : List anomaly_alert_t
  last_alert_time : Int
  deriving DecidableEq

/-- Function `get_severity_string` of detection.c. -/
def get_severity_string (z_score : ℚ) (config : config_t) : String :=
  if |z_score| ≥ config.robust_z_threshold_critical then "critical"
  else if |z_score| ≥ config.robust_z_threshold_high then "high"
  else if |z_score| ≥ config.robust_z_threshold_medium then "medium"
  else "normal"

/-- Function `get_threshold_for_severity` of detection.c. -/
def get_threshold_for_severity (severity : String) (config : config_t) : ℚ :=
  if severity = "critical" then config.robust_z_threshold_critical
  else if severity = "high" then config.robust_z_threshold_high
  else if severity = "medium" then config.robust_z_threshold_medium
  else 0

/-- Function `check_feature_anomaly` of detection.c. `alert` is the previous
contents of `*alert`; the result is the return code and the new contents. -/
def check_feature_anomaly (feature_name : String) (value : ℚ)
    (baseline : baseline_stats_t) (config : config_t) (alert : anomaly_alert_t)
    (app_name : Option String) (now : ℚ) : Int × anomaly_alert_t :=
  let z_score := compute_robust_z_score value baseline.median baseline.mad
  let severity := get_severity_string z_score config
  if severity = "normal" then (0, alert)
  else
    (1, { application_name := app_name.getD "system",
          baseline_type := if app_name.isSome then "per_app" else "global",
          feature := feature_name,
          measured_value := value,
          baseline_median := baseline.median,
          robust_z_score := z_score,
          threshold := get_threshold_for_severity severity config,
          severity := severity,
          timestamp := now })

/-- Function `log_alert` of detection.c: the alert goes to the sink. -/
def log_alert (ids : hpc_ids_t) (alert : anomaly_alert_t) : Int × hpc_ids_t :=
  (0, { ids with alerts := ids.alerts ++ [alert] })

/-- The search loop of `detect_anomalies` over the application records: the
baseline of the first record with the given name and `has_baseline`, else the
baseline selected before the loop. -/
def resolve_loop (name : String) (baseline : baseline_t) :
    List app_baseline_t → baseline_t
  | [] => baseline
  | r :: rs =>
    if r.name = name ∧ r.has_baseline = true then r.baseline
    else resolve_loop name baseline rs

/-- Baseline selection at the head of `detect_anomalies`. -/
def resolve_baseline (ids : hpc_ids_t) (app_name : Option String) : baseline_t :=
  match app_name with
  | some name => resolve_loop name ids.global_baseline ids.app_baselines
  | none => ids.global_baseline

/-- The locals of `detect_anomalies` that its six checks update, with the detector
itself. -/
structure detect_state where
  ids : hpc_ids_t
  alert : anomaly_alert_t
  anomaly_count : Int
  deriving DecidableEq

/-- One of the six `if (check_feature_anomaly(...)) { log_alert; anomaly_count++; }`
statements of `detect_anomalies`. -/
def check_and_log (st : detect_state) (feature_name : String) (value : ℚ)
    (baseline : baseline_stats_t) (app_name : Option String) (now : ℚ) : detect_state :=
  let r := check_feature_anomaly feature_name value baseline st.ids.config st.alert
    app_name now
  if r.1 ≠ 0 then
    { ids := (log_alert st.ids r.2).2, alert := r.2, anomaly_count := st.anomaly_count + 1 }
  else
    { st with alert := r.2 }

/-- The contents of the local `alert` of `detect_anomalies` before the first
check; no field of it is read before it is written. -/
def anomaly_alert_t.blank : anomaly_alert_t :=
  { application_name := "", baseline_type := "", feature := "", measured_value := 0,
    baseline_median := 0, robust_z_score := 0, threshold := 0, severity := "",
    timestamp := 0 }

/-- The six checks of `detect_anomalies`, in source order. -/
def run_checks (ids : hpc_ids_t) (features : feature_vector_t) (baseline : baseline_t)
    (app_name : Option String) (now : ℚ) : detect_state :=
  let st : detect_state := { ids := ids, alert := anomaly_alert_t.blank, anomaly_count := 0 }
  let st := check_and_log st "ipc" features.ipc baseline.ipc app_name now
  let st := check_and_log st "branch_miss_rate" features.branch_miss_rate
    baseline.branch_miss_rate app_name now
  let st := check_and_log st "cache_miss_rate" features.cache_miss_rate
    baseline.cache_miss_rate app_name now
  let st := check_and_log st "l1d_mpki" features.l1d_mpki baseline.l1d_mpki app_name now
  let st := check_and_log st "itlb_mpki" features.itlb_mpki baseline.itlb_mpki app_name now
  check_and_log st "dtlb_mpki" features.dtlb_mpki baseline.dtlb_mpki app_name now

/-- Function `detect_anomalies` of detection.c. The result is the return value and
the detector after the call. -/
def detect_anomalies (ids : hpc_ids_t) (features : feature_vector_t)
    (app_name : Option String) (now : Int) : Int × hpc_ids_t :=
  let baseline := resolve_baseline ids app_name
  let current_time := now
  if current_time - ids.last_alert_time < ids.config.alert_cooldown_seconds then (0, ids)
  else
    let st := run_checks ids features baseline app_name (now : ℚ)
    if st.anomaly_count > 0 then
      (st.anomaly_count, { st.ids with last_alert_time := current_time })
    else
      (st.anomaly_count, st.ids)

/-- One call of `detect_anomalies` in a monitoring session. -/
structure detect_call where
  features : feature_vector_t
  app_name : Option String
  now : Int

/-- A sequence of `detect_anomalies` calls on one detector: the clock reading and
the return value of every call, in call order, and the detector at the end. -/
def run_calls : hpc_ids_t → List detect_call → List (Int × Int) × hpc_ids_t
  | ids, [] => ([], ids)
  | ids, c :: cs =>
    let r := detect_anomalies ids c.features c.app_name c.now
    let rest := run_calls r.2 cs
    ((c.now, r.1) :: rest.1, rest.2)

/-- The clock readings of the calls that emitted at least one alert. -/
def emitting_times (log : List (Int × Int)) : List Int :=
  (log.filter fun e => e.2 > 0).map fun e => e.1

/-- The condition under which `check_feature_anomaly` builds an alert. -/
def is_anomalous (config : config_t) (baseline : baseline_stats_t) (value : ℚ) : Prop :=
  get_severity_string (compute_robust_z_score value baseline.median baseline.mad) config ≠
    "normal"

instance is_anomalous_decidable (config : config_t) (baseline : baseline_stats_t)
    (value : ℚ) : Decidable (is_anomalous config baseline value) := by
  unfold is_anomalous
  infer_instance

/-- The defaults that `load_config` of config.c sets before it reads the file. -/
def default_config : config_t :=
  { app_directory := "./test_apps",
    baseline_directory := "./baselines",
    alert_output_file := "hpc_ids_alerts.jsonl",
    sampling_interval_ms := 200,
    runs_per_app := 10,
    min_samples_per_app := 50,
    max_runtime_seconds := 60,
    core_affinity := 0,
    robust_z_threshold_medium := 3,
    robust_z_threshold_high := 4,
    robust_z_threshold_critical := 5,
    alert_cooldown_seconds := 30,
    use_robust_statistics := true,
    perf_events := ["cycles", "instructions", "branches", "branch-misses",
      "cache-references", "cache-misses", "L1-dcache-loads", "L1-dcache-load-misses",
      "iTLB-loads", "iTLB-load-misses", "dTLB-loads", "dTLB-load-misses", "cpu-clock"],
    num_events := 13 }

/-- A summary with the given median and MAD. -/
def stats_of (median mad : ℚ) : baseline_stats_t :=
  { median := median, mad := mad, min := median, max := median, samples := 1 }

/-- A baseline whose `ipc` summary has the given median and MAD and whose other
summaries have median 0 and MAD 1. -/
def baseline_of_ipc (median mad : ℚ) : baseline_t :=
  { ipc := stats_of median mad, branch_miss_rate := stats_of 0 1,
    cache_miss_rate := stats_of 0 1, l1d_mpki := stats_of 0 1,
    itlb_mpki := stats_of 0 1, dtlb_mpki := stats_of 0 1 }

/-- A feature vector with the given `ipc` and every other feature 0. -/
def features_of_ipc (ipc : ℚ) : feature_vector_t :=
  { feature_vector_t.zero with ipc := ipc }

/-- A detector as `hpc_ids_init` leaves it, with the given configuration, global
baseline and application records. -/
def detector_of (config : config_t) (global_baseline : baseline_t)
    (app_baselines : List app_baseline_t) : hpc_ids_t :=
  { config := config, global_baseline := global_baseline, app_baselines := app_baselines,
    feature_samples := [], alerts := [], last_alert_time := 0 }

/-- Some feature of the vector is anomalous against the baseline. -/
def any_anomalous (config : config_t) (baseline : baseline_t)
    (features : feature_vector_t) : Prop :=
  is_anomalous config baseline.ipc features.ipc ∨
  is_anomalous config baseline.branch_miss_rate features.branch_miss_rate ∨
  is_anomalous config baseline.cache_miss_rate features.cache_miss_rate ∨
  is_anomalous config baseline.l1d_mpki features.l1d_mpki ∨
  is_anomalous config baseline.itlb_mpki features.itlb_mpki ∨
  is_anomalous config baseline.dtlb_mpki features.dtlb_mpki

/-- The detector of `st2` is the detector of `st1` with further alerts in the sink,
as many as `anomaly_count` has grown by. -/
def alerts_appended (st1 st2 : detect_state) : Prop :=
  ∃ l : List anomaly_alert_t,
    st2.ids = { st1.ids with alerts := st1.ids.alerts ++ l } ∧
    st2.anomaly_count = st1.anomaly_count + (l.length : Int)

/-- Every feature of the vector scores below the medium threshold against the
baseline. -/
def all_below_medium (config : config_t) (baseline : baseline_t)
    (features : feature_vector_t) : Prop :=
  |compute_robust_z_score features.ipc baseline.ipc.median baseline.ipc.mad| <
    config.robust_z_threshold_medium ∧
  |compute_robust_z_score features.branch_miss_rate baseline.branch_miss_rate.median
    baseline.branch_miss_rate.mad| < config.robust_z_threshold_medium ∧
  |compute_robust_z_score features.cache_miss_rate baseline.cache_miss_rate.median
    baseline.cache_miss_rate.mad| < config.robust_z_threshold_medium ∧
  |compute_robust_z_score features.l1d_mpki baseline.l1d_mpki.median
    baseline.l1d_mpki.mad| < config.robust_z_threshold_medium ∧
  |compute_robust_z_score features.itlb_mpki baseline.itlb_mpki.median
    baseline.itlb_mpki.mad| < config.robust_z_threshold_medium ∧
  |compute_robust_z_score features.dtlb_mpki baseline.dtlb_mpki.median
    baseline.dtlb_mpki.mad| < config.robust_z_threshold_medium

/-- The detector of the cooldown example: default configuration, a global baseline
with `ipc` median 1.0 and MAD 0.1, no application records. -/
def example_detector : hpc_ids_t :=
  detector_of default_config (baseline_of_ipc 1 (1 / 10)) []

/-- The alert that the example detector builds for an observed `ipc` of 1.5. -/
def example_alert (app_name : Option String) (now : ℚ) : anomaly_alert_t :=
  { application_name := app_name.getD "system",
    baseline_type := if app_name.isSome then "per_app" else "global",
    feature := "ipc", measured_value := 3 / 2, baseline_median := 1,
    robust_z_score := 5, threshold := 5, severity := "critical", timestamp := now }

/-- A configuration whose critical threshold lies below its medium threshold. -/
def misordered_config : config_t :=
  { default_config with robust_z_threshold_critical := 1 }

/-- The three calls of a session on the example detector: the same anomalous
vector at `t = 100`, `t = 110` and `t = 130`. -/
def example_calls : List detect_call :=
  [{ features := features_of_ipc (3 / 2), app_name := none, now := 100 },
   { features := features_of_ipc (3 / 2), app_name := none, now := 110 },
   { features := features_of_ipc (3 / 2), app_name := none, now := 130 }]

/-- A store with one application record, for "matmul", over the example global
baseline. -/
def matmul_detector : hpc_ids_t :=
  detector_of default_config (baseline_of_ipc 1 (1 / 10))
    [{ name := "matmul", baseline := baseline_of_ipc 2 (1 / 10), has_baseline := true }]

/-- A store whose one application record has the empty name. -/
def empty_name_detector : hpc_ids_t :=
  detector_of default_config (baseline_of_ipc 1 (1 / 10))
    [{ name := "", baseline := baseline_of_ipc 2 (1 / 10), has_baseline := true }]

/-- The alerts that one check of `detect_anomalies` hands to the sink: the alert
built by `check_feature_anomaly` when the feature is anomalous, nothing
otherwise. -/
def feature_alerts (config : config_t) (feature_name : String) (value : ℚ)
    (baseline : baseline_stats_t) (app_name : Option String) (now : ℚ) :
    List anomaly_alert_t :=
  if is_anomalous config baseline value then
    [(check_feature_anomaly feature_name value baseline config anomaly_alert_t.blank
      app_name now).2]
  else []

/-- The alerts of the six checks, in the order of the checks. -/
def expected_alerts (config : config_t) (baseline : baseline_t)
    (features : feature_vector_t) (app_name : Option String) (now : ℚ) :
    List anomaly_alert_t :=
  feature_alerts config "ipc" features.ipc baseline.ipc app_name now ++
  feature_alerts config "branch_miss_rate" features.branch_miss_rate
    baseline.branch_miss_rate app_name now ++
  feature_alerts config "cache_miss_rate" features.cache_miss_rate
    baseline.cache_miss_rate app_name now ++
  feature_alerts config "l1d_mpki" features.l1d_mpki baseline.l1d_mpki app_name now ++
  feature_alerts config "itlb_mpki" features.itlb_mpki baseline.itlb_mpki app_name now ++
  feature_alerts config "dtlb_mpki" features.dtlb_mpki baseline.dtlb_mpki app_name now

/-- The names of the anomalous features, in the fixed feature order. -/
def anomalous_features (config : config_t) (baseline : baseline_t)
    (features : feature_vector_t) : List String :=
  (if is_anomalous config baseline.ipc features.ipc then ["ipc"] else []) ++
  (if is_anomalous config baseline.branch_miss_rate features.branch_miss_rate
    then ["branch_miss_rate"] else []) ++
  (if is_anomalous config baseline.cache_miss_rate features.cache_miss_rate
    then ["cache_miss_rate"] else []) ++
  (if is_anomalous config baseline.l1d_mpki features.l1d_mpki then ["l1d_mpki"] else []) ++
  (if is_anomalous config baseline.itlb_mpki features.itlb_mpki then ["itlb_mpki"] else []) ++
  (if is_anomalous config baseline.dtlb_mpki features.dtlb_mpki then ["dtlb_mpki"] else [])

/-- The detector of `st2` is the detector of `st1` with the alerts `l` appended to
the sink, and `anomaly_count` has grown by the length of `l`. -/
def alerts_appended_by (st1 st2 : detect_state) (l : List anomaly_alert_t) : Prop :=
  st2.ids = { st1.ids with alerts := st1.ids.alerts ++ l } ∧
  st2.anomaly_count = st1.anomaly_count + (l.length : Int)

/-! ## Baseline collection and system monitoring

A shallow embedding of `collect_baseline`, `compute_baseline_from_features` and
`collect_all_baselines` of `src/src/baseline_collector.c` and of the interval
grouping of `monitor_system` of `src/src/core.c`.

* what the operating system answers (whether the application is executable, what
  each `perf` run delivers, whether the profile can be opened for writing, the
  clock) is an argument of the model;
* a loop that does not terminate has result `none`.
-/

/-- Constant `MAX_EVENTS` of hpc_ids.h. -/
def MAX_EVENTS : Nat := 16

/-- Constant `MAX_APPS` of hpc_ids.h. -/
def MAX_APPS : Nat := 64

/-- Constant `MAX_SAMPLES` of hpc_ids.h. -/
def MAX_SAMPLES : Nat := 10000

/-- The all-zero baseline. -/
def baseline_t.zero : baseline_t :=
  { ipc := baseline_stats_t.zero, branch_miss_rate := baseline_stats_t.zero,
    cache_miss_rate := baseline_stats_t.zero, l1d_mpki := baseline_stats_t.zero,
    itlb_mpki := baseline_stats_t.zero, dtlb_mpki := baseline_stats_t.zero }

/-- Function `compute_baseline_from_features` of baseline_collector.c. `baseline`
is the previous contents of `*baseline`. -/
def compute_baseline_from_features (baseline : baseline_t)
    (features : List feature_vector_t) : Int × baseline_t :=
  let values := features.map fun f => f.ipc
  let baseline := { baseline with ipc := (compute_baseline_stats baseline.ipc values).2 }
  let values := features.map fun f => f.branch_miss_rate
  let baseline := { baseline with
    branch_miss_rate := (compute_baseline_stats baseline.branch_miss_rate values).2 }
  let values := features.map fun f => f.cache_miss_rate
  let baseline := { baseline with
    cache_miss_rate := (compute_baseline_stats baseline.cache_miss_rate values).2 }
  let values := features.map fun f => f.l1d_mpki
  let baseline := { baseline with
    l1d_mpki := (compute_baseline_stats baseline.l1d_mpki values).2 }
  let values := features.map fun f => f.itlb_mpki
  let baseline := { baseline with
    itlb_mpki := (compute_baseline_stats baseline.itlb_mpki values).2 }
  let values := features.map fun f => f.dtlb_mpki
  let baseline := { baseline with
    dtlb_mpki := (compute_baseline_stats baseline.dtlb_mpki values).2 }
  (0, baseline)

/-- The loop of `collect_baseline` that cuts the measurements of one run into
chunks of `num_events` samples (for `num_events ≥ 1`). `measurements` is what is
left from index `i` on, `feature_samples` the buffer filled so far; the first
argument bounds the number of iterations. -/
def chunk_loop (num_events : Nat) (now : ℚ) :
    Nat → List hpc_measurement_t → List feature_vector_t → List feature_vector_t
  | 0, _, feature_samples => feature_samples
  | fuel + 1, measurements, feature_samples =>
    if measurements.length > 0 ∧ feature_samples.length < MAX_SAMPLES then
      let interval := measurements.take num_events
      let interval_count := interval.length
      let feature_samples :=
        if interval_count = num_events then
          if (engineer_features interval now feature_vector_t.zero).1 = 0 then
            feature_samples ++ [(engineer_features interval now feature_vector_t.zero).2]
          else feature_samples
        else feature_samples
      chunk_loop num_events now fuel (measurements.drop num_events) feature_samples
    else feature_samples

/-- The processing of one run's measurements in `collect_baseline`. With
`num_events ≤ 0` the index `i` never advances, so the loop does not terminate once
it is entered. -/
def process_run (num_events : Int) (now : ℚ) (measurements : List hpc_measurement_t)
    (feature_samples : List feature_vector_t) : Option (List feature_vector_t) :=
  if num_events ≤ 0 then
    if measurements.length > 0 ∧ feature_samples.length < MAX_SAMPLES then none
    else some feature_samples
  else
    some (chunk_loop num_events.toNat now measurements.length measurements feature_samples)

/-- The loop of `collect_baseline` over the runs. A run whose `perf` command could
not be built or executed (`none`) is skipped. -/
def run_loop (num_events : Int) (now : ℚ) :
    List (Option (List hpc_measurement_t)) → List feature_vector_t →
      Option (List feature_vector_t)
  | [], feature_samples => some feature_samples
  | none :: runs, feature_samples => run_loop num_events now runs feature_samples
  | some measurements :: runs, feature_samples =>
    match process_run num_events now measurements feature_samples with
    | none => none
    | some feature_samples => run_loop num_events now runs feature_samples

/-- What the operating system answers during one `collect_baseline` call. -/
structure collect_env where
  executable : Bool
  run_outcome : Nat → Option (List hpc_measurement_t)
  writable : Bool
  timestamp : String
  now : ℚ

/-- The outcomes of the runs `0 .. runs_per_app - 1`. -/
def run_outcomes (config : config_t) (env : collect_env) :
    List (Option (List hpc_measurement_t)) :=
  (List.range config.runs_per_app.toNat).map env.run_outcome

/-- The feature vectors that `collect_baseline` accumulates over all runs. -/
def collected_features (config : config_t) (env : collect_env) :
    Option (List feature_vector_t) :=
  run_loop config.num_events env.now (run_outcomes config env) []

/-! ## Profile text

A shallow embedding of `save_baseline` of `src/src/baseline_collector.c`, of
`load_baseline` of `src/src/config.c` and of the extractors of
`src/src/simple_json.c`. A C string and the contents of a file are lists of
characters. The library routines `strstr`, `atof` and the conversions `%d` and
`%.15f` of `fprintf` follow the C standard on exact numbers; `atof` reads decimal
numerals with an optional fraction and exponent; `atoi` returns a 32-bit `int`.
-/

/-- The first list starts with the second one. -/
def starts_with : List Char → List Char → Bool
  | _, [] => true
  | [], _ :: _ => false
  | h :: hs, n :: ns => h = n && starts_with hs ns

/-- Library routine `strstr`: the part of `haystack` from the first occurrence of
`needle` on, `none` when there is no occurrence. -/
def strstr : List Char → List Char → Option (List Char)
  | [], needle => if needle = [] then some [] else none
  | h :: hs, needle =>
    if starts_with (h :: hs) needle then some (h :: hs) else strstr hs needle

/-- The loop `while (*start == ' ' || *start == '\t' || *start == '\n') start++`
of the extractors. -/
def skip_json_space : List Char → List Char
  | [] => []
  | c :: cs => if c = ' ' ∨ c = '\t' ∨ c = '\n' then skip_json_space cs else c :: cs

/-- Library predicate `isspace` in the C locale. -/
def is_space (c : Char) : Bool :=
  c = ' ' || c = '\t' || c = '\n' || c = '\x0b' || c = '\x0c' || c = '\r'

/-- Leading white space removed, as `atoi` and `atof` do first. -/
def skip_space : List Char → List Char
  | [] => []
  | c :: cs => if is_space c then skip_space cs else c :: cs

/-- A decimal digit. -/
def is_digit (c : Char) : Bool := '0' ≤ c && c ≤ '9'

/-- The longest run of decimal digits at the head of the text: the number read so
far (from `acc`), how many digits were read, and the rest of the text. -/
def read_digits : List Char → Nat → Nat → Nat × Nat × List Char
  | [], acc, n => (acc, n, [])
  | c :: cs, acc, n =>
    if is_digit c then read_digits cs (acc * 10 + (c.toNat - 48)) (n + 1)
    else (acc, n, c :: cs)

/-- An optional sign at the head of the text: whether it is a minus, and the
rest. -/
def read_sign : List Char → Bool × List Char
  | '-' :: cs => (true, cs)
  | '+' :: cs => (false, cs)
  | cs => (false, cs)

/-- The largest `long`, 64 bits wide. -/
def LONG_MAX : Int := 2 ^ 63 - 1

/-- The least `long`. -/
def LONG_MIN : Int := -2 ^ 63

/-- Library routine `strtol(s, NULL, 10)`: leading white space, an optional sign,
the longest run of decimal digits; a value outside the range of `long` is replaced
by `LONG_MAX` or `LONG_MIN`. -/
def strtol (s : List Char) : Int :=
  let signed := read_sign (skip_space s)
  let digits := read_digits signed.2 0 0
  let value := if signed.1 then -(digits.1 : Int) else (digits.1 : Int)
  if value > LONG_MAX then LONG_MAX
  else if value < LONG_MIN then LONG_MIN
  else value

/-- The conversion of a `long` to the 32-bit `int`: the low 32 bits, read in two's
complement. -/
def to_int32 (v : Int) : Int :=
  (v + 2 ^ 31) % 2 ^ 32 - 2 ^ 31

/-- Library routine `atoi` as the C library of the build implements it:
`(int) strtol(s, NULL, 10)`. Inside the range of `int` it is the number read;
outside, where the C standard leaves it open, the low 32 bits remain:
`4294967296` reads 0, `2147483648` reads `-2147483648`, `4294967341` reads 45. -/
def atoi (s : List Char) : Int :=
  to_int32 (strtol s)

/-- The exponent part of a decimal numeral, 0 when there is none. -/
def read_exponent : List Char → Int
  | c :: cs =>
    if c = 'e' ∨ c = 'E' then
      let signed := read_sign cs
      let digits := read_digits signed.2 0 0
      if digits.2.1 = 0 then 0
      else if signed.1 then -(digits.1 : Int) else (digits.1 : Int)
    else 0
  | [] => 0

/-- Library routine `atof` on exact numbers, for decimal numerals. -/
def atof (s : List Char) : ℚ :=
  let signed := read_sign (skip_space s)
  let whole := read_digits signed.2 0 0
  let fraction : Nat × Nat × List Char :=
    match whole.2.2 with
    | '.' :: cs => read_digits cs 0 0
    | cs => (0, 0, cs)
  if whole.2.1 = 0 ∧ fraction.2.1 = 0 then 0
  else
    let mantissa : ℚ := (whole.1 : ℚ) + (fraction.1 : ℚ) / (10 : ℚ) ^ fraction.2.1
    let value := mantissa * (10 : ℚ) ^ read_exponent fraction.2.2
    if signed.1 then -value else value

/-- Function `extract_json_double` of simple_json.c. -/
def extract_json_double (json : List Char) (key : String) : ℚ :=
  let search_pattern := ("\"" ++ key ++ "\":").data
  match strstr json search_pattern with
  | none => -1
  | some start => atof (skip_json_space (start.drop search_pattern.length))

/-- Function `extract_json_int` of simple_json.c. -/
def extract_json_int (json : List Char) (key : String) : Int :=
  let search_pattern := ("\"" ++ key ++ "\":").data
  match strstr json search_pattern with
  | none => -1
  | some start => atoi (skip_json_space (start.drop search_pattern.length))

/-- The five assignments that `load_baseline` makes for a feature section that is
present; the summary is left as it is when the section is absent. -/
def load_section (stats : baseline_stats_t) (section_start : Option (List Char)) :
    baseline_stats_t :=
  match section_start with
  | some s =>
    { median := extract_json_double s "median",
      mad := extract_json_double s "mad",
      min := extract_json_double s "min",
      max := extract_json_double s "max",
      samples := extract_json_int s "samples" }
  | none => stats

/-- Function `load_baseline` of config.c. `baseline` is the previous contents of
`*baseline`, `file` the contents of the file, `none` when it cannot be opened. -/
def load_baseline (baseline : baseline_t) (file : Option (List Char)) : Int × baseline_t :=
  match file with
  | none => (-1, baseline)
  | some json_content =>
    let baseline := baseline_t.zero
    match strstr json_content "\"baseline_statistics\":".data with
    | none => (-1, baseline)
    | some baseline_stats =>
      let baseline := { baseline with
        ipc := load_section baseline.ipc (strstr baseline_stats "\"ipc\":".data) }
      let baseline := { baseline with
        branch_miss_rate := load_section baseline.branch_miss_rate
          (strstr baseline_stats "\"branch_miss_rate\":".data) }
      let baseline := { baseline with
        cache_miss_rate := load_section baseline.cache_miss_rate
          (strstr baseline_stats "\"cache_miss_rate\":".data) }
      let baseline := { baseline with
        l1d_mpki := load_section baseline.l1d_mpki
          (strstr baseline_stats "\"l1d_mpki\":".data) }
      let baseline := { baseline with
        itlb_mpki := load_section baseline.itlb_mpki
          (strstr baseline_stats "\"itlb_mpki\":".data) }
      let baseline := { baseline with
        dtlb_mpki := load_section baseline.dtlb_mpki
          (strstr baseline_stats "\"dtlb_mpki\":".data) }
      (0, baseline)

/-- Conversion `%d` of `fprintf`. -/
def fmt_d (i : Int) : List Char :=
  match i with
  | Int.ofNat n => Nat.toDigits 10 n
  | Int.negSucc n => '-' :: Nat.toDigits 10 (n + 1)

/-- The integer nearest to `x`, the even one of two equally near. -/
def round_half_even (x : ℚ) : Int :=
  let f := ⌊x⌋
  let r := x - (f : ℚ)
  if r < 1 / 2 then f
  else if r > 1 / 2 then f + 1
  else if f % 2 = 0 then f else f + 1

/-- Conversion `%.15f` of `fprintf`: the number rounded to 15 digits after the
decimal point. -/
def fmt_f15 (x : ℚ) : List Char :=
  let scaled := (round_half_even (|x| * 10 ^ 15)).toNat
  let frac_digits := Nat.toDigits 10 (scaled % 10 ^ 15)
  (if x < 0 then ['-'] else []) ++ Nat.toDigits 10 (scaled / 10 ^ 15) ++ ['.'] ++
    List.replicate (15 - frac_digits.length) '0' ++ frac_digits

/-- The text that `save_baseline` writes for one feature; `last` tells whether it
is the last one. -/
def section_text (name : String) (stats : baseline_stats_t) (last : Bool) : List Char :=
  ("    \"" ++ name ++ "\": \x7b\n").data ++
  "      \"median\": ".data ++ fmt_f15 stats.median ++ ",\n".data ++
  "      \"mad\": ".data ++ fmt_f15 stats.mad ++ ",\n".data ++
  "      \"method\": \"robust_median_mad\",\n".data ++
  "      \"min\": ".data ++ fmt_f15 stats.min ++ ",\n".data ++
  "      \"max\": ".data ++ fmt_f15 stats.max ++ ",\n".data ++
  "      \"samples\": ".data ++ fmt_d stats.samples ++ "\n".data ++
  (if last then "    \x7d\n" else "    \x7d,\n").data

/-- The loop of `save_baseline` that writes the event names. -/
def events_text : List String → List Char
  | [] => []
  | [e] => ("\"" ++ e ++ "\"").data
  | e :: es => ("\"" ++ e ++ "\"").data ++ ", ".data ++ events_text es

/-- The text that `save_baseline` writes. -/
def baseline_text (baseline : baseline_t) (app_name : String) (config : config_t)
    (sample_count : Int) (timestamp : String) : List Char :=
  "\x7b\n".data ++
  "  \"metadata\": \x7b\n".data ++
  ("    \"application_name\": \"" ++ app_name ++ "\",\n").data ++
  ("    \"collection_timestamp\": \"" ++ timestamp ++ "\",\n").data ++
  "    \"runs_executed\": ".data ++ fmt_d config.runs_per_app ++ ",\n".data ++
  "    \"samples_collected\": ".data ++ fmt_d sample_count ++ ",\n".data ++
  "    \"events\": [".data ++
  events_text (config.perf_events.take config.num_events.toNat) ++
  "],\n".data ++
  "    \"config\": \x7b\n".data ++
  "      \"sampling_interval_ms\": ".data ++ fmt_d config.sampling_interval_ms ++ ",\n".data ++
  "      \"core_affinity\": ".data ++ fmt_d config.core_affinity ++ "\n".data ++
  "    \x7d\n".data ++
  "  \x7d,\n".data ++
  "  \"baseline_statistics\": \x7b\n".data ++
  section_text "ipc" baseline.ipc false ++
  section_text "branch_miss_rate" baseline.branch_miss_rate false ++
  section_text "cache_miss_rate" baseline.cache_miss_rate false ++
  section_text "l1d_mpki" baseline.l1d_mpki false ++
  section_text "itlb_mpki" baseline.itlb_mpki false ++
  section_text "dtlb_mpki" baseline.dtlb_mpki true ++
  "  \x7d\n".data ++
  "\x7d\n".data

/-- Function `save_baseline` of baseline_collector.c: the return code and the text
of the file, `none` when the file cannot be opened for writing. -/
def save_baseline (baseline : baseline_t) (app_name : String) (config : config_t)
    (sample_count : Int) (writable : Bool) (timestamp : String) :
    Int × Option (List Char) :=
  if ¬ writable then (-1, none)
  else (0, some (baseline_text baseline app_name config sample_count timestamp))

/-- The name of the profile that `collect_baseline` writes for an application. -/
def baseline_file (config : config_t) (app_name : String) : String :=
  String.mk ((config.baseline_directory ++ "/baseline_" ++ app_name ++ ".json").data.take 255)

/-- Function `collect_baseline` of baseline_collector.c: the return code and the
profile written (file name and text), `none` when no profile is written. The
whole result is `none` when the call does not terminate. -/
def collect_baseline (ids : hpc_ids_t) (app_name : String) (env : collect_env) :
    Option (Int × Option (String × List Char)) :=
  if ¬ env.executable then some (-1, none)
  else
    match collected_features ids.config env with
    | none => none
    | some feature_samples =>
      let feature_count : Int := (feature_samples.length : Int)
      if feature_count < ids.config.min_samples_per_app then some (-1, none)
      else
        let computed := compute_baseline_from_features baseline_t.zero feature_samples
        if computed.1 ≠ 0 then some (-1, none)
        else
          let saved := save_baseline computed.2 app_name ids.config feature_count
            env.writable env.timestamp
          if saved.1 ≠ 0 then some (-1, none)
          else some (0, saved.2.map fun text => (baseline_file ids.config app_name, text))

/-- The loop of `collect_all_baselines` over the applications found, from a given
`success_count`. -/
def collect_all_loop (ids : hpc_ids_t) :
    List (String × collect_env) → Int → Option Int
  | [], success_count => some success_count
  | (app, env) :: apps, success_count =>
    match collect_baseline ids app env with
    | none => none
    | some r =>
      if r.1 = 0 then collect_all_loop ids apps (success_count + 1)
      else collect_all_loop ids apps success_count

/-- Function `collect_all_baselines` of baseline_collector.c. `apps` is what
`get_available_apps` found, each application with what the operating system
answers while it is collected. -/
def collect_all_baselines (ids : hpc_ids_t) (apps : List (String × collect_env)) :
    Option Int :=
  let app_count := apps.length
  if app_count = 0 then some (-1)
  else collect_all_loop ids apps 0

/-- The interval record of `monitor_system` (`interval_data_t`); `count` is the
length of `measurements`. -/
structure interval_data_t where
  timestamp : ℚ
  measurements : List hpc_measurement_t

/-- The search loop of `monitor_system` for an interval within 1 ms of
`timestamp`: the index of the first one, counted from `j`. -/
def find_interval (timestamp : ℚ) : List interval_data_t → Nat → Option Nat
  | [], _ => none
  | iv :: rest, j =>
    if |iv.timestamp - timestamp| < 1 / 1000 then some j
    else find_interval timestamp rest (j + 1)

/-- The statement `intervals[interval_idx].measurements[count++] = measurements[i]`
of `monitor_system`, under its guard `count < MAX_EVENTS`. -/
def store_at (m : hpc_measurement_t) : Nat → List interval_data_t → List interval_data_t
  | _, [] => []
  | 0, iv :: rest =>
    (if iv.measurements.length < MAX_EVENTS then
      { iv with measurements := iv.measurements ++ [m] } else iv) :: rest
  | j + 1, iv :: rest => iv :: store_at m j rest

/-- One iteration of the grouping loop of `monitor_system`. -/
def group_step (intervals : List interval_data_t) (m : hpc_measurement_t) :
    List interval_data_t :=
  let timestamp := m.perf_time
  match find_interval timestamp intervals 0 with
  | some interval_idx => store_at m interval_idx intervals
  | none =>
    if intervals.length < 1000 then
      store_at m intervals.length
        (intervals ++ [{ timestamp := timestamp, measurements := [] }])
    else intervals

/-- The grouping loop of `monitor_system`. -/
def group_measurements (measurements : List hpc_measurement_t) : List interval_data_t :=
  measurements.foldl group_step []

/-- One iteration of the processing loop of `monitor_system`. -/
def process_interval (now : Int) (ids : hpc_ids_t) (iv : interval_data_t) : hpc_ids_t :=
  if iv.measurements.length ≥ 3 then
    if (engineer_features iv.measurements (now : ℚ) feature_vector_t.zero).1 = 0 then
      (detect_anomalies ids
        (engineer_features iv.measurements (now : ℚ) feature_vector_t.zero).2 none now).2
    else ids
  else ids

/-- Function `monitor_system` of core.c. `built` tells whether the `perf` command
could be built, `session` is what `execute_perf_command` delivered (`none` when it
failed); the clock reads `now` during the session. -/
def monitor_system (ids : hpc_ids_t) (built : Bool)
    (session : Option (List hpc_measurement_t)) (now : Int) : Int × hpc_ids_t :=
  if ¬ built then (-1, ids)
  else
    match session with
    | none => (-1, ids)
    | some measurements =>
      if measurements.length = 0 then (-1, ids)
      else (0, (group_measurements measurements).foldl (process_interval now) ids)

/-- The intervals that the processing loop of `monitor_system` passes to
`engineer_features`. -/
def engineered_intervals (intervals : List interval_data_t) : List interval_data_t :=
  intervals.filter fun iv => decide (iv.measurements.length ≥ 3)

/-- A sample of a counter at a given `perf_time`. -/
def sample_at (perf_time : ℚ) (counter : String) (value : Nat) : hpc_measurement_t :=
  { wall_time := 0, perf_time := perf_time, counter := counter, value := value,
    duration_ms := 200 }

/-- A stream of three intervals of the events cycles, instructions, branches in
which the `branches` sample of the second interval was not counted. -/
def dropped_counter_stream : List hpc_measurement_t :=
  [sample_at (1 / 5) "cycles" 100, sample_at (1 / 5) "instructions" 200,
   sample_at (1 / 5) "branches" 10,
   sample_at (2 / 5) "cycles" 100, sample_at (2 / 5) "instructions" 400,
   sample_at (3 / 5) "cycles" 50, sample_at (3 / 5) "instructions" 300,
   sample_at (3 / 5) "branches" 10]

/-- Seventeen samples of one interval. -/
def crowded_stream : List hpc_measurement_t :=
  List.replicate 17 (sample_at 0 "cycles" 1)

/-- A detector as `hpc_ids_init` leaves its memory after `memset`. -/
def config_t.zero : config_t :=
  { app_directory := "", baseline_directory := "", alert_output_file := "",
    sampling_interval_ms := 0, runs_per_app := 0, min_samples_per_app := 0,
    max_runtime_seconds := 0, core_affinity := 0, robust_z_threshold_medium := 0,
    robust_z_threshold_high := 0, robust_z_threshold_critical := 0,
    alert_cooldown_seconds := 0, use_robust_statistics := false, perf_events := [],
    num_events := 0 }

/-- The detector after `memset(ids, 0, sizeof(hpc_ids_t))`. -/
def hpc_ids_t.zero : hpc_ids_t :=
  { config := config_t.zero, global_baseline := baseline_t.zero, app_baselines := [],
    feature_samples := [], alerts := [], last_alert_time := 0 }

/-- The part of a name before its last dot (the whole name when it has none), as
`strrchr` and the overwriting of the dot by `\0` leave it. -/
def cut_at_last_dot (name : List Char) : List Char :=
  match name.reverse.dropWhile (fun c => c ≠ '.') with
  | [] => name
  | _ :: before => before.reverse

/-- A directory entry: its name and, when the file can be opened, its contents. -/
structure dir_entry where
  d_name : String
  contents : Option (List Char)

/-- The contents of the file of the given name in the listed directory, `none`
when the directory has no such file or it cannot be opened. -/
def open_in_directory (listing : List dir_entry) (name : List Char) :
    Option (List Char) :=
  match listing.find? (fun e => e.d_name.data = name) with
  | some e => e.contents
  | none => none

/-- The loop of `load_app_baselines` over the directory entries; `listing` is the
whole directory. The last dot of `d_name` is overwritten by `\0` before the path
is built from `d_name`, so the file that `load_baseline` opens is
`baseline_<app_name>`, without the extension. -/
def load_app_loop (listing : List dir_entry) :
    List dir_entry → List app_baseline_t → List app_baseline_t
  | [], records => records
  | entry :: entries, records =>
    if records.length < MAX_APPS then
      if starts_with entry.d_name.data "baseline_".data ∧
          (strstr entry.d_name.data ".json".data).isSome then
        let app_name := cut_at_last_dot (entry.d_name.data.drop 9)
        let d_name := entry.d_name.data.take 9 ++ app_name
        let loaded := load_baseline baseline_t.zero (open_in_directory listing d_name)
        if loaded.1 = 0 then
          load_app_loop listing entries
            (records ++ [{ name := String.mk app_name, baseline := loaded.2,
                           has_baseline := true }])
        else load_app_loop listing entries records
      else load_app_loop listing entries records
    else records

/-- Function `load_app_baselines` of core.c. `directory` is the listing of the
baseline directory, `none` when it cannot be opened. -/
def load_app_baselines (ids : hpc_ids_t) (directory : Option (List dir_entry)) :
    Int × hpc_ids_t :=
  match directory with
  | none => (-1, ids)
  | some entries =>
    let records := load_app_loop entries entries []
    ((records.length : Int), { ids with app_baselines := records })

/-- Function `hpc_ids_init` of core.c. `loaded_config` is what `load_config`
returns and leaves in `ids->config`, `global_file` the contents of the global
profile `rigorous_baseline.json` (`none` when it cannot be opened), `directory` the
listing of the baseline directory. -/
def hpc_ids_init (loaded_config : Int × config_t) (global_file : Option (List Char))
    (directory : Option (List dir_entry)) : Int × hpc_ids_t :=
  let ids := hpc_ids_t.zero
  let ids := { ids with config := loaded_config.2 }
  if loaded_config.1 ≠ 0 then (-1, ids)
  else
    let ids := { ids with
      global_baseline := (load_baseline ids.global_baseline global_file).2 }
    let ids := (load_app_baselines ids directory).2
    let ids := { ids with last_alert_time := 0 }
    (0, ids)

/-- Whether `collect_baseline` terminates with return code 0 for an application. -/
def collect_succeeds (ids : hpc_ids_t) (p : String × collect_env) : Bool :=
  match collect_baseline ids p.1 p.2 with
  | some r => decide (r.1 = 0)
  | none => false

/-- A configuration with three events, one run per application and a minimum of
one feature vector. -/
def small_config : config_t :=
  { default_config with
    perf_events := ["cycles", "instructions", "branches"], num_events := 3,
    runs_per_app := 1, min_samples_per_app := 1 }

/-- A detector with the small configuration. -/
def small_detector : hpc_ids_t :=
  detector_of small_config (baseline_of_ipc 1 (1 / 10)) []

/-- An environment in which every `perf` run fails. -/
def failing_env : collect_env :=
  { executable := true, run_outcome := fun _ => none, writable := true,
    timestamp := "2024-01-01T00:00:00", now := 0 }

/-- An environment in which every `perf` run delivers one interval of the three
events. -/
def good_env : collect_env :=
  { executable := true,
    run_outcome := fun _ =>
      some [sample_at (1 / 5) "cycles" 100, sample_at (1 / 5) "instructions" 200,
            sample_at (1 / 5) "branches" 10],
    writable := true, timestamp := "2024-01-01T00:00:00", now := 0 }

/-- An environment in which every `perf` run delivers the stream with the dropped
counter. -/
def dropped_counter_env : collect_env :=
  { executable := true, run_outcome := fun _ => some dropped_counter_stream,
    writable := true, timestamp := "2024-01-01T00:00:00", now := 0 }

/-- The detector that `hpc_ids_init` builds when the default configuration is
loaded, the global profile cannot be opened and the baseline directory is
empty. -/
def detector_without_global : hpc_ids_t :=
  (hpc_ids_init (0, default_config) none (some [])).2

/-- A profile with the `baseline_statistics` object and no feature section. -/
def empty_profile : List Char :=
  "\x7b\"baseline_statistics\": \x7b\x7d\x7d".data

/-- A profile whose only feature section is `ipc`, without the `mad` statistic. -/
def profile_without_mad : List Char :=
  ("\x7b\"baseline_statistics\": \x7b\"ipc\": \x7b\"median\": 1.5, \"min\": 1.0, " ++
    "\"max\": 2.0, \"samples\": 10\x7d\x7d\x7d").data

/-- A baseline whose `ipc` summary has median 1.5 and a MAD of about 1.23e-5, with
seventeen significant digits. -/
def small_mad_baseline : baseline_t :=
  baseline_of_ipc (3 / 2) (12345678901234567 / 1000000000000000000000)

/-- The text that `save_baseline` writes for `small_mad_baseline`. -/
def small_mad_profile : Option (List Char) :=
  (save_baseline small_mad_baseline "matmul" default_config 50 true
    "2024-01-01T00:00:00").2

/-- The number of samples stored in the intervals. -/
def interval_total (intervals : List interval_data_t) : Nat :=
  (intervals.map fun iv => iv.measurements.length).sum

/-- A capacity of the grouping loop is reached: 1000 intervals exist, or some
interval holds `MAX_EVENTS` samples. -/
def capacity_reached (intervals : List interval_data_t) : Prop :=
  intervals.length ≥ 1000 ∨ ∃ iv ∈ intervals, iv.measurements.length ≥ MAX_EVENTS

/-- What the grouping loop keeps true of its intervals after it has read the
samples `seen`: every stored sample is within 1 ms of the timestamp of its
interval, every interval holds its samples in stream order and at most
`MAX_EVENTS` of them, and there are at most 1000 intervals. -/
def grouping_invariant (seen : List hpc_measurement_t) (intervals : List interval_data_t) :
    Prop :=
  intervals.length ≤ 1000 ∧
  ∀ iv ∈ intervals,
    (∀ m ∈ iv.measurements, |iv.timestamp - m.perf_time| < 1 / 1000) ∧
    iv.measurements.Sublist seen ∧
    iv.measurements.length ≤ MAX_EVENTS

/-- The place of a severity in the order normal < medium < high < critical. -/
def severity_rank (severity : String) : Nat :=
  if severity = "critical" then 3
  else if severity = "high" then 2
  else if severity = "medium" then 1
  else 0

/-! ## Configuration

A shallow embedding of `load_config` of `src/src/config.c` and of the remaining
extractors of `src/src/simple_json.c`. The contents of the configuration file are
a list of characters, `none` when the file cannot be opened; a failing `malloc`
is outside the model. The search pattern of an extractor is not truncated: every
key that `load_config` asks for is shorter than the 128 bytes of
`search_pattern`.
-/

/-- Library routine `strchr`: the part of the text from the first occurrence of
the character on, `none` when there is none. -/
def strchr : List Char → Char → Option (List Char)
  | [], _ => none
  | c :: cs, x => if c = x then some (c :: cs) else strchr cs x

/-- The characters of the text before the first occurrence of `x`: what lies
between `start` and `end = strchr(start, x)`. -/
def before_char : List Char → Char → List Char
  | [], _ => []
  | c :: cs, x => if c = x then [] else c :: before_char cs x

/-- Function `extract_json_string` of simple_json.c; the result `NULL` is `none`. -/
def extract_json_string (json : List Char) (key : String) : Option (List Char) :=
  let search_pattern := ("\"" ++ key ++ "\":").data
  match strstr json search_pattern with
  | none => none
  | some start =>
    match skip_json_space (start.drop search_pattern.length) with
    | '"' :: start =>
      if (strchr start '"').isNone then none
      else
        let len := (before_char start '"').length
        let len := if len ≥ 256 then 255 else len
        some (start.take len)
    | _ => none

/-- Function `extract_json_bool` of simple_json.c. -/
def extract_json_bool (json : List Char) (key : String) : Bool :=
  let search_pattern := ("\"" ++ key ++ "\":").data
  match strstr json search_pattern with
  | none => false
  | some start =>
    starts_with (skip_json_space (start.drop search_pattern.length)) "true".data

/-- The loop `while (*start == ' ' || *start == '\t' || *start == '\n' ||
*start == ',') start++` of `extract_json_string_array`. -/
def skip_array_space : List Char → List Char
  | [] => []
  | c :: cs =>
    if c = ' ' ∨ c = '\t' ∨ c = '\n' ∨ c = ',' then skip_array_space cs else c :: cs

/-- The loop of `extract_json_string_array` over the items. The first argument
is `max_items - count`, the room left in `results`; `results` holds the `count`
items stored so far. -/
def string_array_loop : Nat → List Char → List (List Char) → List (List Char)
  | 0, _, results => results
  | room + 1, start, results =>
    if start = [] ∨ start.head? = some ']' then results
    else
      match skip_array_space start with
      | '"' :: start =>
        match strchr start '"' with
        | none => results
        | some e =>
          let len := (before_char start '"').length
          let len := if len ≥ 64 then 63 else len
          string_array_loop room (e.drop 1) (results ++ [start.take len])
      | _ => results

/-- Function `extract_json_string_array` of simple_json.c: the items stored in
`results`; the return value `count` is their number. -/
def extract_json_string_array (json : List Char) (key : String) (max_items : Nat) :
    List (List Char) :=
  let search_pattern := ("\"" ++ key ++ "\":").data
  match strstr json search_pattern with
  | none => []
  | some start =>
    match skip_json_space (start.drop search_pattern.length) with
    | '[' :: start => string_array_loop max_items start []
    | _ => []

/-- The second half of `load_config`, from `// Parse JSON values using simple
parser` to `free(json_data)`: the options that the text of the file gives replace
the defaults in `config`. -/
def parse_config_values (config : config_t) (json_data : List Char) : config_t :=
  let str_val := extract_json_string json_data "app_directory"
  let config := if str_val.isSome then
      { config with app_directory := String.mk (str_val.getD []) }
    else config
  let str_val := extract_json_string json_data "baseline_directory"
  let config := if str_val.isSome then
      { config with baseline_directory := String.mk (str_val.getD []) }
    else config
  let str_val := extract_json_string json_data "alert_output_file"
  let config := if str_val.isSome then
      { config with alert_output_file := String.mk (str_val.getD []) }
    else config
  let int_val := extract_json_int json_data "sampling_interval_ms"
  let config := if int_val > 0 then { config with sampling_interval_ms := int_val }
    else config
  let int_val := extract_json_int json_data "runs_per_app"
  let config := if int_val > 0 then { config with runs_per_app := int_val } else config
  let int_val := extract_json_int json_data "min_samples_per_app"
  let config := if int_val > 0 then { config with min_samples_per_app := int_val }
    else config
  let int_val := extract_json_int json_data "max_runtime_seconds"
  let config := if int_val > 0 then { config with max_runtime_seconds := int_val }
    else config
  let int_val := extract_json_int json_data "core_affinity"
  let config := if int_val ≥ 0 then { config with core_affinity := int_val } else config
  let double_val := extract_json_double json_data "robust_z_threshold_medium"
  let config := if double_val > 0 then
      { config with robust_z_threshold_medium := double_val }
    else config
  let double_val := extract_json_double json_data "robust_z_threshold_high"
  let config := if double_val > 0 then
      { config with robust_z_threshold_high := double_val }
    else config
  let double_val := extract_json_double json_data "robust_z_threshold_critical"
  let config := if double_val > 0 then
      { config with robust_z_threshold_critical := double_val }
    else config
  let int_val := extract_json_int json_data "alert_cooldown_seconds"
  let config := if int_val > 0 then { config with alert_cooldown_seconds := int_val }
    else config
  let config := { config with
    use_robust_statistics := extract_json_bool json_data "use_robust_statistics" }
  let events := extract_json_string_array json_data "perf_events" MAX_EVENTS
  let num_events : Int := (events.length : Int)
  let config := if num_events > 0 then
      { config with num_events := num_events, perf_events := events.map String.mk }
    else config
  config

/-- Function `load_config` of config.c. `config` is the previous contents of
`*config`, `file` the contents of the configuration file, `none` when it cannot
be opened. Every field is assigned its default first. -/
def load_config (config : config_t) (file : Option (List Char)) : Int × config_t :=
  let config := { config with
    app_directory := "./test_apps",
    baseline_directory := "./baselines",
    alert_output_file := "hpc_ids_alerts.jsonl",
    sampling_interval_ms := 200,
    runs_per_app := 10,
    min_samples_per_app := 50,
    max_runtime_seconds := 60,
    core_affinity := 0,
    robust_z_threshold_medium := 3,
    robust_z_threshold_high := 4,
    robust_z_threshold_critical := 5,
    alert_cooldown_seconds := 30,
    use_robust_statistics := true,
    perf_events := ["cycles", "instructions", "branches", "branch-misses",
      "cache-references", "cache-misses", "L1-dcache-loads", "L1-dcache-load-misses",
      "iTLB-loads", "iTLB-load-misses", "dTLB-loads", "dTLB-load-misses", "cpu-clock"],
    num_events := 13 }
  match file with
  | none => (0, config)
  | some json_data =>
    let length := json_data.length
    if length ≤ 0 then (0, config)
    else (0, parse_config_values config json_data)

/-- A configuration file that sets only `runs_per_app`. -/
def runs_only_file : List Char :=
  "\x7b\"runs_per_app\": 5\x7d".data

/-- A configuration file whose medium threshold exceeds its high threshold. -/
def misordered_file : List Char :=
  "\x7b\"robust_z_threshold_medium\": 5.0, \"robust_z_threshold_high\": 4.0\x7d".data

/-- A configuration file that sets `alert_cooldown_seconds` to 0. -/
def zero_cooldown_file : List Char :=
  "\x7b\"alert_cooldown_seconds\": 0\x7d".data

/-- A configuration file that sets `alert_cooldown_seconds` to 45. -/
def cooldown_45_file : List Char :=
  "\x7b\"alert_cooldown_seconds\": 45\x7d".data

/-! ## Monitoring one process or one application

A shallow embedding of `monitor_pid` and `monitor_app` of `src/src/core.c`. As in
`monitor_system`, what `build_perf_command` and `execute_perf_command` deliver is
an argument and the clock reads `now` during the session. `num_events` is read
once: `detect_anomalies` does not change the configuration.
-/

/-- The processing loop of `monitor_pid` and `monitor_app` (for
`num_events ≥ 1`): `for (i = 0; i < measurement_count; i += num_events)`.
`measurements` is what is left from index `i` on; the first argument bounds the
number of iterations. -/
def monitor_loop (num_events : Nat) (app_name : Option String) (now : Int) :
    Nat → List hpc_measurement_t → hpc_ids_t → hpc_ids_t
  | 0, _, ids => ids
  | fuel + 1, measurements, ids =>
    if measurements.length > 0 then
      let interval := measurements.take num_events
      let interval_count := interval.length
      let ids :=
        if interval_count = num_events then
          if (engineer_features interval (now : ℚ) feature_vector_t.zero).1 = 0 then
            (detect_anomalies ids
              (engineer_features interval (now : ℚ) feature_vector_t.zero).2 app_name now).2
          else ids
        else ids
      monitor_loop num_events app_name now fuel (measurements.drop num_events) ids
    else ids

/-- The processing of the measurements of a session in `monitor_pid` and
`monitor_app`. With `num_events ≤ 0` the index `i` never advances, so the loop does
not terminate once it is entered. -/
def process_session (num_events : Int) (app_name : Option String) (now : Int)
    (measurements : List hpc_measurement_t) (ids : hpc_ids_t) : Option hpc_ids_t :=
  if num_events ≤ 0 then
    if measurements.length > 0 then none else some ids
  else
    some (monitor_loop num_events.toNat app_name now measurements.length measurements ids)

/-- Function `monitor_pid` of core.c. `app_name` is what `get_app_name_from_pid`
answers for the process, `built` tells whether the `perf` command could be built,
`session` is what `execute_perf_command` delivered (`none` when it failed). The
result is `none` when the call does not terminate. -/
def monitor_pid (ids : hpc_ids_t) (app_name : String) (built : Bool)
    (session : Option (List hpc_measurement_t)) (now : Int) : Option (Int × hpc_ids_t) :=
  if ¬ built then some (-1, ids)
  else
    match session with
    | none => some (-1, ids)
    | some measurements =>
      match process_session ids.config.num_events (some app_name) now measurements ids with
      | none => none
      | some ids => some (0, ids)

/-- Function `monitor_app` of core.c. `executable` is the answer of
`access(app_path, X_OK)`; the other arguments are those of `monitor_pid`. -/
def monitor_app (ids : hpc_ids_t) (app_name : String) (executable : Bool) (built : Bool)
    (session : Option (List hpc_measurement_t)) (now : Int) : Option (Int × hpc_ids_t) :=
  if ¬ executable then some (-1, ids)
  else if ¬ built then some (-1, ids)
  else
    match session with
    | none => some (-1, ids)
    | some measurements =>
      match process_session ids.config.num_events (some app_name) now measurements ids with
      | none => none
      | some ids => some (0, ids)

/-- The complete chunks of `n` consecutive samples of a measurement sequence:
chunk `k` holds the samples `k * n .. k * n + n - 1`, for `k < count / n`; a
trailing partial chunk is none of them. -/
def complete_chunks (n : Nat) (measurements : List hpc_measurement_t) :
    List (List hpc_measurement_t) :=
  (List.range (measurements.length / n)).map fun k => (measurements.drop (k * n)).take n

/-- The feature vector of a chunk, when `engineer_features` accepts it. -/
def chunk_feature (now : ℚ) (chunk : List hpc_measurement_t) : Option feature_vector_t :=
  if (engineer_features chunk now feature_vector_t.zero).1 = 0 then
    some (engineer_features chunk now feature_vector_t.zero).2
  else none

/-- The feature vectors of the complete chunks, in order. -/
def chunk_features (n : Nat) (now : ℚ) (measurements : List hpc_measurement_t) :
    List feature_vector_t :=
  (complete_chunks n measurements).filterMap (chunk_feature now)

/-! ## Sample source

A shallow embedding of `parse_perf_line` and `execute_perf_command` of
`src/src/perf_integration.c`. A line is the list of its characters (a C string
holds no NUL character). What `popen` and `fgets` deliver and the readings of
`time(NULL)` are arguments; a failing `strdup` is outside the model.
-/

/-- Constant `SAMPLING_INTERVAL_MS` of hpc_ids.h. -/
def SAMPLING_INTERVAL_MS : Int := 200

/-- The largest `unsigned long long`, 64 bits wide. -/
def ULLONG_MAX : Nat := 2 ^ 64 - 1

/-- Library routine `strtoull(s, NULL, 10)`: leading white space, an optional
sign, the longest run of decimal digits; the value is `ULLONG_MAX` when the digits
exceed it, and is negated in the unsigned type after a minus sign. -/
def strtoull (s : List Char) : Nat :=
  let signed := read_sign (skip_space s)
  let digits := read_digits signed.2 0 0
  if digits.1 > ULLONG_MAX then ULLONG_MAX
  else if signed.1 then (2 ^ 64 - digits.1) % 2 ^ 64 else digits.1

/-- The scan `while (*ptr && *ptr != ',') ptr++` with the step over the comma:
the characters of the field that starts at `ptr`, and `ptr` after the field. -/
def next_field : List Char → List Char × List Char
  | [] => ([], [])
  | c :: cs => if c = ',' then ([], cs) else (c :: (next_field cs).1, (next_field cs).2)

/-- The loop `while (*token == ' ' || *token == '\t') token++`. -/
def skip_blanks : List Char → List Char
  | [] => []
  | c :: cs => if c = ' ' ∨ c = '\t' then skip_blanks cs else c :: cs

/-- The loop `while (end > token && (*end == ' ' || *end == '\t' ||
*end == '\n')) { *end = '\0'; end--; }` from `end = token + strlen(token) - 1`:
trailing blanks and newlines are cut, but never the first character of the
token. -/
def trim_end : List Char → List Char
  | [] => []
  | c :: rest =>
    c :: (rest.reverse.dropWhile fun e => e = ' ' || e = '\t' || e = '\n').reverse

/-- The token of a field: leading blanks skipped, the end trimmed. -/
def trim_token (field_text : List Char) : List Char :=
  trim_end (skip_blanks field_text)

/-- The `switch (field)` of `parse_perf_line`; `none` is `goto cleanup`. -/
def store_field (field : Nat) (token : List Char) (measurement : hpc_measurement_t) :
    Option hpc_measurement_t :=
  match field with
  | 0 => some { measurement with perf_time := atof token }
  | 1 =>
    if (strstr token "<not supported>".data).isSome ∨
        (strstr token "<not counted>".data).isSome ∨
        (strstr token "<not available>".data).isSome then none
    else some { measurement with value := strtoull token }
  | 3 => some { measurement with counter := String.mk (token.take 63) }
  | _ => some measurement

/-- The loop `while (*ptr && field < 8)` of `parse_perf_line`. The first argument
is `8 - field`. The result is the final `field` (`none` after `goto cleanup`) and
the measurement. -/
def field_loop : Nat → Nat → List Char → hpc_measurement_t → Option Nat × hpc_measurement_t
  | 0, field, _, measurement => (some field, measurement)
  | room + 1, field, ptr, measurement =>
    if ptr = [] then (some field, measurement)
    else
      let token := trim_token (next_field ptr).1
      match store_field field token measurement with
      | none => (none, measurement)
      | some measurement => field_loop room (field + 1) (next_field ptr).2 measurement

/-- Function `parse_perf_line` of perf_integration.c. `measurement` is the
previous contents of `*measurement`. -/
def parse_perf_line (line : List Char) (wall_time : ℚ) (measurement : hpc_measurement_t) :
    Int × hpc_measurement_t :=
  let measurement := { measurement with
    wall_time := wall_time, duration_ms := SAMPLING_INTERVAL_MS }
  let scanned := field_loop 8 0 line measurement
  match scanned.1 with
  | none => (-1, scanned.2)
  | some field =>
    if field ≥ 4 ∧ scanned.2.counter.length > 0 then (0, scanned.2) else (-1, scanned.2)

/-- One line that `fgets` delivers in `execute_perf_command`, with the readings of
`time(NULL)` in the timeout test and for `wall_time`. -/
structure perf_line where
  text : List Char
  clock_at_check : Int
  clock_at_parse : Int

/-- The local `measurement` of `execute_perf_command` before `parse_perf_line`
fills it; no field of it is read before it is written. -/
def hpc_measurement_t.zero : hpc_measurement_t :=
  { wall_time := 0, perf_time := 0, counter := "", value := 0, duration_ms := 0 }

/-- The loop `while (fgets(line, sizeof(line), fp) && *count < MAX_SAMPLES)` of
`execute_perf_command`; `measurements` holds the `*count` samples stored so far. -/
def read_loop (start_time timeout : Int) :
    List perf_line → List hpc_measurement_t → List hpc_measurement_t
  | [], measurements => measurements
  | line :: lines, measurements =>
    if measurements.length < MAX_SAMPLES then
      if timeout > 0 ∧ line.clock_at_check - start_time > timeout then measurements
      else if line.text.head? = some '#' ∨ line.text.head? = some '\n' ∨
          line.text.head? = some ' ' then
        read_loop start_time timeout lines measurements
      else if (strchr line.text ',').isNone then
        read_loop start_time timeout lines measurements
      else if (parse_perf_line line.text (line.clock_at_parse : ℚ)
          hpc_measurement_t.zero).1 = 0 then
        read_loop start_time timeout lines
          (measurements ++ [(parse_perf_line line.text (line.clock_at_parse : ℚ)
            hpc_measurement_t.zero).2])
      else read_loop start_time timeout lines measurements
    else measurements

/-- Function `execute_perf_command` of perf_integration.c: the return code and the
samples stored (`*count` is their number). `output` is what the command prints,
line by line, `none` when `popen` fails; `start_time` is the clock at the start. -/
def execute_perf_command (output : Option (List perf_line)) (start_time timeout : Int) :
    Int × List hpc_measurement_t :=
  match output with
  | none => (-1, [])
  | some lines =>
    let measurements := read_loop start_time timeout lines []
    if measurements.length = 0 then (-1, measurements) else (0, measurements)

/-- A field without its surrounding blanks: leading spaces and tabs and trailing
spaces, tabs and newlines removed. -/
def strip_blanks (field_text : List Char) : List Char :=
  ((field_text.dropWhile fun c => c = ' ' || c = '\t').reverse.dropWhile
    fun e => e = ' ' || e = '\t' || e = '\n').reverse

/-- The number that a sequence of decimal digits denotes. -/
def decimal_value (digits : List Char) : Nat :=
  digits.foldl (fun acc c => acc * 10 + (c.toNat - 48)) 0

/-- The line of a record whose counter field is empty, as `fgets` delivers it. -/
def empty_counter_line : perf_line :=
  { text := "1.0,100,,\n".data, clock_at_check := 50, clock_at_parse := 50 }

/-- A record whose counter name has 64 characters and whose value is `2 ^ 64`. -/
def long_counter_line : List Char :=
  "1.5,18446744073709551616,,".data ++ List.replicate 64 'c' ++ ",100.00".data

/-- An upper bound on the number of fields that the loop of `parse_perf_line` can
scan from `ptr`: none for the empty text, else one more than the commas. -/
def field_bound (ptr : List Char) : Nat :=
  if ptr = [] then 0 else ptr.count ',' + 1

/-! ## The command line programs

A shallow embedding of `main` of `src/src/hpc_ids_main.c` and of `main` of
`src/src/baseline_collector_main.c`. The command line is the sequence of options
that `getopt_long` returns, each with its `optarg`. What the operating system
answers while the program runs is an argument. The result is the value that
`main` returns (the exit code) together with the operations that were started, in
order; it is `none` when the program does not terminate.
-/

/-- What `getopt_long` returns for one option of `hpc_ids`: the option character
(1000 for `--collect-app`, `?` for an option it does not know) and `optarg`. -/
inductive cli_option where
  | m
  | p (optarg : List Char)
  | a (optarg : String)
  | d (optarg : List Char)
  | c (optarg : String)
  | b
  | collect_app (optarg : String)
  | h
  | unknown
  deriving DecidableEq

/-- The locals of `main` of hpc_ids_main.c that the option loop sets. -/
structure cli_state where
  monitor_mode : Bool
  collect_mode : Bool
  target_pid : Int
  app_name : Option String
  collect_app : Option String
  config_file : String
  duration : Int
  deriving DecidableEq

/-- The initial values of the locals of `main`. -/
def cli_state.init : cli_state :=
  { monitor_mode := false, collect_mode := false, target_pid := 0, app_name := none,
    collect_app := none, config_file := "config/rigorous_hpc_config.json", duration := 60 }

/-- The option loop of `main` of hpc_ids_main.c. `Except.error code` is a `return
code` from inside the loop. -/
def parse_options : List cli_option → cli_state → Except Int cli_state
  | [], st => Except.ok st
  | cli_option.m :: rest, st => parse_options rest { st with monitor_mode := true }
  | cli_option.p optarg :: rest, st => parse_options rest { st with target_pid := atoi optarg }
  | cli_option.a optarg :: rest, st => parse_options rest { st with app_name := some optarg }
  | cli_option.d optarg :: rest, st =>
    let duration := atoi optarg
    if duration ≤ 0 then Except.error 1
    else parse_options rest { st with duration := duration }
  | cli_option.c optarg :: rest, st => parse_options rest { st with config_file := optarg }
  | cli_option.b :: rest, st => parse_options rest { st with collect_mode := true }
  | cli_option.collect_app optarg :: rest, st =>
    parse_options rest { st with collect_app := some optarg }
  | cli_option.h :: _, _ => Except.error 0
  | cli_option.unknown :: _, _ => Except.error 1

/-- The operations that `main` can start. -/
inductive operation where
  | hpc_ids_init
  | monitor_pid
  | monitor_app
  | monitor_system
  | collect_all_baselines
  | collect_baseline
  deriving DecidableEq

/-- What the operating system answers while a program runs: what `load_config`
returns and leaves in `ids->config` for a configuration file, the global profile
and the listing of the baseline directory at start-up; for the monitoring modes
the name of the process, whether the application is executable, whether the
`perf` command could be built, what `execute_perf_command` delivered and the
clock; for the collecting modes the applications found and what is answered while
each is collected. -/
structure main_env where
  loaded_config : String → Int × config_t
  global_file : Option (List Char)
  directory : Option (List dir_entry)
  app_name_of_pid : Int → String
  executable : Bool
  built : Bool
  session : Option (List hpc_measurement_t)
  now : Int
  apps : List (String × collect_env)
  collect_env_of : String → collect_env

/-- The part of `main` of hpc_ids_main.c after `hpc_ids_init` has succeeded: the
operation of the mode and the value returned. -/
def run_mode (st : cli_state) (ids : hpc_ids_t) (env : main_env) :
    Option (Int × List operation) :=
  if st.monitor_mode then
    if st.target_pid > 0 then
      match monitor_pid ids (env.app_name_of_pid st.target_pid) env.built env.session
          env.now with
      | none => none
      | some r => some (r.1, [operation.hpc_ids_init, operation.monitor_pid])
    else if st.app_name.isSome then
      match monitor_app ids (st.app_name.getD "") env.executable env.built env.session
          env.now with
      | none => none
      | some r => some (r.1, [operation.hpc_ids_init, operation.monitor_app])
    else
      some ((monitor_system ids env.built env.session env.now).1,
        [operation.hpc_ids_init, operation.monitor_system])
  else if st.collect_mode then
    match collect_all_baselines ids env.apps with
    | none => none
    | some result =>
      if result > 0 then
        some (result, [operation.hpc_ids_init, operation.collect_all_baselines])
      else some (1, [operation.hpc_ids_init, operation.collect_all_baselines])
  else if st.collect_app.isSome then
    match collect_baseline ids (st.collect_app.getD "")
        (env.collect_env_of (st.collect_app.getD "")) with
    | none => none
    | some r =>
      if r.1 = 0 then some (0, [operation.hpc_ids_init, operation.collect_baseline])
      else some (1, [operation.hpc_ids_init, operation.collect_baseline])
  else some (1, [operation.hpc_ids_init])

/-- Function `main` of hpc_ids_main.c. -/
def hpc_ids_main (options : List cli_option) (env : main_env) :
    Option (Int × List operation) :=
  match parse_options options cli_state.init with
  | Except.error code => some (code, [])
  | Except.ok st =>
    if st.monitor_mode ∧ st.collect_mode then some (1, [])
    else if st.monitor_mode ∧ st.collect_app.isSome then some (1, [])
    else if st.collect_mode ∧ st.collect_app.isSome then some (1, [])
    else if st.target_pid > 0 ∧ st.app_name.isSome then some (1, [])
    else
      let init := hpc_ids_init (env.loaded_config st.config_file) env.global_file
        env.directory
      if init.1 ≠ 0 then some (1, [operation.hpc_ids_init])
      else run_mode st init.2 env

/-- What `getopt_long` returns for one option of `baseline_collector`. -/
inductive collector_option where
  | a (optarg : String)
  | r (optarg : List Char)
  | c (optarg : String)
  | h
  | unknown
  deriving DecidableEq

/-- The locals of `main` of baseline_collector_main.c that the option loop sets. -/
structure collector_state where
  app_name : Option String
  config_file : String
  runs : Int
  deriving DecidableEq

/-- The option loop of `main` of baseline_collector_main.c. -/
def parse_collector_options :
    List collector_option → collector_state → Except Int collector_state
  | [], st => Except.ok st
  | collector_option.a optarg :: rest, st =>
    parse_collector_options rest { st with app_name := some optarg }
  | collector_option.r optarg :: rest, st =>
    let runs := atoi optarg
    if runs ≤ 0 then Except.error 1
    else parse_collector_options rest { st with runs := runs }
  | collector_option.c optarg :: rest, st =>
    parse_collector_options rest { st with config_file := optarg }
  | collector_option.h :: _, _ => Except.error 0
  | collector_option.unknown :: _, _ => Except.error 1

/-- Function `main` of baseline_collector_main.c. -/
def baseline_collector_main (options : List collector_option) (env : main_env) :
    Option (Int × List operation) :=
  match parse_collector_options options
      { app_name := none, config_file := "config/rigorous_hpc_config.json", runs := 0 } with
  | Except.error code => some (code, [])
  | Except.ok st =>
    let init := hpc_ids_init (env.loaded_config st.config_file) env.global_file env.directory
    if init.1 ≠ 0 then some (1, [operation.hpc_ids_init])
    else
      let ids := init.2
      let ids := if st.runs > 0 then
          { ids with config := { ids.config with runs_per_app := st.runs } }
        else ids
      if st.app_name.isSome then
        match collect_baseline ids (st.app_name.getD "")
            (env.collect_env_of (st.app_name.getD "")) with
        | none => none
        | some r =>
          if r.1 = 0 then some (0, [operation.hpc_ids_init, operation.collect_baseline])
          else some (1, [operation.hpc_ids_init, operation.collect_baseline])
      else
        match collect_all_baselines ids env.apps with
        | none => none
        | some result =>
          if result > 0 then
            some (0, [operation.hpc_ids_init, operation.collect_all_baselines])
          else some (1, [operation.hpc_ids_init, operation.collect_all_baselines])

/-- The process id in force at the end of the option loop: the `atoi` reading of
the last `--pid` option, 0 when there is none. -/
def pid_in_force (options : List cli_option) : Int :=
  options.foldl
    (fun pid o =>
      match o with
      | cli_option.p optarg => atoi optarg
      | _ => pid)
    0

/-- Whether the option loop ends at a `--help` option: the first option among
`--help`, an option that `getopt_long` does not know and a `--duration` whose
value is not positive is `--help`. -/
def help_reached : List cli_option → Bool
  | [] => false
  | cli_option.m :: rest => help_reached rest
  | cli_option.p _ :: rest => help_reached rest
  | cli_option.a _ :: rest => help_reached rest
  | cli_option.d optarg :: rest => if atoi optarg ≤ 0 then false else help_reached rest
  | cli_option.c _ :: rest => help_reached rest
  | cli_option.b :: rest => help_reached rest
  | cli_option.collect_app _ :: rest => help_reached rest
  | cli_option.h :: _ => true
  | cli_option.unknown :: _ => false

/-- The option combinations that `main` of hpc_ids_main.c refuses: monitor mode
with a collect mode, `--collect-baseline` with `--collect-app`, a positive process
id with an application name. -/
def requests_conflict (options : List cli_option) : Prop :=
  (cli_option.m ∈ options ∧ cli_option.b ∈ options) ∨
  (cli_option.m ∈ options ∧ ∃ x, cli_option.collect_app x ∈ options) ∨
  (cli_option.b ∈ options ∧ ∃ x, cli_option.collect_app x ∈ options) ∨
  (pid_in_force options > 0 ∧ ∃ x, cli_option.a x ∈ options)

/-- An environment with the small configuration, no profiles, a failing `perf`
session for the monitoring modes and two applications whose collection
succeeds. -/
def example_main_env : main_env :=
  { loaded_config := fun _ => (0, small_config),
    global_file := none,
    directory := some [],
    app_name_of_pid := fun _ => "unknown",
    executable := true,
    built := true,
    session := none,
    now := 100,
    apps := [("matmul", good_env), ("crypto", good_env)],
    collect_env_of := fun _ => good_env }

/-- A configuration file that sets `alert_cooldown_seconds` to 2147483648. -/
def int_min_cooldown_file : List Char :=
  "\x7b\"alert_cooldown_seconds\": 2147483648\x7d".data

/-- A configuration file that sets `alert_cooldown_seconds` to 4294967341. -/
def wrapped_cooldown_file : List Char :=
  "\x7b\"alert_cooldown_seconds\": 4294967341\x7d".data

/-- The text of a configuration file that sets `alert_cooldown_seconds`: the text
`before`, the key with its colon, the blanks `blanks`, the decimal digits
`digits` and the text `after`. -/
def cooldown_file (before blanks digits after : List Char) : List Char :=
  before ++ ("\"alert_cooldown_seconds\":".data ++ (blanks ++ (digits ++ after)))

/-! ## Sorting lemmas -/

theorem compare_doubles_le_zero_iff (a b : ℚ) : compare_doubles a b ≤ 0 ↔ a ≤ b := by
  unfold compare_doubles
  simp only [sub_pos, sub_neg]
  split_ifs with h1 h2 h2 <;> constructor <;> intro h <;> first | omega | linarith

theorem qsort_insert_eq_orderedInsert (x : ℚ) (l : List ℚ) :
    qsort_insert compare_doubles x l = List.orderedInsert (· ≤ ·) x l := by
  induction l with
  | nil => rfl
  | cons y ys ih =>
    simp only [qsort_insert, List.orderedInsert, compare_doubles_le_zero_iff, ih]

theorem qsort_eq_insertionSort (l : List ℚ) :
    qsort compare_doubles l = List.insertionSort (· ≤ ·) l := by
  induction l with
  | nil => rfl
  | cons y ys ih =>
    simp only [qsort, List.insertionSort, ih, qsort_insert_eq_orderedInsert]

theorem qsort_perm (l : List ℚ) : (qsort compare_doubles l).Perm l := by
  rw [qsort_eq_insertionSort]
  exact List.perm_insertionSort _ l

theorem qsort_sorted (l : List ℚ) : (qsort compare_doubles l).Sorted (· ≤ ·) := by
  rw [qsort_eq_insertionSort]
  exact List.sorted_insertionSort _ l

theorem qsort_length (l : List ℚ) : (qsort compare_doubles l).length = l.length :=
  (qsort_perm l).length_eq

theorem qsort_eq_of_perm_of_sorted (xs s : List ℚ) (hp : s.Perm xs)
    (hs : s.Sorted (· ≤ ·)) : qsort compare_doubles xs = s :=
  List.eq_of_perm_of_sorted ((qsort_perm xs).trans hp.symm) (qsort_sorted xs) hs

theorem getD_eq_of_getElem? (s : List ℚ) (i : Nat) (h : i < s.length) :
    s[i]? = some (s.getD i 0) := by
  rw [List.getD_eq_getElem?_getD, List.getElem?_eq_getElem h]
  rfl

theorem getD_mem (s : List ℚ) (i : Nat) (h : i < s.length) : s.getD i 0 ∈ s := by
  rw [List.getD_eq_getElem _ _ h]
  exact List.getElem_mem h

/-- Every position of the sorted copy holds a value of the sequence. -/
theorem qsort_getD_mem (xs : List ℚ) (i : Nat) (h : i < xs.length) :
    (qsort compare_doubles xs).getD i 0 ∈ xs :=
  (qsort_perm xs).mem_iff.mp (getD_mem _ i (by rw [qsort_length]; exact h))

/-- The median of a non-empty sequence is at least any lower bound of its values. -/
theorem compute_median_lower (xs : List ℚ) (lo : ℚ) (hne : xs ≠ [])
    (hb : ∀ x ∈ xs, lo ≤ x) : lo ≤ compute_median xs := by
  have hlen : 0 < xs.length := List.length_pos.mpr hne
  unfold compute_median
  simp only
  rw [if_neg (by omega)]
  split_ifs with hpar
  · have h1 := hb _ (qsort_getD_mem xs (xs.length / 2 - 1) (by omega))
    have h2 := hb _ (qsort_getD_mem xs (xs.length / 2) (by omega))
    linarith
  · exact hb _ (qsort_getD_mem xs (xs.length / 2) (by omega))

/-- The median of a non-empty sequence is at most any upper bound of its values. -/
theorem compute_median_upper (xs : List ℚ) (hi : ℚ) (hne : xs ≠ [])
    (hb : ∀ x ∈ xs, x ≤ hi) : compute_median xs ≤ hi := by
  have hlen : 0 < xs.length := List.length_pos.mpr hne
  unfold compute_median
  simp only
  rw [if_neg (by omega)]
  split_ifs with hpar
  · have h1 := hb _ (qsort_getD_mem xs (xs.length / 2 - 1) (by omega))
    have h2 := hb _ (qsort_getD_mem xs (xs.length / 2) (by omega))
    linarith
  · exact hb _ (qsort_getD_mem xs (xs.length / 2) (by omega))

theorem compute_mad_eq_median_map (xs : List ℚ) (m : ℚ) :
    compute_mad xs m = compute_median (xs.map fun x => |x - m|) := by
  cases xs with
  | nil => rfl
  | cons x xs => simp [compute_mad]

/-- The MAD of any sequence about any centre is non-negative. -/
theorem compute_mad_nonneg (xs : List ℚ) (m : ℚ) : 0 ≤ compute_mad xs m := by
  rw [compute_mad_eq_median_map]
  cases xs with
  | nil => exact le_of_eq rfl
  | cons x xs =>
    refine compute_median_lower _ 0 (by simp) ?_
    intro y hy
    obtain ⟨z, -, rfl⟩ := List.mem_map.mp hy
    exact abs_nonneg _

theorem compute_median_pair (a b : ℚ) : compute_median [a, b] = (a + b) / 2 := by
  by_cases h : a ≤ b
  · simp [compute_median, qsort, qsort_insert, compare_doubles_le_zero_iff, h]
  · simp [compute_median, qsort, qsort_insert, compare_doubles_le_zero_iff, h]
    ring

theorem compute_median_singleton (a : ℚ) : compute_median [a] = a := by
  simp [compute_median, qsort, qsort_insert]

/-- The min/max loop returns the least and the greatest of the start values and
the scanned values. -/
theorem minmax_loop_spec (vs : List ℚ) : ∀ mn mx : ℚ,
    ((minmax_loop vs mn mx).1 = mn ∨ (minmax_loop vs mn mx).1 ∈ vs) ∧
    (minmax_loop vs mn mx).1 ≤ mn ∧ (∀ y ∈ vs, (minmax_loop vs mn mx).1 ≤ y) ∧
    ((minmax_loop vs mn mx).2 = mx ∨ (minmax_loop vs mn mx).2 ∈ vs) ∧
    mx ≤ (minmax_loop vs mn mx).2 ∧ (∀ y ∈ vs, y ≤ (minmax_loop vs mn mx).2) := by
  induction vs with
  | nil => intro mn mx; simp [minmax_loop]
  | cons v vs ih =>
    intro mn mx
    obtain ⟨h1, h2, h3, h4, h5, h6⟩ :=
      ih (if v < mn then v else mn) (if v > mx then v else mx)
    simp only [minmax_loop, List.mem_cons, forall_eq_or_imp]
    refine ⟨?_, ?_, ⟨?_, h3⟩, ?_, ?_, ⟨?_, h6⟩⟩
    · rcases h1 with h | h
      · rw [h]; split_ifs <;> simp
      · exact Or.inr (Or.inr h)
    · refine le_trans h2 ?_
      split_ifs with h <;> [exact le_of_lt h; exact le_refl _]
    · refine le_trans h2 ?_
      split_ifs with h <;> [exact le_refl _; exact not_lt.mp h]
    · rcases h4 with h | h
      · rw [h]; split_ifs <;> simp
      · exact Or.inr (Or.inr h)
    · refine le_trans ?_ h5
      split_ifs with h <;> [exact le_of_lt h; exact le_refl _]
    · refine le_trans ?_ h5
      split_ifs with h <;> [exact le_refl _; exact not_lt.mp h]

/-! ## Claims on the robust statistics -/

/-- C1: for every sequence `xs`, with `s` the ascending sorted arrangement of `xs`
(the sorted permutation of `xs`): `compute_median xs` is 0 when `xs` is empty, the
element at index `N/2` of `s` when the length `N` is odd, and the arithmetic mean of
the elements at indices `N/2 - 1` and `N/2` of `s` when `N` is even and positive. -/
theorem compute_median_spec (xs s : List ℚ) (hperm : s.Perm xs)
    (hsorted : s.Sorted (· ≤ ·)) :
    (xs = [] → compute_median xs = 0) ∧
    (xs.length % 2 = 1 → s[xs.length / 2]? = some (compute_median xs)) ∧
    (0 < xs.length → xs.length % 2 = 0 →
      ∃ a b, s[xs.length / 2 - 1]? = some a ∧ s[xs.length / 2]? = some b ∧
        compute_median xs = (a + b) / 2) := by
  have hq : qsort compare_doubles xs = s := qsort_eq_of_perm_of_sorted xs s hperm hsorted
  have hlen : s.length = xs.length := hperm.length_eq
  refine ⟨?_, ?_, ?_⟩
  · intro h
    subst h
    rfl
  · intro hodd
    have hm : compute_median xs = s.getD (xs.length / 2) 0 := by
      unfold compute_median
      simp only [hq]
      rw [if_neg (by omega), if_neg (by omega)]
    rw [hm]
    exact getD_eq_of_getElem? s _ (by omega)
  · intro hpos heven
    refine ⟨s.getD (xs.length / 2 - 1) 0, s.getD (xs.length / 2) 0,
      getD_eq_of_getElem? s _ (by omega), getD_eq_of_getElem? s _ (by omega), ?_⟩
    unfold compute_median
    simp only [hq]
    rw [if_neg (by omega), if_pos heven]

/-- Witness for C1: the odd case at `[2, 1, 3]` and the even case at `[2, 1]`. -/
theorem compute_median_spec_witness :
    [1, 2, 3][([2, 1, 3] : List ℚ).length / 2]? = some (compute_median [2, 1, 3]) ∧
    ∃ a b, [1, 2][([2, 1] : List ℚ).length / 2 - 1]? = some a ∧
      [1, 2][([2, 1] : List ℚ).length / 2]? = some b ∧ compute_median [2, 1] = (a + b) / 2 :=
  ⟨(compute_median_spec [2, 1, 3] [1, 2, 3] (List.Perm.swap 2 1 [3])
      (by norm_num [List.Sorted])).2.1 (by rfl),
   (compute_median_spec [2, 1] [1, 2] (List.Perm.swap 2 1 [])
      (by norm_num [List.Sorted])).2.2 (by simp) (by rfl)⟩

/-- C2: for every sequence `xs` and centre `m`, `compute_mad xs m` is
`compute_median` of the sequence of absolute deviations `|x - m|` of the same
values, and it is 0 for the empty sequence. -/
theorem compute_mad_spec (xs : List ℚ) (m : ℚ) :
    compute_mad xs m = compute_median (xs.map fun x => |x - m|) ∧
    compute_mad [] m = 0 :=
  ⟨compute_mad_eq_median_map xs m, rfl⟩

/-- C3: `compute_robust_z_score v m d = (v - m) / max d 1e-9`; the divisor is never
zero, and it is exactly `d` whenever `d ≥ 1e-9`. -/
theorem compute_robust_z_score_spec (v m d : ℚ) :
    compute_robust_z_score v m d = (v - m) / max d (1 / 1000000000) ∧
    max d (1 / 1000000000) ≠ 0 ∧
    (1 / 1000000000 ≤ d → max d (1 / 1000000000) = d) := by
  refine ⟨?_, ?_, fun h => max_eq_left h⟩
  · unfold compute_robust_z_score
    simp only
    split_ifs with h
    · rw [max_eq_right (le_of_lt h)]
    · rw [max_eq_left (not_lt.mp h)]
  · have : (0 : ℚ) < max d (1 / 1000000000) := lt_max_of_lt_right (by norm_num)
    exact ne_of_gt this

/-- Witness for C3: with `d = 1 ≥ 1e-9` the divisor is `d` itself. -/
theorem compute_robust_z_score_spec_witness : max (1 : ℚ) (1 / 1000000000) = 1 :=
  (compute_robust_z_score_spec 100 3 1).2.2 (by norm_num)

/-- C4: on a non-empty `xs`, `compute_baseline_stats` returns 0 and the summary
with median `compute_median xs`, mad `compute_mad xs` about that median, min the
least element of `xs`, max the greatest element of `xs` and samples the length of
`xs`; on the empty sequence it returns -1 and the all-zero summary. On
`[1,2,3,4,100]` the summary is median 3, mad 1, min 1, max 100, samples 5, and
`compute_robust_z_score 100 3 1 = 97`. -/
theorem compute_baseline_stats_spec (stats : baseline_stats_t) (xs : List ℚ) :
    (xs ≠ [] →
      (compute_baseline_stats stats xs).1 = 0 ∧
      (compute_baseline_stats stats xs).2.median = compute_median xs ∧
      (compute_baseline_stats stats xs).2.mad = compute_mad xs (compute_median xs) ∧
      ((compute_baseline_stats stats xs).2.min ∈ xs ∧
        ∀ y ∈ xs, (compute_baseline_stats stats xs).2.min ≤ y) ∧
      ((compute_baseline_stats stats xs).2.max ∈ xs ∧
        ∀ y ∈ xs, y ≤ (compute_baseline_stats stats xs).2.max) ∧
      (compute_baseline_stats stats xs).2.samples = (xs.length : Int)) ∧
    compute_baseline_stats stats [] =
      (-1, { median := 0, mad := 0, min := 0, max := 0, samples := 0 }) ∧
    compute_baseline_stats stats [1, 2, 3, 4, 100] =
      (0, { median := 3, mad := 1, min := 1, max := 100, samples := 5 }) ∧
    compute_robust_z_score 100 3 1 = 97 := by
  refine ⟨?_, rfl, ?_, ?_⟩
  · intro hne
    cases xs with
    | nil => exact absurd rfl hne
    | cons v0 rest =>
      obtain ⟨h1, h2, h3, h4, h5, h6⟩ := minmax_loop_spec rest v0 v0
      refine ⟨rfl, rfl, rfl, ⟨?_, ?_⟩, ⟨?_, ?_⟩, rfl⟩
      · show (minmax_loop rest v0 v0).1 ∈ v0 :: rest
        rcases h1 with h | h
        · rw [h]; exact List.mem_cons_self _ _
        · exact List.mem_cons_of_mem _ h
      · intro y hy
        show (minmax_loop rest v0 v0).1 ≤ y
        rcases List.mem_cons.mp hy with h | h
        · rw [h]; exact h2
        · exact h3 y h
      · show (minmax_loop rest v0 v0).2 ∈ v0 :: rest
        rcases h4 with h | h
        · rw [h]; exact List.mem_cons_self _ _
        · exact List.mem_cons_of_mem _ h
      · intro y hy
        show y ≤ (minmax_loop rest v0 v0).2
        rcases List.mem_cons.mp hy with h | h
        · rw [h]; exact h5
        · exact h6 y h
  · norm_num [compute_baseline_stats, compute_median, compute_mad, minmax_loop, qsort,
      qsort_insert, compare_doubles, abs_of_nonneg, abs_of_neg]
  · norm_num [compute_robust_z_score]

/-- Witness for C4: the non-empty case at `[2, 8, 4]`. -/
theorem compute_baseline_stats_spec_witness :
    (compute_baseline_stats baseline_stats_t.zero [2, 8, 4]).1 = 0 ∧
    (compute_baseline_stats baseline_stats_t.zero [2, 8, 4]).2.median =
      compute_median [2, 8, 4] ∧
    (compute_baseline_stats baseline_stats_t.zero [2, 8, 4]).2.samples = 3 :=
  have h := (compute_baseline_stats_spec baseline_stats_t.zero [2, 8, 4]).1 (by simp)
  ⟨h.1, h.2.1, h.2.2.2.2.2⟩

/-- C5: for every non-empty sequence `xs`, the summary `S` that
`compute_baseline_stats` produces has `S.min ≤ S.median ≤ S.max`, `S.mad ≥ 0` and
`S.samples ≥ 1`. -/
theorem compute_baseline_stats_invariant (stats : baseline_stats_t) (xs : List ℚ)
    (hne : xs ≠ []) :
    (compute_baseline_stats stats xs).2.min ≤ (compute_baseline_stats stats xs).2.median ∧
    (compute_baseline_stats stats xs).2.median ≤ (compute_baseline_stats stats xs).2.max ∧
    0 ≤ (compute_baseline_stats stats xs).2.mad ∧
    1 ≤ (compute_baseline_stats stats xs).2.samples := by
  cases xs with
  | nil => exact absurd rfl hne
  | cons v0 rest =>
    obtain ⟨-, h2, h3, -, h5, h6⟩ := minmax_loop_spec rest v0 v0
    have hb : ∀ x ∈ v0 :: rest,
        (minmax_loop rest v0 v0).1 ≤ x ∧ x ≤ (minmax_loop rest v0 v0).2 := by
      intro x hx
      rcases List.mem_cons.mp hx with h | h
      · rw [h]; exact ⟨h2, h5⟩
      · exact ⟨h3 x h, h6 x h⟩
    refine ⟨compute_median_lower _ _ hne fun x hx => (hb x hx).1,
      compute_median_upper _ _ hne fun x hx => (hb x hx).2,
      compute_mad_nonneg _ _, ?_⟩
    show (1 : Int) ≤ ((v0 :: rest).length : Int)
    simp

/-- Witness for C5 at `[1, 2, 3, 4, 100]`. -/
theorem compute_baseline_stats_invariant_witness :
    (compute_baseline_stats baseline_stats_t.zero [1, 2, 3, 4, 100]).2.min ≤
      (compute_baseline_stats baseline_stats_t.zero [1, 2, 3, 4, 100]).2.median ∧
    (compute_baseline_stats baseline_stats_t.zero [1, 2, 3, 4, 100]).2.median ≤
      (compute_baseline_stats baseline_stats_t.zero [1, 2, 3, 4, 100]).2.max ∧
    0 ≤ (compute_baseline_stats baseline_stats_t.zero [1, 2, 3, 4, 100]).2.mad ∧
    1 ≤ (compute_baseline_stats baseline_stats_t.zero [1, 2, 3, 4, 100]).2.samples :=
  compute_baseline_stats_invariant baseline_stats_t.zero [1, 2, 3, 4, 100] (by simp)

/-- C6: the summary `S` that `compute_baseline_stats` computes from `xs` has
`S.samples` equal to the length of `xs`; and when `xs` has length 1 or 2, `S.mad = 0`
if and only if all values of `xs` are equal. -/
theorem compute_baseline_stats_samples_mad (stats : baseline_stats_t) (xs : List ℚ) :
    (compute_baseline_stats stats xs).2.samples = (xs.length : Int) ∧
    (xs.length = 1 ∨ xs.length = 2 →
      ((compute_baseline_stats stats xs).2.mad = 0 ↔ ∀ a ∈ xs, ∀ b ∈ xs, a = b)) := by
  constructor
  · cases xs <;> rfl
  · intro hlen
    match xs, hlen with
    | [a], _ =>
      show compute_mad [a] (compute_median [a]) = 0 ↔ _
      rw [compute_mad_eq_median_map, compute_median_singleton]
      simp [compute_median_singleton]
    | [a, b], _ =>
      show compute_mad [a, b] (compute_median [a, b]) = 0 ↔ _
      rw [compute_mad_eq_median_map, compute_median_pair]
      simp only [List.map_cons, List.map_nil, compute_median_pair, List.mem_cons,
        List.mem_singleton, List.not_mem_nil, or_false]
      have e1 : a - (a + b) / 2 = (a - b) / 2 := by ring
      have e2 : b - (a + b) / 2 = -((a - b) / 2) := by ring
      rw [e1, e2, abs_neg]
      constructor
      · intro h
        have h0 : |(a - b) / 2| = 0 := by linarith
        have hab : a = b := by
          have := abs_eq_zero.mp h0
          linarith
        rintro x (rfl | rfl) y (rfl | rfl) <;> first | rfl | exact hab | exact hab.symm
      · intro h
        have hab : a = b := h a (Or.inl rfl) b (Or.inr rfl)
        subst hab
        simp

/-- Witness for C6: `[3, 3]` has all values equal, so its MAD is 0. -/
theorem compute_baseline_stats_samples_mad_witness :
    (compute_baseline_stats baseline_stats_t.zero [3, 3]).2.mad = 0 :=
  ((compute_baseline_stats_samples_mad baseline_stats_t.zero [3, 3]).2 (Or.inr rfl)).mpr
    (by simp)

/-- C7: for every non-empty constant sequence `xs` (all values equal to `c`),
`compute_median xs = c`, `compute_mad xs c = 0` and
`compute_robust_z_score c c 0 = 0`. -/
theorem constant_sequence_stats (xs : List ℚ) (c : ℚ) (hne : xs ≠ [])
    (hconst : ∀ x ∈ xs, x = c) :
    compute_median xs = c ∧ compute_mad xs c = 0 ∧ compute_robust_z_score c c 0 = 0 := by
  have hmed : compute_median xs = c :=
    le_antisymm (compute_median_upper xs c hne fun x hx => le_of_eq (hconst x hx))
      (compute_median_lower xs c hne fun x hx => le_of_eq (hconst x hx).symm)
  refine ⟨hmed, ?_, ?_⟩
  · refine le_antisymm ?_ (compute_mad_nonneg xs c)
    rw [compute_mad_eq_median_map]
    refine compute_median_upper _ 0 (by simpa using hne) ?_
    intro y hy
    obtain ⟨z, hz, rfl⟩ := List.mem_map.mp hy
    rw [hconst z hz]
    simp
  · simp [compute_robust_z_score]

/-- Witness for C7 at `[7, 7, 7, 7]`. -/
theorem constant_sequence_stats_witness :
    compute_median [7, 7, 7, 7] = 7 ∧ compute_mad [7, 7, 7, 7] 7 = 0 ∧
      compute_robust_z_score 7 7 0 = 0 :=
  constant_sequence_stats [7, 7, 7, 7] 7 (by simp) (by simp)

/-! ## Claims on feature engineering -/

theorem extract_counters_example_interval :
    extract_counters example_interval =
      { cycles := 10000000, instructions := 20000000, branches := 1000000,
        branch_misses := 10000, cache_refs := 100000, cache_misses := 5000,
        l1d_misses := 40000, itlb_misses := 200, dtlb_misses := 400,
        counters_found := 9 } := by
  simp [extract_counters, example_interval, extract_step, sample, counter_state.init]

theorem engineer_features_example_interval (now : ℚ) (f : feature_vector_t) :
    engineer_features example_interval now f =
      (0, { wall_time := now, ipc := 2, branch_miss_rate := 1 / 100,
            cache_miss_rate := 1 / 20, l1d_mpki := 2, itlb_mpki := 1 / 100,
            dtlb_mpki := 1 / 50 }) := by
  unfold engineer_features
  rw [extract_counters_example_interval]
  norm_num [example_interval]

theorem extract_step_cycles_of_ne (s : counter_state) (m : hpc_measurement_t)
    (h : m.counter ≠ "cycles") : (extract_step s m).cycles = s.cycles := by
  unfold extract_step
  simp only
  rw [if_neg h]
  split_ifs <;> rfl

theorem extract_step_instructions_of_ne (s : counter_state) (m : hpc_measurement_t)
    (h : m.counter ≠ "instructions") :
    (extract_step s m).instructions = s.instructions := by
  unfold extract_step
  simp only
  split_ifs <;> rfl

theorem foldl_extract_step_cycles (ms : List hpc_measurement_t) :
    ∀ s : counter_state, (∀ m ∈ ms, m.counter ≠ "cycles") →
      (ms.foldl extract_step s).cycles = s.cycles := by
  induction ms with
  | nil => intro s _; rfl
  | cons m ms ih =>
    intro s h
    rw [List.foldl_cons, ih _ fun x hx => h x (List.mem_cons_of_mem _ hx)]
    exact extract_step_cycles_of_ne s m (h m (List.mem_cons_self _ _))

theorem foldl_extract_step_instructions (ms : List hpc_measurement_t) :
    ∀ s : counter_state, (∀ m ∈ ms, m.counter ≠ "instructions") →
      (ms.foldl extract_step s).instructions = s.instructions := by
  induction ms with
  | nil => intro s _; rfl
  | cons m ms ih =>
    intro s h
    rw [List.foldl_cons, ih _ fun x hx => h x (List.mem_cons_of_mem _ hx)]
    exact extract_step_instructions_of_ne s m (h m (List.mem_cons_self _ _))

/-- The result of `engineer_features` on an interval that passes both checks. -/
theorem engineer_features_of_accept (ms : List hpc_measurement_t) (now : ℚ)
    (f : feature_vector_t) (hne : ms ≠ []) (hc : (extract_counters ms).cycles ≠ 0)
    (hi : (extract_counters ms).instructions ≠ 0) :
    engineer_features ms now f =
      (0, { wall_time := now,
            ipc := ((extract_counters ms).instructions : ℚ) / (extract_counters ms).cycles,
            branch_miss_rate :=
              if (extract_counters ms).branches = 0 then 0
              else ((extract_counters ms).branch_misses : ℚ) / (extract_counters ms).branches,
            cache_miss_rate :=
              if (extract_counters ms).cache_refs = 0 then 0
              else ((extract_counters ms).cache_misses : ℚ) / (extract_counters ms).cache_refs,
            l1d_mpki :=
              ((extract_counters ms).l1d_misses : ℚ) * 1000 / (extract_counters ms).instructions,
            itlb_mpki :=
              ((extract_counters ms).itlb_misses : ℚ) * 1000 / (extract_counters ms).instructions,
            dtlb_mpki :=
              ((extract_counters ms).dtlb_misses : ℚ) * 1000 /
                (extract_counters ms).instructions }) := by
  have hlen : ms.length ≠ 0 := fun h => hne (List.length_eq_zero.mp h)
  have hik : ((extract_counters ms).instructions : ℚ) / 1000 > 0 := by
    have : (0 : ℚ) < (extract_counters ms).instructions :=
      Nat.cast_pos.mpr (Nat.pos_of_ne_zero hi)
    positivity
  have hdiv : ∀ x : ℚ, x / (((extract_counters ms).instructions : ℚ) / 1000) =
      x * 1000 / (extract_counters ms).instructions := by
    intro x
    rw [div_div_eq_mul_div]
  unfold engineer_features
  simp only
  rw [if_neg hlen, if_neg (by simp [hc, hi]), if_pos hik, if_pos hik, if_pos hik, hdiv, hdiv, hdiv]
  congr 2
  · by_cases hb : (extract_counters ms).branches = 0
    · simp [hb]
    · simp [hb, Nat.pos_of_ne_zero hb]
  · by_cases hb : (extract_counters ms).cache_refs = 0
    · simp [hb]
    · simp [hb, Nat.pos_of_ne_zero hb]

/-- A rejected interval leaves the feature vector untouched. -/
theorem engineer_features_of_reject (ms : List hpc_measurement_t) (now : ℚ)
    (f : feature_vector_t)
    (h : ms = [] ∨ (extract_counters ms).cycles = 0 ∨ (extract_counters ms).instructions = 0) :
    engineer_features ms now f = (-1, f) := by
  unfold engineer_features
  simp only
  by_cases h1 : ms.length = 0
  · rw [if_pos h1]
  · rw [if_neg h1]
    have h2 : (extract_counters ms).cycles = 0 ∨ (extract_counters ms).instructions = 0 := by
      rcases h with h | h
      · exact absurd (by rw [h]; rfl) h1
      · exact h
    rw [if_pos h2]

/-- The return code of `engineer_features` is 0 exactly when the interval is
non-empty and both captured essentials are non-zero. -/
theorem engineer_features_fst_eq_zero_iff (ms : List hpc_measurement_t) (now : ℚ)
    (f : feature_vector_t) :
    (engineer_features ms now f).1 = 0 ↔
      ms ≠ [] ∧ (extract_counters ms).cycles ≠ 0 ∧ (extract_counters ms).instructions ≠ 0 := by
  constructor
  · intro h
    by_contra hcon
    have hrej : ms = [] ∨ (extract_counters ms).cycles = 0 ∨
        (extract_counters ms).instructions = 0 := by
      by_contra hcon2
      push_neg at hcon2
      exact hcon hcon2
    rw [engineer_features_of_reject ms now f hrej] at h
    have h' : (-1 : Int) = 0 := h
    exact absurd h' (by decide)
  · rintro ⟨h1, h2, h3⟩
    rw [engineer_features_of_accept ms now f h1 h2 h3]

/-- C8: for every interval that `engineer_features` accepts (return code 0), with
the captured counter values of the extraction loop: `ipc = instructions / cycles`;
`branch_miss_rate = branch-misses / branches`, or 0 if `branches = 0`;
`cache_miss_rate = cache-misses / cache-references`, or 0 if
`cache-references = 0`; and `l1d_mpki`, `itlb_mpki`, `dtlb_mpki` are the respective
miss count times 1000 over `instructions`. Each ratio looks only at its own
denominator. -/
theorem engineer_features_values (ms : List hpc_measurement_t) (now : ℚ)
    (f : feature_vector_t) (hacc : (engineer_features ms now f).1 = 0) :
    (engineer_features ms now f).2.ipc =
      ((extract_counters ms).instructions : ℚ) / (extract_counters ms).cycles ∧
    (engineer_features ms now f).2.branch_miss_rate =
      (if (extract_counters ms).branches = 0 then 0
       else ((extract_counters ms).branch_misses : ℚ) / (extract_counters ms).branches) ∧
    (engineer_features ms now f).2.cache_miss_rate =
      (if (extract_counters ms).cache_refs = 0 then 0
       else ((extract_counters ms).cache_misses : ℚ) / (extract_counters ms).cache_refs) ∧
    (engineer_features ms now f).2.l1d_mpki =
      ((extract_counters ms).l1d_misses : ℚ) * 1000 / (extract_counters ms).instructions ∧
    (engineer_features ms now f).2.itlb_mpki =
      ((extract_counters ms).itlb_misses : ℚ) * 1000 / (extract_counters ms).instructions ∧
    (engineer_features ms now f).2.dtlb_mpki =
      ((extract_counters ms).dtlb_misses : ℚ) * 1000 / (extract_counters ms).instructions := by
  obtain ⟨h1, h2, h3⟩ := (engineer_features_fst_eq_zero_iff ms now f).mp hacc
  rw [engineer_features_of_accept ms now f h1 h2 h3]
  exact ⟨rfl, rfl, rfl, rfl, rfl, rfl⟩

/-- Witness for C8: the example interval is accepted and yields `ipc = 2`,
`branch_miss_rate = 0.01`, `cache_miss_rate = 0.05`, `l1d_mpki = 2`,
`itlb_mpki = 0.01`, `dtlb_mpki = 0.02`. -/
theorem engineer_features_values_witness :
    (engineer_features example_interval 0 feature_vector_t.zero).1 = 0 ∧
    (engineer_features example_interval 0 feature_vector_t.zero).2.ipc = 2 ∧
    (engineer_features example_interval 0 feature_vector_t.zero).2.branch_miss_rate = 1 / 100 ∧
    (engineer_features example_interval 0 feature_vector_t.zero).2.cache_miss_rate = 1 / 20 ∧
    (engineer_features example_interval 0 feature_vector_t.zero).2.l1d_mpki = 2 ∧
    (engineer_features example_interval 0 feature_vector_t.zero).2.itlb_mpki = 1 / 100 ∧
    (engineer_features example_interval 0 feature_vector_t.zero).2.dtlb_mpki = 1 / 50 := by
  have hacc : (engineer_features example_interval 0 feature_vector_t.zero).1 = 0 := by
    rw [engineer_features_example_interval]
  have h := engineer_features_values example_interval 0 feature_vector_t.zero hacc
  rw [extract_counters_example_interval] at h
  obtain ⟨h1, h2, h3, h4, h5, h6⟩ := h
  refine ⟨hacc, ?_, ?_, ?_, ?_, ?_, ?_⟩
  · rw [h1]; norm_num
  · rw [h2]; norm_num
  · rw [h3]; norm_num
  · rw [h4]; norm_num
  · rw [h5]; norm_num
  · rw [h6]; norm_num

/-- The return code of `engineer_features` by the captured values: -1 exactly for
an empty interval or a captured `cycles` or `instructions` of 0, with the feature
vector left as it was; 0 otherwise. -/
theorem engineer_features_reject_iff (ms : List hpc_measurement_t) (now : ℚ)
    (f : feature_vector_t) :
    ((engineer_features ms now f).1 = -1 ↔
      ms = [] ∨ (extract_counters ms).cycles = 0 ∨ (extract_counters ms).instructions = 0) ∧
    ((engineer_features ms now f).1 = -1 → (engineer_features ms now f).2 = f) ∧
    ((engineer_features ms now f).1 ≠ -1 → (engineer_features ms now f).1 = 0) ∧
    ((∀ m ∈ ms, m.counter ≠ "cycles") → (extract_counters ms).cycles = 0) ∧
    ((∀ m ∈ ms, m.counter ≠ "instructions") → (extract_counters ms).instructions = 0) := by
  have hiff : (engineer_features ms now f).1 = -1 ↔
      ms = [] ∨ (extract_counters ms).cycles = 0 ∨ (extract_counters ms).instructions = 0 := by
    constructor
    · intro h
      by_contra hcon
      push_neg at hcon
      have h0 := (engineer_features_fst_eq_zero_iff ms now f).mpr hcon
      rw [h0] at h
      exact absurd h (by decide)
    · intro h
      rw [engineer_features_of_reject ms now f h]
  refine ⟨hiff, ?_, ?_, ?_, ?_⟩
  · intro h
    rw [engineer_features_of_reject ms now f (hiff.mp h)]
  · intro h
    apply (engineer_features_fst_eq_zero_iff ms now f).mpr
    by_contra hcon
    apply h
    apply hiff.mpr
    by_contra hcon2
    push_neg at hcon2
    exact hcon hcon2
  · exact foldl_extract_step_cycles ms counter_state.init
  · exact foldl_extract_step_instructions ms counter_state.init

/-- Counterexample to C10: an accepted interval with positive `cycles` and
`instructions` whose `branch_miss_rate` is 2. -/
theorem feature_rate_bound_counterexample :
    0 < (extract_counters [sample "cycles" 1, sample "instructions" 1,
      sample "branches" 1, sample "branch-misses" 2]).cycles ∧
    0 < (extract_counters [sample "cycles" 1, sample "instructions" 1,
      sample "branches" 1, sample "branch-misses" 2]).instructions ∧
    (engineer_features [sample "cycles" 1, sample "instructions" 1,
      sample "branches" 1, sample "branch-misses" 2] 0 feature_vector_t.zero).1 = 0 ∧
    ¬ (engineer_features [sample "cycles" 1, sample "instructions" 1,
      sample "branches" 1, sample "branch-misses" 2] 0
        feature_vector_t.zero).2.branch_miss_rate ≤ 1 := by
  have hc : extract_counters [sample "cycles" 1, sample "instructions" 1,
      sample "branches" 1, sample "branch-misses" 2] =
      { cycles := 1, instructions := 1, branches := 1, branch_misses := 2,
        cache_refs := 0, cache_misses := 0, l1d_misses := 0, itlb_misses := 0,
        dtlb_misses := 0, counters_found := 4 } := by
    simp [extract_counters, extract_step, sample, counter_state.init]
  unfold engineer_features
  rw [hc]
  norm_num

/-- C10 as amended: for every interval whose captured `cycles` and `instructions`
are positive, `engineer_features` succeeds and the feature vector has `ipc > 0`,
`branch_miss_rate ≥ 0`, `cache_miss_rate ≥ 0` and all three MPKIs `≥ 0`; moreover
`branch_miss_rate ≤ 1` whenever the captured branch-misses do not exceed the
captured branches, and `cache_miss_rate ≤ 1` whenever the captured cache-misses do
not exceed the captured cache-references. -/
theorem feature_vector_bounds (ms : List hpc_measurement_t) (now : ℚ)
    (f : feature_vector_t) (hc : 0 < (extract_counters ms).cycles)
    (hi : 0 < (extract_counters ms).instructions) :
    (engineer_features ms now f).1 = 0 ∧
    0 < (engineer_features ms now f).2.ipc ∧
    0 ≤ (engineer_features ms now f).2.branch_miss_rate ∧
    ((extract_counters ms).branch_misses ≤ (extract_counters ms).branches →
      (engineer_features ms now f).2.branch_miss_rate ≤ 1) ∧
    0 ≤ (engineer_features ms now f).2.cache_miss_rate ∧
    ((extract_counters ms).cache_misses ≤ (extract_counters ms).cache_refs →
      (engineer_features ms now f).2.cache_miss_rate ≤ 1) ∧
    0 ≤ (engineer_features ms now f).2.l1d_mpki ∧
    0 ≤ (engineer_features ms now f).2.itlb_mpki ∧
    0 ≤ (engineer_features ms now f).2.dtlb_mpki := by
  have hne : ms ≠ [] := by
    rintro rfl
    exact absurd hc (by decide)
  rw [engineer_features_of_accept ms now f hne (Nat.pos_iff_ne_zero.mp hc)
    (Nat.pos_iff_ne_zero.mp hi)]
  have hcq : (0 : ℚ) < (extract_counters ms).cycles := Nat.cast_pos.mpr hc
  have hiq : (0 : ℚ) < (extract_counters ms).instructions := Nat.cast_pos.mpr hi
  refine ⟨rfl, ?_, ?_, ?_, ?_, ?_, ?_, ?_, ?_⟩
  · show (0 : ℚ) < _ / _
    positivity
  · show (0 : ℚ) ≤ ite _ _ _
    split_ifs <;> positivity
  · intro hle
    show ite _ _ _ ≤ (1 : ℚ)
    split_ifs with hb
    · norm_num
    · have hbq : (0 : ℚ) < (extract_counters ms).branches :=
        Nat.cast_pos.mpr (Nat.pos_of_ne_zero hb)
      rw [div_le_one hbq]
      exact_mod_cast hle
  · show (0 : ℚ) ≤ ite _ _ _
    split_ifs <;> positivity
  · intro hle
    show ite _ _ _ ≤ (1 : ℚ)
    split_ifs with hb
    · norm_num
    · have hbq : (0 : ℚ) < (extract_counters ms).cache_refs :=
        Nat.cast_pos.mpr (Nat.pos_of_ne_zero hb)
      rw [div_le_one hbq]
      exact_mod_cast hle
  · show (0 : ℚ) ≤ _ / _
    positivity
  · show (0 : ℚ) ≤ _ / _
    positivity
  · show (0 : ℚ) ≤ _ / _
    positivity

/-- Witness for the amended C10 at the example interval. -/
theorem feature_vector_bounds_witness :
    (engineer_features example_interval 0 feature_vector_t.zero).1 = 0 ∧
    0 < (engineer_features example_interval 0 feature_vector_t.zero).2.ipc ∧
    (engineer_features example_interval 0 feature_vector_t.zero).2.branch_miss_rate ≤ 1 ∧
    (engineer_features example_interval 0 feature_vector_t.zero).2.cache_miss_rate ≤ 1 := by
  have hc : 0 < (extract_counters example_interval).cycles := by
    rw [extract_counters_example_interval]; decide
  have hi : 0 < (extract_counters example_interval).instructions := by
    rw [extract_counters_example_interval]; decide
  have h := feature_vector_bounds example_interval 0 feature_vector_t.zero hc hi
  refine ⟨h.1, h.2.1, h.2.2.2.1 ?_, h.2.2.2.2.2.1 ?_⟩
  · rw [extract_counters_example_interval]; decide
  · rw [extract_counters_example_interval]; decide

/-! ## Which samples the extraction loop uses -/

/-- A field that one loop iteration overwrites exactly on samples named `name`
ends up holding the value of the last such sample. -/
theorem foldr_extract_step_field (p : counter_state → Nat) (name : String)
    (hstep : ∀ s m, p (extract_step s m) = if m.counter = name then m.value else p s)
    (s0 : counter_state) (l : List hpc_measurement_t) :
    p (l.foldr (fun m s => extract_step s m) s0) =
      match l.find? (fun m => m.counter = name) with
      | some m => m.value
      | none => p s0 := by
  induction l with
  | nil => rfl
  | cons m l ih =>
    rw [List.foldr_cons, hstep, List.find?_cons]
    by_cases h : m.counter = name
    · simp [h]
    · simp [h, ih]

theorem extract_counters_field (p : counter_state → Nat) (name : String)
    (hstep : ∀ s m, p (extract_step s m) = if m.counter = name then m.value else p s)
    (hinit : p counter_state.init = 0) (ms : List hpc_measurement_t) :
    p (extract_counters ms) = last_occurrence_value name ms := by
  have h := foldr_extract_step_field p name hstep counter_state.init ms.reverse
  rw [List.foldr_reverse, hinit] at h
  exact h

theorem extract_step_cycles (s : counter_state) (m : hpc_measurement_t) :
    (extract_step s m).cycles = if m.counter = "cycles" then m.value else s.cycles := by
  simp only [extract_step]
  split_ifs <;> rfl

theorem extract_step_instructions (s : counter_state) (m : hpc_measurement_t) :
    (extract_step s m).instructions =
      if m.counter = "instructions" then m.value else s.instructions := by
  simp only [extract_step]
  split_ifs <;> first | rfl | simp_all

theorem extract_step_branches (s : counter_state) (m : hpc_measurement_t) :
    (extract_step s m).branches =
      if m.counter = "branches" then m.value else s.branches := by
  simp only [extract_step]
  split_ifs <;> first | rfl | simp_all

theorem extract_step_branch_misses (s : counter_state) (m : hpc_measurement_t) :
    (extract_step s m).branch_misses =
      if m.counter = "branch-misses" then m.value else s.branch_misses := by
  simp only [extract_step]
  split_ifs <;> first | rfl | simp_all

theorem extract_step_cache_refs (s : counter_state) (m : hpc_measurement_t) :
    (extract_step s m).cache_refs =
      if m.counter = "cache-references" then m.value else s.cache_refs := by
  simp only [extract_step]
  split_ifs <;> first | rfl | simp_all

theorem extract_step_cache_misses (s : counter_state) (m : hpc_measurement_t) :
    (extract_step s m).cache_misses =
      if m.counter = "cache-misses" then m.value else s.cache_misses := by
  simp only [extract_step]
  split_ifs <;> first | rfl | simp_all

theorem extract_step_l1d_misses (s : counter_state) (m : hpc_measurement_t) :
    (extract_step s m).l1d_misses =
      if m.counter = "L1-dcache-load-misses" then m.value else s.l1d_misses := by
  simp only [extract_step]
  split_ifs <;> first | rfl | simp_all

theorem extract_step_itlb_misses (s : counter_state) (m : hpc_measurement_t) :
    (extract_step s m).itlb_misses =
      if m.counter = "iTLB-load-misses" then m.value else s.itlb_misses := by
  simp only [extract_step]
  split_ifs <;> first | rfl | simp_all

theorem extract_step_dtlb_misses (s : counter_state) (m : hpc_measurement_t) :
    (extract_step s m).dtlb_misses =
      if m.counter = "dTLB-load-misses" then m.value else s.dtlb_misses := by
  simp only [extract_step]
  split_ifs <;> first | rfl | simp_all

/-- Counterexample to C11: in `[cycles 10, instructions 10, cycles 20]` the first
occurrence of `cycles` carries 10, but the loop captures 20 and `ipc` is
`10 / 20`. -/
theorem first_occurrence_counterexample :
    first_occurrence_value "cycles"
      [sample "cycles" 10, sample "instructions" 10, sample "cycles" 20] = 10 ∧
    (extract_counters
      [sample "cycles" 10, sample "instructions" 10, sample "cycles" 20]).cycles = 20 ∧
    (engineer_features [sample "cycles" 10, sample "instructions" 10, sample "cycles" 20]
      0 feature_vector_t.zero).1 = 0 ∧
    (engineer_features [sample "cycles" 10, sample "instructions" 10, sample "cycles" 20]
      0 feature_vector_t.zero).2.ipc = 1 / 2 := by
  have hc : extract_counters
      [sample "cycles" 10, sample "instructions" 10, sample "cycles" 20] =
      { cycles := 20, instructions := 10, branches := 0, branch_misses := 0,
        cache_refs := 0, cache_misses := 0, l1d_misses := 0, itlb_misses := 0,
        dtlb_misses := 0, counters_found := 3 } := by
    simp [extract_counters, extract_step, sample, counter_state.init]
  refine ⟨?_, ?_, ?_, ?_⟩
  · simp [first_occurrence_value, sample]
  · rw [hc]
  · unfold engineer_features
    rw [hc]
    norm_num
  · unfold engineer_features
    rw [hc]
    norm_num

/-- C11 as amended: for every interval and each of the nine recognised counter
names, the value that `engineer_features` uses for that counter is the one of its
last occurrence in the sample sequence (0 when the name does not occur). -/
theorem extract_counters_last_occurrence (ms : List hpc_measurement_t) :
    (extract_counters ms).cycles = last_occurrence_value "cycles" ms ∧
    (extract_counters ms).instructions = last_occurrence_value "instructions" ms ∧
    (extract_counters ms).branches = last_occurrence_value "branches" ms ∧
    (extract_counters ms).branch_misses = last_occurrence_value "branch-misses" ms ∧
    (extract_counters ms).cache_refs = last_occurrence_value "cache-references" ms ∧
    (extract_counters ms).cache_misses = last_occurrence_value "cache-misses" ms ∧
    (extract_counters ms).l1d_misses = last_occurrence_value "L1-dcache-load-misses" ms ∧
    (extract_counters ms).itlb_misses = last_occurrence_value "iTLB-load-misses" ms ∧
    (extract_counters ms).dtlb_misses = last_occurrence_value "dTLB-load-misses" ms :=
  ⟨extract_counters_field _ _ extract_step_cycles rfl ms,
   extract_counters_field _ _ extract_step_instructions rfl ms,
   extract_counters_field _ _ extract_step_branches rfl ms,
   extract_counters_field _ _ extract_step_branch_misses rfl ms,
   extract_counters_field _ _ extract_step_cache_refs rfl ms,
   extract_counters_field _ _ extract_step_cache_misses rfl ms,
   extract_counters_field _ _ extract_step_l1d_misses rfl ms,
   extract_counters_field _ _ extract_step_itlb_misses rfl ms,
   extract_counters_field _ _ extract_step_dtlb_misses rfl ms⟩

theorem extract_step_of_not_recognised (s : counter_state) (m : hpc_measurement_t)
    (h : m.counter ∉ recognised_counters) : extract_step s m = s := by
  simp only [recognised_counters, List.mem_cons, List.mem_singleton, List.not_mem_nil,
    or_false, not_or] at h
  obtain ⟨h1, h2, h3, h4, h5, h6, h7, h8, h9⟩ := h
  unfold extract_step
  simp only [h1, h2, h3, h4, h5, h6, h7, h8, h9, if_false]

theorem foldl_extract_step_filter (ms : List hpc_measurement_t) :
    ∀ s : counter_state,
      (ms.filter fun m => decide (m.counter ∈ recognised_counters)).foldl extract_step s =
        ms.foldl extract_step s := by
  induction ms with
  | nil => intro s; rfl
  | cons m ms ih =>
    intro s
    by_cases h : m.counter ∈ recognised_counters
    · rw [List.filter_cons_of_pos (by simpa using h), List.foldl_cons, List.foldl_cons, ih]
    · rw [List.filter_cons_of_neg (by simpa using h), List.foldl_cons,
        extract_step_of_not_recognised s m h, ih]

theorem extract_counters_nil_cycles : (extract_counters []).cycles = 0 := rfl

/-- The result of `engineer_features` is determined by the captured counters. -/
theorem engineer_features_eq_of_extract_eq (a b : List hpc_measurement_t) (now : ℚ)
    (f : feature_vector_t) (h : extract_counters a = extract_counters b) :
    engineer_features a now f = engineer_features b now f := by
  by_cases hrej : (extract_counters a).cycles = 0 ∨ (extract_counters a).instructions = 0
  · rw [engineer_features_of_reject a now f (Or.inr hrej),
      engineer_features_of_reject b now f (Or.inr (h ▸ hrej))]
  · push_neg at hrej
    have ha : a ≠ [] := by
      rintro rfl
      exact hrej.1 rfl
    have hb : b ≠ [] := by
      rintro rfl
      rw [h] at hrej
      exact hrej.1 rfl
    rw [engineer_features_of_accept a now f ha hrej.1 hrej.2,
      engineer_features_of_accept b now f hb (h ▸ hrej.1) (h ▸ hrej.2), h]

/-- C12: a sample whose counter name is not one of the nine recognised names is
ignored by `engineer_features`: inserting it at any position of any interval, or
removing it, changes neither the return code nor any field of the feature vector;
and an interval gives the same result as the interval with all such samples
removed. -/
theorem engineer_features_ignores_unrecognised (pre post : List hpc_measurement_t)
    (m : hpc_measurement_t) (now : ℚ) (f : feature_vector_t)
    (hm : m.counter ∉ recognised_counters) :
    engineer_features (pre ++ m :: post) now f = engineer_features (pre ++ post) now f ∧
    ∀ ms : List hpc_measurement_t,
      engineer_features (ms.filter fun x => decide (x.counter ∈ recognised_counters)) now f =
        engineer_features ms now f := by
  constructor
  · apply engineer_features_eq_of_extract_eq
    unfold extract_counters
    rw [List.foldl_append, List.foldl_cons, extract_step_of_not_recognised _ m hm,
      ← List.foldl_append]
  · intro ms
    apply engineer_features_eq_of_extract_eq
    exact foldl_extract_step_filter ms counter_state.init

/-- Witness for C12: a `cpu-clock` sample between `cycles` and `instructions`. -/
theorem engineer_features_ignores_unrecognised_witness :
    engineer_features
      ([sample "cycles" 10] ++ sample "cpu-clock" 7 :: [sample "instructions" 20]) 0
        feature_vector_t.zero =
      engineer_features ([sample "cycles" 10] ++ [sample "instructions" 20]) 0
        feature_vector_t.zero :=
  (engineer_features_ignores_unrecognised [sample "cycles" 10] [sample "instructions" 20]
    (sample "cpu-clock" 7) 0 feature_vector_t.zero
    (by simp [sample, recognised_counters])).1

/-! ## Severity classification and alert construction -/

theorem get_severity_string_normal_iff (z : ℚ) (config : config_t) :
    get_severity_string z config = "normal" ↔
      |z| < config.robust_z_threshold_critical ∧ |z| < config.robust_z_threshold_high ∧
        |z| < config.robust_z_threshold_medium := by
  unfold get_severity_string
  split_ifs with h1 h2 h3
  · simp [not_lt.mpr h1]
  · simp [not_lt.mpr h2]
  · simp [not_lt.mpr h3]
  · simp [not_le.mp h1, not_le.mp h2, not_le.mp h3]

theorem check_feature_anomaly_of_normal (feature_name : String) (value : ℚ)
    (baseline : baseline_stats_t) (config : config_t) (alert : anomaly_alert_t)
    (app_name : Option String) (now : ℚ)
    (h : ¬ is_anomalous config baseline value) :
    check_feature_anomaly feature_name value baseline config alert app_name now =
      (0, alert) := by
  unfold is_anomalous at h
  unfold check_feature_anomaly
  simp only
  rw [if_pos (not_not.mp h)]

theorem check_feature_anomaly_fst_of_anomalous (feature_name : String) (value : ℚ)
    (baseline : baseline_stats_t) (config : config_t) (alert : anomaly_alert_t)
    (app_name : Option String) (now : ℚ)
    (h : is_anomalous config baseline value) :
    (check_feature_anomaly feature_name value baseline config alert app_name now).1 = 1 := by
  unfold is_anomalous at h
  unfold check_feature_anomaly
  simp only
  rw [if_neg h]

/-- C13: for every score `z` and configuration, `get_severity_string` gives
"critical" when `|z|` reaches the critical threshold; otherwise "high" when `|z|`
reaches the high threshold; otherwise "medium" when `|z|` reaches the medium
threshold; otherwise "normal", and then `check_feature_anomaly` returns 0 and
builds no alert (in every other case it returns 1). With baseline median 1.0,
MAD 0.1, observed 1.5 and thresholds (3, 4, 5): `z = 5`, severity "critical". -/
theorem get_severity_string_spec (z : ℚ) (config : config_t) :
    (|z| ≥ config.robust_z_threshold_critical →
      get_severity_string z config = "critical") ∧
    (¬ |z| ≥ config.robust_z_threshold_critical → |z| ≥ config.robust_z_threshold_high →
      get_severity_string z config = "high") ∧
    (¬ |z| ≥ config.robust_z_threshold_critical → ¬ |z| ≥ config.robust_z_threshold_high →
      |z| ≥ config.robust_z_threshold_medium → get_severity_string z config = "medium") ∧
    (¬ |z| ≥ config.robust_z_threshold_critical → ¬ |z| ≥ config.robust_z_threshold_high →
      ¬ |z| ≥ config.robust_z_threshold_medium → get_severity_string z config = "normal") ∧
    (∀ (feature_name : String) (value : ℚ) (baseline : baseline_stats_t)
        (alert : anomaly_alert_t) (app_name : Option String) (now : ℚ),
      (get_severity_string (compute_robust_z_score value baseline.median baseline.mad)
          config = "normal" →
        check_feature_anomaly feature_name value baseline config alert app_name now =
          (0, alert)) ∧
      (get_severity_string (compute_robust_z_score value baseline.median baseline.mad)
          config ≠ "normal" →
        (check_feature_anomaly feature_name value baseline config alert app_name now).1 =
          1)) ∧
    compute_robust_z_score (3 / 2) 1 (1 / 10) = 5 ∧
    get_severity_string (compute_robust_z_score (3 / 2) 1 (1 / 10)) default_config =
      "critical" := by
  have hz : compute_robust_z_score (3 / 2) 1 (1 / 10) = 5 := by
    norm_num [compute_robust_z_score]
  refine ⟨?_, ?_, ?_, ?_, ?_, hz, ?_⟩
  · intro h
    unfold get_severity_string
    rw [if_pos h]
  · intro h1 h2
    unfold get_severity_string
    rw [if_neg h1, if_pos h2]
  · intro h1 h2 h3
    unfold get_severity_string
    rw [if_neg h1, if_neg h2, if_pos h3]
  · intro h1 h2 h3
    unfold get_severity_string
    rw [if_neg h1, if_neg h2, if_neg h3]
  · intro feature_name value baseline alert app_name now
    constructor
    · intro h
      exact check_feature_anomaly_of_normal _ _ _ _ _ _ _ (fun hn => hn h)
    · intro h
      exact check_feature_anomaly_fst_of_anomalous _ _ _ _ _ _ _ h
  · rw [hz]
    norm_num [get_severity_string, default_config]

/-- Witness for C13: at `z = 7/2` with the default thresholds the first test fails
and the second test is not reached by the critical class: the severity is
"medium". -/
theorem get_severity_string_spec_witness :
    get_severity_string (7 / 2) default_config = "medium" :=
  (get_severity_string_spec (7 / 2) default_config).2.2.1
    (by norm_num [default_config, abs_of_pos])
    (by norm_num [default_config, abs_of_pos])
    (by norm_num [default_config, abs_of_pos])

/-- C14: every alert that `check_feature_anomaly` builds has one of the severities
"critical", "high", "medium" and records as its threshold the boundary of that
class (the critical, high or medium threshold respectively); its severity is the
one `get_severity_string` gives to the score; `measured_value` is the feature
value, `baseline_median` the median of the baseline and `robust_z_score` the
computed score. -/
theorem check_feature_anomaly_alert (feature_name : String) (value : ℚ)
    (baseline : baseline_stats_t) (config : config_t) (alert : anomaly_alert_t)
    (app_name : Option String) (now : ℚ)
    (hbuilt :
      (check_feature_anomaly feature_name value baseline config alert app_name now).1 ≠ 0) :
    (((check_feature_anomaly feature_name value baseline config alert app_name now).2.severity
          = "critical" ∧
        (check_feature_anomaly feature_name value baseline config alert app_name now).2.threshold
          = config.robust_z_threshold_critical) ∨
      ((check_feature_anomaly feature_name value baseline config alert app_name now).2.severity
          = "high" ∧
        (check_feature_anomaly feature_name value baseline config alert app_name now).2.threshold
          = config.robust_z_threshold_high) ∨
      ((check_feature_anomaly feature_name value baseline config alert app_name now).2.severity
          = "medium" ∧
        (check_feature_anomaly feature_name value baseline config alert app_name now).2.threshold
          = config.robust_z_threshold_medium)) ∧
    (check_feature_anomaly feature_name value baseline config alert app_name now).2.severity =
      get_severity_string (compute_robust_z_score value baseline.median baseline.mad) config ∧
    (check_feature_anomaly feature_name value baseline config alert app_name now).2.measured_value
      = value ∧
    (check_feature_anomaly feature_name value baseline config alert app_name now).2.baseline_median
      = baseline.median ∧
    (check_feature_anomaly feature_name value baseline config alert app_name now).2.robust_z_score
      = compute_robust_z_score value baseline.median baseline.mad := by
  by_cases hn : get_severity_string
      (compute_robust_z_score value baseline.median baseline.mad) config = "normal"
  · exfalso
    apply hbuilt
    rw [check_feature_anomaly_of_normal _ _ _ _ _ _ _ (fun h => h hn)]
  · have hres : check_feature_anomaly feature_name value baseline config alert app_name now =
        (1, { application_name := app_name.getD "system",
              baseline_type := if app_name.isSome then "per_app" else "global",
              feature := feature_name,
              measured_value := value,
              baseline_median := baseline.median,
              robust_z_score := compute_robust_z_score value baseline.median baseline.mad,
              threshold := get_threshold_for_severity
                (get_severity_string
                  (compute_robust_z_score value baseline.median baseline.mad) config) config,
              severity := get_severity_string
                (compute_robust_z_score value baseline.median baseline.mad) config,
              timestamp := now }) := by
      unfold check_feature_anomaly
      simp only
      rw [if_neg hn]
    rw [hres]
    refine ⟨?_, rfl, rfl, rfl, rfl⟩
    simp only
    generalize compute_robust_z_score value baseline.median baseline.mad = z at hn
    unfold get_severity_string at hn ⊢
    split_ifs at hn ⊢ with h1 h2 h3
    · left; exact ⟨rfl, by simp [get_threshold_for_severity]⟩
    · right; left; exact ⟨rfl, by simp [get_threshold_for_severity]⟩
    · right; right; exact ⟨rfl, by simp [get_threshold_for_severity]⟩
    · exact absurd rfl hn

/-- Witness for C14: baseline median 1.0 and MAD 0.1, observed `ipc` 1.5, default
thresholds: the alert is "critical" with threshold 5 and score 5. -/
theorem check_feature_anomaly_alert_witness :
    (check_feature_anomaly "ipc" (3 / 2) (stats_of 1 (1 / 10)) default_config
      anomaly_alert_t.blank none 100).2.severity = "critical" ∧
    (check_feature_anomaly "ipc" (3 / 2) (stats_of 1 (1 / 10)) default_config
      anomaly_alert_t.blank none 100).2.threshold = 5 ∧
    (check_feature_anomaly "ipc" (3 / 2) (stats_of 1 (1 / 10)) default_config
      anomaly_alert_t.blank none 100).2.robust_z_score = 5 := by
  have hz : compute_robust_z_score (3 / 2) 1 (1 / 10) = 5 := by
    norm_num [compute_robust_z_score]
  have hs : get_severity_string 5 default_config = "critical" := by
    norm_num [get_severity_string, default_config]
  have hb : (check_feature_anomaly "ipc" (3 / 2) (stats_of 1 (1 / 10)) default_config
      anomaly_alert_t.blank none 100).1 ≠ 0 := by
    rw [check_feature_anomaly_fst_of_anomalous]
    · decide
    · unfold is_anomalous
      simp only [stats_of]
      rw [hz, hs]
      decide
  have h := check_feature_anomaly_alert "ipc" (3 / 2) (stats_of 1 (1 / 10)) default_config
    anomaly_alert_t.blank none 100 hb
  obtain ⟨h1, h2, -, -, h5⟩ := h
  have hsev : (check_feature_anomaly "ipc" (3 / 2) (stats_of 1 (1 / 10)) default_config
      anomaly_alert_t.blank none 100).2.severity = "critical" := by
    rw [h2]
    simp only [stats_of, hz, hs]
  refine ⟨hsev, ?_, ?_⟩
  · rcases h1 with ⟨-, ht⟩ | ⟨hs', -⟩ | ⟨hs', -⟩
    · rw [ht]; rfl
    · rw [hsev] at hs'; exact absurd hs' (by decide)
    · rw [hsev] at hs'; exact absurd hs' (by decide)
  · rw [h5]
    simp only [stats_of, hz]

/-! ## The detector: cooldown, commit and baseline resolution -/

theorem check_and_log_of_normal (st : detect_state) (feature_name : String) (value : ℚ)
    (baseline : baseline_stats_t) (app_name : Option String) (now : ℚ)
    (h : ¬ is_anomalous st.ids.config baseline value) :
    check_and_log st feature_name value baseline app_name now = st := by
  unfold check_and_log
  simp only
  rw [check_feature_anomaly_of_normal _ _ _ _ _ _ _ h]
  simp

theorem check_and_log_of_anomalous (st : detect_state) (feature_name : String) (value : ℚ)
    (baseline : baseline_stats_t) (app_name : Option String) (now : ℚ)
    (h : is_anomalous st.ids.config baseline value) :
    check_and_log st feature_name value baseline app_name now =
      { ids := { st.ids with alerts := st.ids.alerts ++
          [(check_feature_anomaly feature_name value baseline st.ids.config st.alert
            app_name now).2] },
        alert := (check_feature_anomaly feature_name value baseline st.ids.config st.alert
          app_name now).2,
        anomaly_count := st.anomaly_count + 1 } := by
  unfold check_and_log
  simp only
  rw [if_pos (by rw [check_feature_anomaly_fst_of_anomalous _ _ _ _ _ _ _ h]; decide)]
  rfl

theorem alerts_appended_refl (st : detect_state) : alerts_appended st st :=
  ⟨[], by simp, by simp⟩

theorem alerts_appended_trans {st1 st2 st3 : detect_state}
    (h12 : alerts_appended st1 st2) (h23 : alerts_appended st2 st3) :
    alerts_appended st1 st3 := by
  obtain ⟨l1, hi1, hc1⟩ := h12
  obtain ⟨l2, hi2, hc2⟩ := h23
  refine ⟨l1 ++ l2, ?_, ?_⟩
  · rw [hi2, hi1]
    simp [List.append_assoc]
  · rw [hc2, hc1, List.length_append]
    push_cast
    ring

theorem check_and_log_alerts_appended (st : detect_state) (feature_name : String)
    (value : ℚ) (baseline : baseline_stats_t) (app_name : Option String) (now : ℚ) :
    alerts_appended st (check_and_log st feature_name value baseline app_name now) := by
  by_cases h : is_anomalous st.ids.config baseline value
  · rw [check_and_log_of_anomalous _ _ _ _ _ _ h]
    exact ⟨[_], rfl, by simp⟩
  · rw [check_and_log_of_normal _ _ _ _ _ _ h]
    exact alerts_appended_refl st

theorem check_and_log_config (st : detect_state) (feature_name : String)
    (value : ℚ) (baseline : baseline_stats_t) (app_name : Option String) (now : ℚ) :
    (check_and_log st feature_name value baseline app_name now).ids.config =
      st.ids.config := by
  obtain ⟨l, hi, -⟩ := check_and_log_alerts_appended st feature_name value baseline
    app_name now
  rw [hi]

theorem check_and_log_count (st : detect_state) (feature_name : String)
    (value : ℚ) (baseline : baseline_stats_t) (app_name : Option String) (now : ℚ) :
    (check_and_log st feature_name value baseline app_name now).anomaly_count =
      st.anomaly_count + (if is_anomalous st.ids.config baseline value then 1 else 0) := by
  by_cases h : is_anomalous st.ids.config baseline value
  · rw [check_and_log_of_anomalous _ _ _ _ _ _ h, if_pos h]
  · rw [check_and_log_of_normal _ _ _ _ _ _ h, if_neg h, add_zero]

/-- The six checks leave the detector as it was except for alerts appended to the
sink, and `anomaly_count` is the number of alerts appended. -/
theorem run_checks_alerts_appended (ids : hpc_ids_t) (features : feature_vector_t)
    (baseline : baseline_t) (app_name : Option String) (now : ℚ) :
    ∃ l : List anomaly_alert_t,
      (run_checks ids features baseline app_name now).ids =
        { ids with alerts := ids.alerts ++ l } ∧
      (run_checks ids features baseline app_name now).anomaly_count = (l.length : Int) := by
  have h : alerts_appended
      { ids := ids, alert := anomaly_alert_t.blank, anomaly_count := 0 }
      (run_checks ids features baseline app_name now) := by
    unfold run_checks
    exact alerts_appended_trans (alerts_appended_trans (alerts_appended_trans
      (alerts_appended_trans (alerts_appended_trans
        (check_and_log_alerts_appended _ _ _ _ _ _)
        (check_and_log_alerts_appended _ _ _ _ _ _))
        (check_and_log_alerts_appended _ _ _ _ _ _))
        (check_and_log_alerts_appended _ _ _ _ _ _))
        (check_and_log_alerts_appended _ _ _ _ _ _))
        (check_and_log_alerts_appended _ _ _ _ _ _)
  obtain ⟨l, hi, hc⟩ := h
  exact ⟨l, hi, by simpa using hc⟩

/-- The number of anomalies counted by the six checks. -/
theorem run_checks_count (ids : hpc_ids_t) (features : feature_vector_t)
    (baseline : baseline_t) (app_name : Option String) (now : ℚ) :
    (run_checks ids features baseline app_name now).anomaly_count =
      (if is_anomalous ids.config baseline.ipc features.ipc then 1 else 0) +
      (if is_anomalous ids.config baseline.branch_miss_rate features.branch_miss_rate
        then 1 else 0) +
      (if is_anomalous ids.config baseline.cache_miss_rate features.cache_miss_rate
        then 1 else 0) +
      (if is_anomalous ids.config baseline.l1d_mpki features.l1d_mpki then 1 else 0) +
      (if is_anomalous ids.config baseline.itlb_mpki features.itlb_mpki then 1 else 0) +
      (if is_anomalous ids.config baseline.dtlb_mpki features.dtlb_mpki then 1 else 0) := by
  unfold run_checks
  simp only [check_and_log_count, check_and_log_config, zero_add]

theorem run_checks_count_pos_iff (ids : hpc_ids_t) (features : feature_vector_t)
    (baseline : baseline_t) (app_name : Option String) (now : ℚ) :
    (run_checks ids features baseline app_name now).anomaly_count > 0 ↔
      any_anomalous ids.config baseline features := by
  rw [run_checks_count]
  unfold any_anomalous
  constructor
  · intro h
    by_contra hcon
    simp only [not_or] at hcon
    obtain ⟨h1, h2, h3, h4, h5, h6⟩ := hcon
    simp only [if_neg h1, if_neg h2, if_neg h3, if_neg h4, if_neg h5, if_neg h6] at h
    exact absurd h (by decide)
  · intro h
    have hnn : ∀ p : Prop, [Decidable p] → (0 : Int) ≤ (if p then 1 else 0) := by
      intro p _
      split_ifs <;> decide
    have h1 := hnn (is_anomalous ids.config baseline.ipc features.ipc)
    have h2 := hnn (is_anomalous ids.config baseline.branch_miss_rate
      features.branch_miss_rate)
    have h3 := hnn (is_anomalous ids.config baseline.cache_miss_rate
      features.cache_miss_rate)
    have h4 := hnn (is_anomalous ids.config baseline.l1d_mpki features.l1d_mpki)
    have h5 := hnn (is_anomalous ids.config baseline.itlb_mpki features.itlb_mpki)
    have h6 := hnn (is_anomalous ids.config baseline.dtlb_mpki features.dtlb_mpki)
    rcases h with h | h | h | h | h | h <;> rw [if_pos h] <;> omega

/-- The effect of one `detect_anomalies` call: behind the gate nothing changes;
past it alerts are appended to the sink, their number is returned, and
`last_alert_time` is set to `now` exactly when that number is positive. -/
theorem detect_anomalies_effect (ids : hpc_ids_t) (features : feature_vector_t)
    (app_name : Option String) (now : Int) :
    (now - ids.last_alert_time < ids.config.alert_cooldown_seconds ∧
      detect_anomalies ids features app_name now = (0, ids)) ∨
    (¬ now - ids.last_alert_time < ids.config.alert_cooldown_seconds ∧
      ∃ l : List anomaly_alert_t,
        (l.length : Int) =
          (run_checks ids features (resolve_baseline ids app_name) app_name
            (now : ℚ)).anomaly_count ∧
        detect_anomalies ids features app_name now =
          ((l.length : Int),
            { ids with alerts := ids.alerts ++ l,
                       last_alert_time := if l = [] then ids.last_alert_time else now })) := by
  by_cases hg : now - ids.last_alert_time < ids.config.alert_cooldown_seconds
  · left
    refine ⟨hg, ?_⟩
    unfold detect_anomalies
    simp only
    rw [if_pos hg]
  · right
    refine ⟨hg, ?_⟩
    obtain ⟨l, hi, hc⟩ := run_checks_alerts_appended ids features
      (resolve_baseline ids app_name) app_name (now : ℚ)
    refine ⟨l, hc.symm, ?_⟩
    unfold detect_anomalies
    simp only
    rw [if_neg hg, hc, hi]
    cases l with
    | nil => simp
    | cons a l =>
      have hpos : ((a :: l).length : Int) > 0 := by
        simp only [List.length_cons]
        push_cast
        omega
      rw [if_pos hpos]
      simp

theorem z_zero_of_unit_baseline : compute_robust_z_score 0 0 1 = 0 := by
  norm_num [compute_robust_z_score]

theorem z_example_ipc : compute_robust_z_score (3 / 2) 1 (1 / 10) = 5 := by
  norm_num [compute_robust_z_score]

theorem not_anomalous_zero_default :
    ¬ is_anomalous default_config (stats_of 0 1) 0 := by
  unfold is_anomalous
  simp only [stats_of]
  rw [z_zero_of_unit_baseline]
  norm_num [get_severity_string, default_config]

theorem severity_five_default : get_severity_string 5 default_config = "critical" := by
  norm_num [get_severity_string, default_config]

theorem anomalous_example_ipc :
    is_anomalous default_config (stats_of 1 (1 / 10)) (3 / 2) := by
  unfold is_anomalous
  simp only [stats_of]
  rw [z_example_ipc, severity_five_default]
  decide

theorem check_feature_anomaly_example (alert : anomaly_alert_t) (app_name : Option String)
    (now : ℚ) :
    check_feature_anomaly "ipc" (3 / 2) (stats_of 1 (1 / 10)) default_config alert
      app_name now = (1, example_alert app_name now) := by
  unfold check_feature_anomaly
  simp only [stats_of]
  rw [z_example_ipc, severity_five_default, if_neg (by decide)]
  simp [get_threshold_for_severity, default_config, example_alert]

/-- When a zero value is not anomalous against the unit summary, only the `ipc`
check of the six can fire on a vector whose other features are 0. -/
theorem run_checks_of_ipc (ids : hpc_ids_t) (v median mad : ℚ) (app_name : Option String)
    (now : ℚ) (hn : ¬ is_anomalous ids.config (stats_of 0 1) 0) :
    run_checks ids (features_of_ipc v) (baseline_of_ipc median mad) app_name now =
      check_and_log { ids := ids, alert := anomaly_alert_t.blank, anomaly_count := 0 }
        "ipc" v (stats_of median mad) app_name now := by
  unfold run_checks
  simp only [features_of_ipc, baseline_of_ipc, feature_vector_t.zero]
  have hcfg : ∀ st : detect_state, st.ids.config = ids.config →
      ∀ name : String, check_and_log st name 0 (stats_of 0 1) app_name now = st :=
    fun st hst name => check_and_log_of_normal _ _ _ _ _ _ (by rw [hst]; exact hn)
  have h1 : (check_and_log
      { ids := ids, alert := anomaly_alert_t.blank, anomaly_count := 0 }
      "ipc" v (stats_of median mad) app_name now).ids.config = ids.config := by
    rw [check_and_log_config]
  rw [hcfg _ h1, hcfg _ h1, hcfg _ h1, hcfg _ h1, hcfg _ h1]

/-- The six checks on an observed `ipc` of 1.5 for a detector with the default
configuration, against the example baseline. -/
theorem run_checks_example (ids : hpc_ids_t) (app_name : Option String) (now : ℚ)
    (hc : ids.config = default_config) :
    run_checks ids (features_of_ipc (3 / 2)) (baseline_of_ipc 1 (1 / 10)) app_name now =
      { ids := { ids with alerts := ids.alerts ++ [example_alert app_name now] },
        alert := example_alert app_name now, anomaly_count := 1 } := by
  unfold run_checks
  simp only [features_of_ipc, baseline_of_ipc, feature_vector_t.zero]
  have h1 : check_and_log { ids := ids, alert := anomaly_alert_t.blank, anomaly_count := 0 }
      "ipc" (3 / 2) (stats_of 1 (1 / 10)) app_name now =
      { ids := { ids with alerts := ids.alerts ++ [example_alert app_name now] },
        alert := example_alert app_name now, anomaly_count := 1 } := by
    rw [check_and_log_of_anomalous _ _ _ _ _ _ (by simpa [hc] using anomalous_example_ipc)]
    simp only [hc, check_feature_anomaly_example, zero_add]
  rw [h1]
  have hn : ∀ name : String, check_and_log
      { ids := { ids with alerts := ids.alerts ++ [example_alert app_name now] },
        alert := example_alert app_name now, anomaly_count := 1 }
      name 0 (stats_of 0 1) app_name now =
      { ids := { ids with alerts := ids.alerts ++ [example_alert app_name now] },
        alert := example_alert app_name now, anomaly_count := 1 } := fun name =>
    check_and_log_of_normal _ _ _ _ _ _ (by simpa [hc] using not_anomalous_zero_default)
  rw [hn, hn, hn, hn, hn]

/-- An ungated call on an observed `ipc` of 1.5 for a detector with the default
configuration, the example global baseline and no application records. -/
theorem detect_anomalies_example (ids : hpc_ids_t) (app_name : Option String) (now : Int)
    (hc : ids.config = default_config)
    (hb : ids.global_baseline = baseline_of_ipc 1 (1 / 10)) (ha : ids.app_baselines = [])
    (hg : ¬ now - ids.last_alert_time < 30) :
    detect_anomalies ids (features_of_ipc (3 / 2)) app_name now =
      (1, { ids with alerts := ids.alerts ++ [example_alert app_name (now : ℚ)],
                     last_alert_time := now }) := by
  have hres : resolve_baseline ids app_name = baseline_of_ipc 1 (1 / 10) := by
    cases app_name with
    | none => exact hb
    | some n =>
      unfold resolve_baseline
      simp only
      rw [ha]
      exact hb
  have hcd : ids.config.alert_cooldown_seconds = 30 := by
    rw [hc]
    rfl
  unfold detect_anomalies
  simp only
  rw [hcd, if_neg hg, hres, run_checks_example ids app_name (now : ℚ) hc]
  simp

/-- The first call of the cooldown example: an anomalous vector at `t = 100`. -/
theorem detect_anomalies_example_first :
    detect_anomalies example_detector (features_of_ipc (3 / 2)) none 100 =
      (1, { example_detector with alerts := [example_alert none 100],
                                  last_alert_time := 100 }) := by
  rw [detect_anomalies_example example_detector none 100 rfl rfl rfl
    (by simp [example_detector, detector_of])]
  simp [example_detector, detector_of]

/-- C15: cooldown gate. For every detector, feature vector, application name and
clock reading `now` with `now - last_alert_time < alert_cooldown_seconds`,
`detect_anomalies` returns 0, hands no alert to the sink and leaves
`last_alert_time` (and the whole detector) unchanged. -/
theorem detect_anomalies_cooldown_gate (ids : hpc_ids_t) (features : feature_vector_t)
    (app_name : Option String) (now : Int)
    (hgate : now - ids.last_alert_time < ids.config.alert_cooldown_seconds) :
    (detect_anomalies ids features app_name now).1 = 0 ∧
    (detect_anomalies ids features app_name now).2.alerts = ids.alerts ∧
    (detect_anomalies ids features app_name now).2.last_alert_time = ids.last_alert_time ∧
    (detect_anomalies ids features app_name now).2 = ids := by
  have h : detect_anomalies ids features app_name now = (0, ids) := by
    unfold detect_anomalies
    simp only
    rw [if_pos hgate]
  rw [h]
  exact ⟨rfl, rfl, rfl, rfl⟩

/-- Witness for C15: cooldown 30, the same anomalous vector at `t = 100` and
`t = 110`. The first call emits one alert and sets `last_alert_time = 100`; the
second returns 0, emits nothing and leaves `last_alert_time = 100`. -/
theorem detect_anomalies_cooldown_gate_witness :
    (detect_anomalies example_detector (features_of_ipc (3 / 2)) none 100).1 = 1 ∧
    (detect_anomalies example_detector (features_of_ipc (3 / 2)) none 100).2.alerts =
      [example_alert none 100] ∧
    (detect_anomalies example_detector (features_of_ipc (3 / 2)) none 100).2.last_alert_time
      = 100 ∧
    (detect_anomalies
      (detect_anomalies example_detector (features_of_ipc (3 / 2)) none 100).2
      (features_of_ipc (3 / 2)) none 110).1 = 0 ∧
    (detect_anomalies
      (detect_anomalies example_detector (features_of_ipc (3 / 2)) none 100).2
      (features_of_ipc (3 / 2)) none 110).2.alerts = [example_alert none 100] ∧
    (detect_anomalies
      (detect_anomalies example_detector (features_of_ipc (3 / 2)) none 100).2
      (features_of_ipc (3 / 2)) none 110).2.last_alert_time = 100 := by
  have hgate : (110 : Int) -
      (detect_anomalies example_detector (features_of_ipc (3 / 2)) none 100).2.last_alert_time <
      (detect_anomalies example_detector (features_of_ipc (3 / 2)) none
        100).2.config.alert_cooldown_seconds := by
    rw [detect_anomalies_example_first]
    simp [example_detector, detector_of, default_config]
  have h := detect_anomalies_cooldown_gate
    (detect_anomalies example_detector (features_of_ipc (3 / 2)) none 100).2
    (features_of_ipc (3 / 2)) none 110 hgate
  obtain ⟨h1, h2, h3, -⟩ := h
  refine ⟨?_, ?_, ?_, h1, ?_, ?_⟩
  · rw [detect_anomalies_example_first]
  · rw [detect_anomalies_example_first]
  · rw [detect_anomalies_example_first]
  · rw [h2, detect_anomalies_example_first]
  · rw [h3, detect_anomalies_example_first]

theorem not_anomalous_of_below_all (config : config_t) (baseline : baseline_stats_t)
    (value : ℚ)
    (hh : config.robust_z_threshold_medium ≤ config.robust_z_threshold_high)
    (hc : config.robust_z_threshold_medium ≤ config.robust_z_threshold_critical)
    (hz : |compute_robust_z_score value baseline.median baseline.mad| <
      config.robust_z_threshold_medium) :
    ¬ is_anomalous config baseline value := by
  unfold is_anomalous
  rw [not_not, get_severity_string_normal_iff]
  exact ⟨lt_of_lt_of_le hz hc, lt_of_lt_of_le hz hh, hz⟩

/-- Counterexample to C16: with thresholds medium 3, high 4, critical 1, baseline
medians 0 and MADs 1, an observed `ipc` of 2 scores `|z| = 2 < 3` (the other five
features score 0), yet the call at `t = 100` returns 1, emits a "critical" alert and
sets `last_alert_time` to 100. -/
theorem all_below_medium_counterexample :
    all_below_medium misordered_config (baseline_of_ipc 0 1) (features_of_ipc 2) ∧
    (detect_anomalies (detector_of misordered_config (baseline_of_ipc 0 1) [])
      (features_of_ipc 2) none 100).1 = 1 ∧
    ((detect_anomalies (detector_of misordered_config (baseline_of_ipc 0 1) [])
      (features_of_ipc 2) none 100).2.alerts.map fun a => a.severity) = ["critical"] ∧
    (detect_anomalies (detector_of misordered_config (baseline_of_ipc 0 1) [])
      (features_of_ipc 2) none 100).2.last_alert_time = 100 := by
  have hz0 : compute_robust_z_score 0 0 1 = 0 := z_zero_of_unit_baseline
  have hz2 : compute_robust_z_score 2 0 1 = 2 := by norm_num [compute_robust_z_score]
  have hs2 : get_severity_string 2 misordered_config = "critical" := by
    norm_num [get_severity_string, misordered_config, default_config]
  have hs0 : get_severity_string 0 misordered_config = "normal" := by
    norm_num [get_severity_string, misordered_config, default_config]
  have ha : is_anomalous misordered_config (stats_of 0 1) 2 := by
    unfold is_anomalous
    simp only [stats_of]
    rw [hz2, hs2]
    decide
  have hn : ¬ is_anomalous misordered_config (stats_of 0 1) 0 := by
    unfold is_anomalous
    simp only [stats_of]
    rw [hz0, hs0]
    decide
  have hchk : ∀ alert : anomaly_alert_t,
      (check_feature_anomaly "ipc" 2 (stats_of 0 1) misordered_config alert none
        ((100 : Int) : ℚ)).2.severity = "critical" := by
    intro alert
    unfold check_feature_anomaly
    simp only [stats_of]
    rw [hz2, hs2, if_neg (by decide)]
  have hrun : run_checks (detector_of misordered_config (baseline_of_ipc 0 1) [])
      (features_of_ipc 2) (baseline_of_ipc 0 1) none ((100 : Int) : ℚ) =
      check_and_log
        { ids := detector_of misordered_config (baseline_of_ipc 0 1) [],
          alert := anomaly_alert_t.blank, anomaly_count := 0 }
        "ipc" 2 (stats_of 0 1) none ((100 : Int) : ℚ) :=
    run_checks_of_ipc _ _ _ _ _ _ hn
  have hstep := check_and_log_of_anomalous
    { ids := detector_of misordered_config (baseline_of_ipc 0 1) [],
      alert := anomaly_alert_t.blank, anomaly_count := 0 }
    "ipc" 2 (stats_of 0 1) none ((100 : Int) : ℚ) ha
  have hdet : detect_anomalies (detector_of misordered_config (baseline_of_ipc 0 1) [])
      (features_of_ipc 2) none 100 =
      (1, { detector_of misordered_config (baseline_of_ipc 0 1) [] with
        alerts := [(check_feature_anomaly "ipc" 2 (stats_of 0 1) misordered_config
          anomaly_alert_t.blank none ((100 : Int) : ℚ)).2],
        last_alert_time := 100 }) := by
    unfold detect_anomalies
    simp only
    rw [if_neg (by simp [detector_of, misordered_config, default_config])]
    have hb : resolve_baseline (detector_of misordered_config (baseline_of_ipc 0 1) []) none =
        baseline_of_ipc 0 1 := rfl
    rw [hb, hrun, hstep]
    simp [detector_of]
  refine ⟨?_, ?_, ?_, ?_⟩
  · unfold all_below_medium
    simp only [features_of_ipc, baseline_of_ipc, feature_vector_t.zero, stats_of, hz0, hz2]
    norm_num [misordered_config, default_config]
  · rw [hdet]
  · rw [hdet]
    simp only [List.map_cons, List.map_nil, hchk]
  · rw [hdet]

/-- C16 as amended: for every detector whose medium threshold does not exceed its
high and critical thresholds, and every feature vector such that `|z|` is below
the medium threshold for each of the six features against the resolved baseline,
`detect_anomalies` emits no alert, returns 0 and leaves `last_alert_time` (and the
whole detector) unchanged. -/
theorem detect_anomalies_all_normal (ids : hpc_ids_t) (features : feature_vector_t)
    (app_name : Option String) (now : Int)
    (hhigh : ids.config.robust_z_threshold_medium ≤ ids.config.robust_z_threshold_high)
    (hcrit : ids.config.robust_z_threshold_medium ≤ ids.config.robust_z_threshold_critical)
    (hz : all_below_medium ids.config (resolve_baseline ids app_name) features) :
    (detect_anomalies ids features app_name now).1 = 0 ∧
    (detect_anomalies ids features app_name now).2.alerts = ids.alerts ∧
    (detect_anomalies ids features app_name now).2.last_alert_time = ids.last_alert_time ∧
    (detect_anomalies ids features app_name now).2 = ids := by
  obtain ⟨h1, h2, h3, h4, h5, h6⟩ := hz
  have hn : ¬ any_anomalous ids.config (resolve_baseline ids app_name) features := by
    unfold any_anomalous
    simp only [not_or]
    exact ⟨not_anomalous_of_below_all _ _ _ hhigh hcrit h1,
      not_anomalous_of_below_all _ _ _ hhigh hcrit h2,
      not_anomalous_of_below_all _ _ _ hhigh hcrit h3,
      not_anomalous_of_below_all _ _ _ hhigh hcrit h4,
      not_anomalous_of_below_all _ _ _ hhigh hcrit h5,
      not_anomalous_of_below_all _ _ _ hhigh hcrit h6⟩
  have h : detect_anomalies ids features app_name now = (0, ids) := by
    rcases detect_anomalies_effect ids features app_name now with ⟨-, hg⟩ | ⟨-, l, hl, hd⟩
    · exact hg
    · have hcnt : ¬ (run_checks ids features (resolve_baseline ids app_name) app_name
          (now : ℚ)).anomaly_count > 0 :=
        fun hp => hn ((run_checks_count_pos_iff _ _ _ _ _).mp hp)
      have hl0 : l = [] := by
        cases l with
        | nil => rfl
        | cons a l =>
          exfalso
          apply hcnt
          rw [← hl]
          simp only [List.length_cons]
          push_cast
          omega
      subst hl0
      rw [hd]
      simp
  rw [h]
  exact ⟨rfl, rfl, rfl, rfl⟩

/-- Witness for the amended C16: the example detector and an observed `ipc` equal
to the baseline median. -/
theorem detect_anomalies_all_normal_witness :
    detect_anomalies example_detector (features_of_ipc 1) none 100 =
      (0, example_detector) := by
  have hz1 : compute_robust_z_score 1 1 (1 / 10) = 0 := by
    norm_num [compute_robust_z_score]
  have h := detect_anomalies_all_normal example_detector (features_of_ipc 1) none 100
    (by norm_num [example_detector, detector_of, default_config])
    (by norm_num [example_detector, detector_of, default_config])
    (by
      unfold all_below_medium
      simp only [example_detector, detector_of, resolve_baseline, features_of_ipc,
        baseline_of_ipc, feature_vector_t.zero, stats_of, hz1, z_zero_of_unit_baseline]
      norm_num [default_config])
  exact Prod.ext h.1 h.2.2.2

/-- What one call does to the cooldown timer, by its return value. -/
theorem detect_anomalies_timer (ids : hpc_ids_t) (features : feature_vector_t)
    (app_name : Option String) (now : Int) :
    (detect_anomalies ids features app_name now).2.config = ids.config ∧
    ((detect_anomalies ids features app_name now).1 > 0 →
      ¬ now - ids.last_alert_time < ids.config.alert_cooldown_seconds ∧
      (detect_anomalies ids features app_name now).2.last_alert_time = now) ∧
    (¬ (detect_anomalies ids features app_name now).1 > 0 →
      (detect_anomalies ids features app_name now).2.last_alert_time =
        ids.last_alert_time) ∧
    ((detect_anomalies ids features app_name now).1 > 0 ↔
      (detect_anomalies ids features app_name now).2.alerts ≠ ids.alerts) := by
  rcases detect_anomalies_effect ids features app_name now with ⟨-, hd⟩ | ⟨hg, l, -, hd⟩
  · rw [hd]
    refine ⟨rfl, ?_, fun _ => rfl, ?_⟩
    · intro h
      have h0 : (0 : Int) > 0 := h
      exact absurd h0 (by decide)
    · constructor
      · intro h
        have h0 : (0 : Int) > 0 := h
        exact absurd h0 (by decide)
      · intro h
        exact absurd rfl h
  · rw [hd]
    cases l with
    | nil =>
      refine ⟨rfl, ?_, ?_, ?_⟩
      · intro h
        exact absurd h (by simp)
      · intro _
        simp
      · simp
    | cons a l =>
      have hpos : ((a :: l).length : Int) > 0 := by
        simp only [List.length_cons]
        push_cast
        omega
      refine ⟨rfl, ?_, ?_, ?_⟩
      · intro _
        exact ⟨hg, by simp⟩
      · intro h
        exact absurd hpos h
      · constructor
        · intro _
          simp
        · intro _
          exact hpos

/-- The cooldown law for a session started from any detector: consecutive emitting
times are a cooldown apart, and so is the first emitting time from the
`last_alert_time` the session starts with. -/
theorem run_calls_cooldown (calls : List detect_call) :
    ∀ ids : hpc_ids_t,
      List.Chain' (fun t1 t2 : Int => t2 - t1 ≥ ids.config.alert_cooldown_seconds)
        (emitting_times (run_calls ids calls).1) ∧
      ∀ t ∈ (emitting_times (run_calls ids calls).1).head?,
        t - ids.last_alert_time ≥ ids.config.alert_cooldown_seconds := by
  induction calls with
  | nil =>
    intro ids
    simp [run_calls, emitting_times]
  | cons c cs ih =>
    intro ids
    obtain ⟨hcfg, hpos, hzero, -⟩ := detect_anomalies_timer ids c.features c.app_name c.now
    obtain ⟨ihc, ihh⟩ := ih (detect_anomalies ids c.features c.app_name c.now).2
    rw [hcfg] at ihc ihh
    by_cases hp : (detect_anomalies ids c.features c.app_name c.now).1 > 0
    · obtain ⟨hg, hl⟩ := hpos hp
      rw [hl] at ihh
      have he : emitting_times (run_calls ids (c :: cs)).1 =
          c.now :: emitting_times
            (run_calls (detect_anomalies ids c.features c.app_name c.now).2 cs).1 := by
        simp [run_calls, emitting_times, List.filter_cons, hp]
      rw [he]
      refine ⟨List.chain'_cons'.mpr ⟨ihh, ihc⟩, ?_⟩
      intro t ht
      simp only [List.head?_cons, Option.mem_def, Option.some.injEq] at ht
      rw [← ht]
      exact not_lt.mp hg
    · rw [hzero hp] at ihh
      have he : emitting_times (run_calls ids (c :: cs)).1 =
          emitting_times
            (run_calls (detect_anomalies ids c.features c.app_name c.now).2 cs).1 := by
        simp [run_calls, emitting_times, List.filter_cons, hp]
      rw [he]
      exact ⟨ihc, ihh⟩

/-- C18: cooldown law. For every detector and every sequence of `detect_anomalies`
calls on it (with any clock readings, in particular non-decreasing ones), any two
consecutive alert-emitting calls, at times `t1` and `t2`, satisfy
`t2 - t1 ≥ alert_cooldown_seconds`. -/
theorem cooldown_law (ids : hpc_ids_t) (calls : List detect_call) :
    List.Chain' (fun t1 t2 : Int => t2 - t1 ≥ ids.config.alert_cooldown_seconds)
      (emitting_times (run_calls ids calls).1) :=
  (run_calls_cooldown calls ids).1

/-- Witness for C18: the example session emits at `t = 100` and `t = 130` and not
at `t = 110`. -/
theorem cooldown_law_witness :
    emitting_times (run_calls example_detector example_calls).1 = [100, 130] ∧
    List.Chain'
      (fun t1 t2 : Int => t2 - t1 ≥ example_detector.config.alert_cooldown_seconds)
      (emitting_times (run_calls example_detector example_calls).1) := by
  refine ⟨?_, cooldown_law example_detector example_calls⟩
  have h2 : detect_anomalies
      { example_detector with alerts := [example_alert none 100], last_alert_time := 100 }
      (features_of_ipc (3 / 2)) none 110 =
      (0, { example_detector with alerts := [example_alert none 100],
                                  last_alert_time := 100 }) := by
    unfold detect_anomalies
    simp only
    rw [if_pos (by simp [example_detector, detector_of, default_config])]
  have h3 := detect_anomalies_example
    { example_detector with alerts := [example_alert none 100], last_alert_time := 100 }
    none 130 rfl rfl rfl (by simp)
  simp only [example_calls, run_calls, detect_anomalies_example_first, h2, h3,
    emitting_times]
  simp

/-- Counterexample to C19: with an application record of empty name in the store, a
vector tagged with the empty name is scored against that record's baseline, not
against the global baseline. -/
theorem empty_name_counterexample :
    resolve_baseline empty_name_detector (some "") = baseline_of_ipc 2 (1 / 10) ∧
    resolve_baseline empty_name_detector (some "") ≠ empty_name_detector.global_baseline ∧
    (detect_anomalies empty_name_detector (features_of_ipc 2) (some "") 100).1 = 0 ∧
    (detect_anomalies empty_name_detector (features_of_ipc 2) none 100).1 = 1 := by
  have hres : resolve_baseline empty_name_detector (some "") = baseline_of_ipc 2 (1 / 10) := by
    simp [resolve_baseline, resolve_loop, empty_name_detector, detector_of]
  have hne : baseline_of_ipc 2 (1 / 10) ≠ empty_name_detector.global_baseline := by
    intro h
    have h2 := congrArg (fun b : baseline_t => b.ipc.median) h
    simp [baseline_of_ipc, stats_of, empty_name_detector, detector_of] at h2
  have hz : compute_robust_z_score 2 2 (1 / 10) = 0 := by
    norm_num [compute_robust_z_score]
  have hz2 : compute_robust_z_score 2 1 (1 / 10) = 10 := by
    norm_num [compute_robust_z_score]
  have hs10 : get_severity_string 10 default_config = "critical" := by
    norm_num [get_severity_string, default_config]
  have hs0 : get_severity_string 0 default_config = "normal" := by
    norm_num [get_severity_string, default_config]
  have hgate : ¬ (100 : Int) - empty_name_detector.last_alert_time <
      empty_name_detector.config.alert_cooldown_seconds := by
    simp [empty_name_detector, detector_of, default_config]
  refine ⟨hres, by rw [hres]; exact hne, ?_, ?_⟩
  · unfold detect_anomalies
    simp only
    rw [if_neg hgate, hres,
      run_checks_of_ipc _ _ _ _ _ _ not_anomalous_zero_default,
      check_and_log_of_normal]
    · simp
    · unfold is_anomalous
      simp only [stats_of]
      rw [hz, not_not]
      exact hs0
  · unfold detect_anomalies
    simp only
    rw [if_neg hgate]
    have hg : resolve_baseline empty_name_detector none = baseline_of_ipc 1 (1 / 10) := rfl
    rw [hg, run_checks_of_ipc _ _ _ _ _ _ not_anomalous_zero_default,
      check_and_log_of_anomalous]
    · simp
    · unfold is_anomalous
      simp only [stats_of]
      rw [hz2]
      show get_severity_string 10 default_config ≠ "normal"
      rw [hs10]
      decide

theorem resolve_loop_eq_find (name : String) (baseline : baseline_t)
    (records : List app_baseline_t) :
    resolve_loop name baseline records =
      match records.find? (fun r => decide (r.name = name) && r.has_baseline) with
      | some r => r.baseline
      | none => baseline := by
  induction records with
  | nil => rfl
  | cons r rs ih =>
    unfold resolve_loop
    rw [List.find?_cons]
    by_cases h : r.name = name ∧ r.has_baseline = true
    · rw [if_pos h]
      simp [h.1, h.2]
    · rw [if_neg h, ih]
      have hb : (decide (r.name = name) && r.has_baseline) = false := by
        rw [Bool.and_eq_false_iff]
        by_cases hn : r.name = name
        · right
          simpa [hn] using h
        · left
          simp [hn]
      simp [hb]

/-- C19 as amended: the per-application baseline is used for scoring if an
application name is given (empty or not) and a record with that name and
`has_baseline = true` exists in the store (the first such record is used); in
every other case (no name, unknown name, record without a usable baseline) the
global baseline is used. The return value of an ungated call is positive exactly
when some feature is anomalous against the baseline so resolved. -/
theorem resolve_baseline_spec (ids : hpc_ids_t) :
    (∀ name : String, resolve_baseline ids (some name) =
      match ids.app_baselines.find? (fun r => decide (r.name = name) && r.has_baseline) with
      | some r => r.baseline
      | none => ids.global_baseline) ∧
    (∀ name : String,
      (∃ r ∈ ids.app_baselines, r.name = name ∧ r.has_baseline = true) →
      ∃ r ∈ ids.app_baselines, r.name = name ∧ r.has_baseline = true ∧
        resolve_baseline ids (some name) = r.baseline) ∧
    (∀ name : String,
      (∀ r ∈ ids.app_baselines, ¬ (r.name = name ∧ r.has_baseline = true)) →
      resolve_baseline ids (some name) = ids.global_baseline) ∧
    resolve_baseline ids none = ids.global_baseline ∧
    (∀ (features : feature_vector_t) (app_name : Option String) (now : Int),
      ¬ now - ids.last_alert_time < ids.config.alert_cooldown_seconds →
      ((detect_anomalies ids features app_name now).1 > 0 ↔
        any_anomalous ids.config (resolve_baseline ids app_name) features)) := by
  have hfind : ∀ name : String, resolve_baseline ids (some name) =
      match ids.app_baselines.find? (fun r => decide (r.name = name) && r.has_baseline) with
      | some r => r.baseline
      | none => ids.global_baseline :=
    fun name => resolve_loop_eq_find name ids.global_baseline ids.app_baselines
  refine ⟨hfind, ?_, ?_, rfl, ?_⟩
  · rintro name ⟨r, hr, hn, hb⟩
    rw [hfind]
    cases hf : ids.app_baselines.find? (fun r => decide (r.name = name) && r.has_baseline) with
    | none =>
      exfalso
      have := List.find?_eq_none.mp hf r hr
      simp [hn, hb] at this
    | some r' =>
      have hp := List.find?_some hf
      simp only [Bool.and_eq_true, decide_eq_true_eq] at hp
      exact ⟨r', List.mem_of_find?_eq_some hf, hp.1, hp.2, rfl⟩
  · intro name hall
    rw [hfind]
    cases hf : ids.app_baselines.find? (fun r => decide (r.name = name) && r.has_baseline) with
    | none => rfl
    | some r' =>
      exfalso
      have hp := List.find?_some hf
      simp only [Bool.and_eq_true, decide_eq_true_eq] at hp
      exact hall r' (List.mem_of_find?_eq_some hf) hp
  · intro features app_name now hg
    rw [← run_checks_count_pos_iff ids features (resolve_baseline ids app_name) app_name
      (now : ℚ)]
    unfold detect_anomalies
    simp only
    rw [if_neg hg]
    split_ifs with h
    · exact ⟨fun _ => h, fun _ => h⟩
    · exact Iff.rfl

/-- Witness for C19: with a per-application baseline for "matmul" in the store, a
vector tagged "matmul" is scored against it and an untagged vector against the
global baseline. -/
theorem resolve_baseline_spec_witness :
    resolve_baseline matmul_detector (some "matmul") = baseline_of_ipc 2 (1 / 10) ∧
    resolve_baseline matmul_detector none = baseline_of_ipc 1 (1 / 10) := by
  have h := resolve_baseline_spec matmul_detector
  refine ⟨?_, h.2.2.2.1⟩
  rw [h.1 "matmul"]
  simp [matmul_detector, detector_of]

/-- C20 at the failing input: the example detector has no application record, so a
vector tagged "unknown" is scored against the global baseline, and the alert it
raises is labelled "per_app". -/
theorem baseline_type_fallback_label :
    resolve_baseline example_detector (some "unknown") = example_detector.global_baseline ∧
    (detect_anomalies example_detector (features_of_ipc (3 / 2)) (some "unknown") 100).1 = 1 ∧
    ((detect_anomalies example_detector (features_of_ipc (3 / 2)) (some "unknown")
      100).2.alerts.map fun a => a.baseline_type) = ["per_app"] := by
  rw [detect_anomalies_example example_detector (some "unknown") 100 rfl rfl rfl
    (by simp [example_detector, detector_of])]
  refine ⟨rfl, rfl, ?_⟩
  simp [example_detector, detector_of, example_alert]

/-! ## Order and number of the alerts of one call; what a call leaves alone -/

theorem check_feature_anomaly_snd_of_anomalous (feature_name : String) (value : ℚ)
    (baseline : baseline_stats_t) (config : config_t) (alert alert2 : anomaly_alert_t)
    (app_name : Option String) (now : ℚ) (h : is_anomalous config baseline value) :
    (check_feature_anomaly feature_name value baseline config alert app_name now).2 =
      (check_feature_anomaly feature_name value baseline config alert2 app_name now).2 := by
  unfold is_anomalous at h
  unfold check_feature_anomaly
  simp only
  rw [if_neg h, if_neg h]

theorem check_feature_anomaly_feature (feature_name : String) (value : ℚ)
    (baseline : baseline_stats_t) (config : config_t) (alert : anomaly_alert_t)
    (app_name : Option String) (now : ℚ) (h : is_anomalous config baseline value) :
    (check_feature_anomaly feature_name value baseline config alert app_name now).2.feature =
      feature_name := by
  unfold is_anomalous at h
  unfold check_feature_anomaly
  simp only
  rw [if_neg h]

theorem alerts_appended_by_trans {st1 st2 st3 : detect_state} {l1 l2 : List anomaly_alert_t}
    (h12 : alerts_appended_by st1 st2 l1) (h23 : alerts_appended_by st2 st3 l2) :
    alerts_appended_by st1 st3 (l1 ++ l2) := by
  obtain ⟨hi1, hc1⟩ := h12
  obtain ⟨hi2, hc2⟩ := h23
  refine ⟨?_, ?_⟩
  · rw [hi2, hi1]
    simp [List.append_assoc]
  · rw [hc2, hc1, List.length_append]
    push_cast
    ring

theorem check_and_log_alerts_appended_by (st : detect_state) (feature_name : String)
    (value : ℚ) (baseline : baseline_stats_t) (app_name : Option String) (now : ℚ) :
    alerts_appended_by st (check_and_log st feature_name value baseline app_name now)
      (feature_alerts st.ids.config feature_name value baseline app_name now) := by
  unfold feature_alerts
  by_cases h : is_anomalous st.ids.config baseline value
  · rw [check_and_log_of_anomalous _ _ _ _ _ _ h, if_pos h,
      check_feature_anomaly_snd_of_anomalous _ _ _ _ st.alert anomaly_alert_t.blank _ _ h]
    exact ⟨rfl, by simp⟩
  · rw [check_and_log_of_normal _ _ _ _ _ _ h, if_neg h]
    exact ⟨by simp, by simp⟩

/-- The six checks append `expected_alerts` to the sink and count them. -/
theorem run_checks_expected (ids : hpc_ids_t) (features : feature_vector_t)
    (baseline : baseline_t) (app_name : Option String) (now : ℚ) :
    (run_checks ids features baseline app_name now).ids =
      { ids with alerts := ids.alerts ++
          expected_alerts ids.config baseline features app_name now } ∧
    (run_checks ids features baseline app_name now).anomaly_count =
      ((expected_alerts ids.config baseline features app_name now).length : Int) := by
  have h : alerts_appended_by
      { ids := ids, alert := anomaly_alert_t.blank, anomaly_count := 0 }
      (run_checks ids features baseline app_name now)
      (expected_alerts ids.config baseline features app_name now) := by
    have h6 := alerts_appended_by_trans (alerts_appended_by_trans
      (alerts_appended_by_trans (alerts_appended_by_trans (alerts_appended_by_trans
        (check_and_log_alerts_appended_by
          { ids := ids, alert := anomaly_alert_t.blank, anomaly_count := 0 }
          "ipc" features.ipc baseline.ipc app_name now)
        (check_and_log_alerts_appended_by _ "branch_miss_rate" features.branch_miss_rate
          baseline.branch_miss_rate app_name now))
        (check_and_log_alerts_appended_by _ "cache_miss_rate" features.cache_miss_rate
          baseline.cache_miss_rate app_name now))
        (check_and_log_alerts_appended_by _ "l1d_mpki" features.l1d_mpki
          baseline.l1d_mpki app_name now))
        (check_and_log_alerts_appended_by _ "itlb_mpki" features.itlb_mpki
          baseline.itlb_mpki app_name now))
        (check_and_log_alerts_appended_by _ "dtlb_mpki" features.dtlb_mpki
          baseline.dtlb_mpki app_name now)
    simp only [check_and_log_config] at h6
    exact h6
  exact ⟨h.1, by simpa using h.2⟩

theorem feature_alerts_map_feature (config : config_t) (feature_name : String) (value : ℚ)
    (baseline : baseline_stats_t) (app_name : Option String) (now : ℚ) :
    (feature_alerts config feature_name value baseline app_name now).map
        (fun a => a.feature) =
      if is_anomalous config baseline value then [feature_name] else [] := by
  unfold feature_alerts
  split_ifs with h
  · simp [check_feature_anomaly_feature _ _ _ _ _ _ _ h]
  · rfl

theorem feature_alerts_length_le (config : config_t) (feature_name : String) (value : ℚ)
    (baseline : baseline_stats_t) (app_name : Option String) (now : ℚ) :
    (feature_alerts config feature_name value baseline app_name now).length ≤ 1 := by
  unfold feature_alerts
  split_ifs <;> simp

theorem expected_alerts_length_le (config : config_t) (baseline : baseline_t)
    (features : feature_vector_t) (app_name : Option String) (now : ℚ) :
    (expected_alerts config baseline features app_name now).length ≤ 6 := by
  unfold expected_alerts
  simp only [List.length_append]
  have h1 := feature_alerts_length_le config "ipc" features.ipc baseline.ipc app_name now
  have h2 := feature_alerts_length_le config "branch_miss_rate" features.branch_miss_rate
    baseline.branch_miss_rate app_name now
  have h3 := feature_alerts_length_le config "cache_miss_rate" features.cache_miss_rate
    baseline.cache_miss_rate app_name now
  have h4 := feature_alerts_length_le config "l1d_mpki" features.l1d_mpki
    baseline.l1d_mpki app_name now
  have h5 := feature_alerts_length_le config "itlb_mpki" features.itlb_mpki
    baseline.itlb_mpki app_name now
  have h6 := feature_alerts_length_le config "dtlb_mpki" features.dtlb_mpki
    baseline.dtlb_mpki app_name now
  omega

/-- An ungated call appends `expected_alerts` and returns their number. -/
theorem detect_anomalies_of_ungated (ids : hpc_ids_t) (features : feature_vector_t)
    (app_name : Option String) (now : Int)
    (hg : ¬ now - ids.last_alert_time < ids.config.alert_cooldown_seconds) :
    detect_anomalies ids features app_name now =
      (((expected_alerts ids.config (resolve_baseline ids app_name) features app_name
          (now : ℚ)).length : Int),
        { ids with
          alerts := ids.alerts ++
            expected_alerts ids.config (resolve_baseline ids app_name) features app_name
              (now : ℚ),
          last_alert_time :=
            if expected_alerts ids.config (resolve_baseline ids app_name) features app_name
              (now : ℚ) = [] then ids.last_alert_time else now }) := by
  obtain ⟨hi, hc⟩ := run_checks_expected ids features (resolve_baseline ids app_name)
    app_name (now : ℚ)
  unfold detect_anomalies
  simp only
  rw [if_neg hg, hc, hi]
  cases hl : expected_alerts ids.config (resolve_baseline ids app_name) features app_name
      (now : ℚ) with
  | nil => simp
  | cons a l =>
    have hpos : ((a :: l).length : Int) > 0 := by
      simp only [List.length_cons]
      push_cast
      omega
    rw [if_pos hpos]
    simp

/-- C21: for every `detect_anomalies` call that the cooldown does not gate, the
alerts handed to the sink are, in the fixed order ipc, branch_miss_rate,
cache_miss_rate, l1d_mpki, itlb_mpki, dtlb_mpki, exactly one alert for each
anomalous feature (the one `check_feature_anomaly` builds for it), and the return
value is the number of these alerts, between 0 and 6. -/
theorem detect_anomalies_alert_order (ids : hpc_ids_t) (features : feature_vector_t)
    (app_name : Option String) (now : Int)
    (hg : ¬ now - ids.last_alert_time < ids.config.alert_cooldown_seconds) :
    (detect_anomalies ids features app_name now).2.alerts =
      ids.alerts ++ expected_alerts ids.config (resolve_baseline ids app_name) features
        app_name (now : ℚ) ∧
    (expected_alerts ids.config (resolve_baseline ids app_name) features app_name
        (now : ℚ)).map (fun a => a.feature) =
      anomalous_features ids.config (resolve_baseline ids app_name) features ∧
    (detect_anomalies ids features app_name now).1 =
      ((expected_alerts ids.config (resolve_baseline ids app_name) features app_name
        (now : ℚ)).length : Int) ∧
    0 ≤ (detect_anomalies ids features app_name now).1 ∧
    (detect_anomalies ids features app_name now).1 ≤ 6 := by
  rw [detect_anomalies_of_ungated ids features app_name now hg]
  refine ⟨rfl, ?_, rfl, ?_, ?_⟩
  · unfold expected_alerts anomalous_features
    simp only [List.map_append, feature_alerts_map_feature]
  · exact Int.natCast_nonneg _
  · have h := expected_alerts_length_le ids.config (resolve_baseline ids app_name) features
      app_name (now : ℚ)
    show ((expected_alerts ids.config (resolve_baseline ids app_name) features app_name
      (now : ℚ)).length : Int) ≤ 6
    omega

/-- Witness for C21: the first call of the cooldown example emits the one `ipc`
alert and returns 1. -/
theorem detect_anomalies_alert_order_witness :
    (detect_anomalies example_detector (features_of_ipc (3 / 2)) none 100).2.alerts =
      example_detector.alerts ++ expected_alerts example_detector.config
        (resolve_baseline example_detector none) (features_of_ipc (3 / 2)) none
        ((100 : Int) : ℚ) ∧
    (detect_anomalies example_detector (features_of_ipc (3 / 2)) none 100).2.alerts =
      [example_alert none 100] ∧
    (detect_anomalies example_detector (features_of_ipc (3 / 2)) none 100).1 = 1 := by
  have h := detect_anomalies_alert_order example_detector (features_of_ipc (3 / 2)) none 100
    (by simp [example_detector, detector_of, default_config])
  refine ⟨h.1, ?_, ?_⟩
  · rw [detect_anomalies_example_first]
  · rw [detect_anomalies_example_first]

/-- C23: for every `detect_anomalies` call, the configuration, the global baseline,
every application baseline record, their number (`num_apps`) and the stored feature
samples are the same after the call as before it; the call changes only the alert
sink and `last_alert_time`. The feature vector is an argument passed by value. -/
theorem detect_anomalies_frame (ids : hpc_ids_t) (features : feature_vector_t)
    (app_name : Option String) (now : Int) :
    (detect_anomalies ids features app_name now).2.config = ids.config ∧
    (detect_anomalies ids features app_name now).2.global_baseline = ids.global_baseline ∧
    (detect_anomalies ids features app_name now).2.app_baselines = ids.app_baselines ∧
    (detect_anomalies ids features app_name now).2.app_baselines.length =
      ids.app_baselines.length ∧
    (detect_anomalies ids features app_name now).2.feature_samples = ids.feature_samples ∧
    (detect_anomalies ids features app_name now).2 =
      { ids with
        alerts := (detect_anomalies ids features app_name now).2.alerts,
        last_alert_time := (detect_anomalies ids features app_name now).2.last_alert_time } := by
  rcases detect_anomalies_effect ids features app_name now with ⟨-, hd⟩ | ⟨-, l, -, hd⟩
  · rw [hd]
    exact ⟨rfl, rfl, rfl, rfl, rfl, rfl⟩
  · rw [hd]
    exact ⟨rfl, rfl, rfl, rfl, rfl, rfl⟩

/-! ## Baseline collection -/

theorem compute_baseline_stats_independent (s1 s2 : baseline_stats_t) (xs : List ℚ) :
    compute_baseline_stats s1 xs = compute_baseline_stats s2 xs := by
  cases xs with
  | nil => rfl
  | cons x xs => rfl

theorem compute_baseline_stats_samples (s : baseline_stats_t) (xs : List ℚ) :
    (compute_baseline_stats s xs).2.samples = (xs.length : Int) := by
  cases xs <;> rfl

/-- C29: for every non-empty list `fs` of feature vectors,
`compute_baseline_from_features` returns 0 and yields a baseline whose six summaries
are each the summary that `compute_baseline_stats` computes from the corresponding
component of `fs` in order (ipc from ipc, branch_miss_rate from branch_miss_rate, and
so on), whatever the baseline held before, each with `samples` the length of
`fs`. -/
theorem compute_baseline_from_features_spec (baseline : baseline_t)
    (fs : List feature_vector_t) (hne : fs ≠ []) :
    (compute_baseline_from_features baseline fs).1 = 0 ∧
    (∀ s : baseline_stats_t,
      (compute_baseline_from_features baseline fs).2.ipc =
        (compute_baseline_stats s (fs.map fun f => f.ipc)).2 ∧
      (compute_baseline_from_features baseline fs).2.branch_miss_rate =
        (compute_baseline_stats s (fs.map fun f => f.branch_miss_rate)).2 ∧
      (compute_baseline_from_features baseline fs).2.cache_miss_rate =
        (compute_baseline_stats s (fs.map fun f => f.cache_miss_rate)).2 ∧
      (compute_baseline_from_features baseline fs).2.l1d_mpki =
        (compute_baseline_stats s (fs.map fun f => f.l1d_mpki)).2 ∧
      (compute_baseline_from_features baseline fs).2.itlb_mpki =
        (compute_baseline_stats s (fs.map fun f => f.itlb_mpki)).2 ∧
      (compute_baseline_from_features baseline fs).2.dtlb_mpki =
        (compute_baseline_stats s (fs.map fun f => f.dtlb_mpki)).2) ∧
    (compute_baseline_from_features baseline fs).2.ipc.samples = (fs.length : Int) ∧
    (compute_baseline_from_features baseline fs).2.branch_miss_rate.samples =
      (fs.length : Int) ∧
    (compute_baseline_from_features baseline fs).2.cache_miss_rate.samples =
      (fs.length : Int) ∧
    (compute_baseline_from_features baseline fs).2.l1d_mpki.samples = (fs.length : Int) ∧
    (compute_baseline_from_features baseline fs).2.itlb_mpki.samples = (fs.length : Int) ∧
    (compute_baseline_from_features baseline fs).2.dtlb_mpki.samples = (fs.length : Int) ∧
    (compute_baseline_stats baseline.ipc (fs.map fun f => f.ipc)).1 = 0 := by
  have hlen : ∀ (s : baseline_stats_t) (p : feature_vector_t → ℚ),
      (compute_baseline_stats s (fs.map p)).2.samples = (fs.length : Int) := by
    intro s p
    rw [compute_baseline_stats_samples, List.length_map]
  refine ⟨rfl, ?_, hlen _ _, hlen _ _, hlen _ _, hlen _ _, hlen _ _, hlen _ _, ?_⟩
  · intro s
    exact ⟨congrArg Prod.snd (compute_baseline_stats_independent _ _ _),
      congrArg Prod.snd (compute_baseline_stats_independent _ _ _),
      congrArg Prod.snd (compute_baseline_stats_independent _ _ _),
      congrArg Prod.snd (compute_baseline_stats_independent _ _ _),
      congrArg Prod.snd (compute_baseline_stats_independent _ _ _),
      congrArg Prod.snd (compute_baseline_stats_independent _ _ _)⟩
  · cases fs with
    | nil => exact absurd rfl hne
    | cons f fs => rfl

/-- Witness for C29: two feature vectors with `ipc` 1 and 3. -/
theorem compute_baseline_from_features_spec_witness :
    (compute_baseline_from_features baseline_t.zero
      [features_of_ipc 1, features_of_ipc 3]).2.ipc =
      { median := 2, mad := 1, min := 1, max := 3, samples := 2 } ∧
    (compute_baseline_from_features baseline_t.zero
      [features_of_ipc 1, features_of_ipc 3]).2.dtlb_mpki.samples = 2 := by
  have h := compute_baseline_from_features_spec baseline_t.zero
    [features_of_ipc 1, features_of_ipc 3] (by simp)
  refine ⟨?_, h.2.2.2.2.2.2.2.1⟩
  rw [(h.2.1 baseline_stats_t.zero).1]
  decide!

theorem chunk_loop_length_le (num_events : Nat) (now : ℚ) (fuel : Nat) :
    ∀ (measurements : List hpc_measurement_t) (feature_samples : List feature_vector_t),
      feature_samples.length ≤ MAX_SAMPLES →
      (chunk_loop num_events now fuel measurements feature_samples).length ≤ MAX_SAMPLES := by
  induction fuel with
  | zero =>
    intro measurements feature_samples h
    exact h
  | succ fuel ih =>
    intro measurements feature_samples h
    unfold chunk_loop
    by_cases hc : measurements.length > 0 ∧ feature_samples.length < MAX_SAMPLES
    · rw [if_pos hc]
      apply ih
      split_ifs
      · rw [List.length_append, List.length_singleton]
        omega
      · exact h
      · exact h
    · rw [if_neg hc]
      exact h

theorem process_run_of_pos (num_events : Int) (now : ℚ)
    (measurements : List hpc_measurement_t) (feature_samples : List feature_vector_t)
    (hn : 0 < num_events) :
    process_run num_events now measurements feature_samples =
      some (chunk_loop num_events.toNat now measurements.length measurements
        feature_samples) := by
  unfold process_run
  rw [if_neg (not_le.mpr hn)]

theorem run_loop_of_pos (num_events : Int) (now : ℚ) (hn : 0 < num_events)
    (runs : List (Option (List hpc_measurement_t))) :
    ∀ feature_samples : List feature_vector_t, feature_samples.length ≤ MAX_SAMPLES →
      ∃ fs, run_loop num_events now runs feature_samples = some fs ∧
        fs.length ≤ MAX_SAMPLES := by
  induction runs with
  | nil =>
    intro feature_samples h
    exact ⟨feature_samples, rfl, h⟩
  | cons r runs ih =>
    intro feature_samples h
    cases r with
    | none => exact ih feature_samples h
    | some measurements =>
      unfold run_loop
      rw [process_run_of_pos _ _ _ _ hn]
      exact ih _ (chunk_loop_length_le _ _ _ _ _ h)

/-- The outcome of a terminating `collect_baseline` call: -1 and no profile, or 0
and a profile. -/
theorem collect_baseline_outcome (ids : hpc_ids_t) (app_name : String)
    (env : collect_env) (hn : 0 < ids.config.num_events) :
    ∃ r, collect_baseline ids app_name env = some r ∧
      ((r.1 = -1 ∧ r.2 = none) ∨ (r.1 = 0 ∧ r.2 ≠ none)) := by
  obtain ⟨fs, hfs, -⟩ := run_loop_of_pos ids.config.num_events env.now hn
    (run_outcomes ids.config env) [] (Nat.zero_le _)
  have hcf : collected_features ids.config env = some fs := hfs
  unfold collect_baseline
  by_cases he : env.executable = true
  · simp only [he, not_true_eq_false, if_false, hcf]
    split_ifs with h1 h2 h3
    · exact ⟨_, rfl, Or.inl ⟨rfl, rfl⟩⟩
    · exact ⟨_, rfl, Or.inl ⟨rfl, rfl⟩⟩
    · exact ⟨_, rfl, Or.inl ⟨rfl, rfl⟩⟩
    · refine ⟨_, rfl, Or.inr ⟨rfl, ?_⟩⟩
      unfold save_baseline at h3 ⊢
      by_cases hw : env.writable = true
      · simp [hw]
      · simp [hw] at h3
  · simp only [he, if_true]
    exact ⟨_, rfl, Or.inl ⟨rfl, rfl⟩⟩

theorem collect_all_loop_count (ids : hpc_ids_t) (hn : 0 < ids.config.num_events)
    (apps : List (String × collect_env)) :
    ∀ success_count : Int,
      collect_all_loop ids apps success_count =
        some (success_count + (apps.countP (collect_succeeds ids) : Int)) := by
  induction apps with
  | nil =>
    intro c
    simp [collect_all_loop]
  | cons p apps ih =>
    intro c
    obtain ⟨app, env⟩ := p
    obtain ⟨r, hr, -⟩ := collect_baseline_outcome ids app env hn
    unfold collect_all_loop
    rw [hr]
    simp only
    by_cases h0 : r.1 = 0
    · rw [if_pos h0, ih, List.countP_cons_of_pos]
      · push_cast
        ring_nf
      · simp [collect_succeeds, hr, h0]
    · rw [if_neg h0, ih, List.countP_cons_of_neg]
      simp [collect_succeeds, hr, h0]

/-- Counterexample to C30: when no application is found the return value is -1,
not 0. -/
theorem collect_all_baselines_none_found :
    collect_all_baselines example_detector [] = some (-1) ∧
    collect_all_baselines example_detector [] ≠ some 0 := by
  constructor
  · rfl
  · decide!

/-- C30 as amended: with `num_events ≥ 1`, `collect_all_baselines` returns -1 when
no application is found and otherwise the number of applications for which
`collect_baseline` succeeded (0 when none succeeds); a failing application does not
stop the remaining applications from being collected. -/
theorem collect_all_baselines_spec (ids : hpc_ids_t) (apps : List (String × collect_env))
    (hn : 0 < ids.config.num_events) :
    collect_all_baselines ids apps =
      some (if apps.length = 0 then -1
        else (apps.countP (collect_succeeds ids) : Int)) := by
  unfold collect_all_baselines
  cases apps with
  | nil => rfl
  | cons p apps =>
    simp only [List.length_cons, Nat.succ_ne_zero, if_false, List.cons_ne_nil,
      Nat.add_one_ne_zero]
    rw [collect_all_loop_count ids hn, zero_add]

/-- Witness for the amended C30: the first application fails, the second one is
collected all the same, and the return value is 1. -/
theorem collect_all_baselines_spec_witness :
    collect_all_baselines small_detector [("bad", failing_env), ("good", good_env)] =
      some 1 := by
  rw [collect_all_baselines_spec small_detector _ (by decide!)]
  decide!

/-- C27 at the failing input: three events per interval, and the `branches` sample
of the second interval is missing from the stream. `collect_baseline` cuts the
stream into chunks of three samples, so its second chunk takes `cycles` and
`instructions` of the second interval and `cycles` of the third one and yields
`ipc = 400 / 50 = 8`; the groups by `perf_time` that `monitor_system` forms yield
`ipc` 2 (first interval) and 6 (third interval), the second interval being
discarded. -/
theorem chunking_mixes_intervals :
    (collected_features small_config dropped_counter_env).map
        (fun fs => fs.map fun f => f.ipc) = some [2, 8] ∧
    ((dropped_counter_stream.drop 3).take 3).map (fun m => m.perf_time) =
      [2 / 5, 2 / 5, 3 / 5] ∧
    (group_measurements dropped_counter_stream).map
        (fun iv => iv.measurements.map fun m => m.perf_time) =
      [[1 / 5, 1 / 5, 1 / 5], [2 / 5, 2 / 5], [3 / 5, 3 / 5, 3 / 5]] ∧
    (engineered_intervals (group_measurements dropped_counter_stream)).map
        (fun iv => (engineer_features iv.measurements 0 feature_vector_t.zero).2.ipc) =
      [2, 6] := by
  decide!

/-! ## Profiles: loading, and what a missing profile leaves behind -/

/-- C22 at the failing input: the global profile is absent at `hpc_ids_init`, so
the global baseline stays all-zero; a vector with `ipc = 1.5` and no application
name resolves to that baseline, scores `z = 1.5 / 1e-9` and raises a "critical"
alert: the call returns 1. -/
theorem missing_global_baseline_alerts :
    (hpc_ids_init (0, default_config) none (some [])).1 = 0 ∧
    detector_without_global.global_baseline = baseline_t.zero ∧
    resolve_baseline detector_without_global none = baseline_t.zero ∧
    (detect_anomalies detector_without_global (features_of_ipc (3 / 2)) none 100).1 = 1 ∧
    ((detect_anomalies detector_without_global (features_of_ipc (3 / 2)) none
        100).2.alerts.map fun a => (a.feature, a.severity, a.robust_z_score)) =
      [("ipc", "critical", 1500000000)] := by
  decide!

theorem load_baseline_of_marker (baseline : baseline_t) (text rest : List Char)
    (h : strstr text "\"baseline_statistics\":".data = some rest) :
    (load_baseline baseline (some text)).1 = 0 := by
  unfold load_baseline
  simp only [h]

/-- C25 at the failing inputs: `load_baseline` returns 0 for every text that
contains `"baseline_statistics":`, whatever follows. For the profile without any
feature section it reports success and leaves all six summaries zero
(`samples = 0`); for the profile whose `ipc` section lacks `mad` it reports success
with `ipc.mad = -1`. -/
theorem load_baseline_accepts_partial :
    (∀ (baseline : baseline_t) (text rest : List Char),
      strstr text "\"baseline_statistics\":".data = some rest →
      (load_baseline baseline (some text)).1 = 0) ∧
    load_baseline small_mad_baseline (some empty_profile) = (0, baseline_t.zero) ∧
    (load_baseline baseline_t.zero (some profile_without_mad)).1 = 0 ∧
    (load_baseline baseline_t.zero (some profile_without_mad)).2.ipc =
      { median := 3 / 2, mad := -1, min := 1, max := 2, samples := 10 } ∧
    (load_baseline baseline_t.zero (some profile_without_mad)).2.dtlb_mpki.samples = 0 := by
  refine ⟨load_baseline_of_marker, ?_, ?_, ?_, ?_⟩ <;> decide!

/-- C24 at the failing input: `%.15f` keeps 15 digits after the decimal point, not
15 significant digits. A MAD of 1.2345678901234567e-5 is written as
`0.000012345678901` and read back as 1.2345678901e-5, a relative error above
1e-11; a MAD of 1e-16 is written as `0.000000000000000` and read back as 0. -/
theorem profile_round_trip_small_values :
    small_mad_profile.isSome = true ∧
    (load_baseline baseline_t.zero small_mad_profile).1 = 0 ∧
    (load_baseline baseline_t.zero small_mad_profile).2.ipc.median = 3 / 2 ∧
    (load_baseline baseline_t.zero small_mad_profile).2.ipc.mad =
      12345678901 / 1000000000000000 ∧
    |(load_baseline baseline_t.zero small_mad_profile).2.ipc.mad -
        small_mad_baseline.ipc.mad| / small_mad_baseline.ipc.mad > 1 / 100000000000 ∧
    fmt_f15 (12345678901234567 / 1000000000000000000000) = "0.000012345678901".data ∧
    fmt_f15 (1 / 10000000000000000) = "0.000000000000000".data ∧
    atof "0.000000000000000".data = 0 := by
  decide!

/-! ## Interval grouping in `monitor_system` -/

theorem find_interval_some (timestamp : ℚ) (intervals : List interval_data_t) :
    ∀ b k : Nat, find_interval timestamp intervals b = some k →
      b ≤ k ∧
      (∃ iv, intervals[k - b]? = some iv ∧ |iv.timestamp - timestamp| < 1 / 1000) ∧
      ∀ j iv, j < k - b → intervals[j]? = some iv →
        ¬ |iv.timestamp - timestamp| < 1 / 1000 := by
  induction intervals with
  | nil =>
    intro b k h
    simp [find_interval] at h
  | cons iv0 rest ih =>
    intro b k h
    unfold find_interval at h
    by_cases hm : |iv0.timestamp - timestamp| < 1 / 1000
    · rw [if_pos hm] at h
      have hk : b = k := Option.some.inj h
      subst hk
      refine ⟨le_refl _, ⟨iv0, by simp, hm⟩, ?_⟩
      intro j iv hj
      omega
    · rw [if_neg hm] at h
      obtain ⟨hb, ⟨iv, hiv, hclose⟩, hfirst⟩ := ih (b + 1) k h
      have hkb : k - b = (k - (b + 1)) + 1 := by omega
      refine ⟨by omega, ⟨iv, ?_, hclose⟩, ?_⟩
      · rw [hkb, List.getElem?_cons_succ]
        exact hiv
      · intro j iv' hj hget
        cases j with
        | zero =>
          simp only [List.getElem?_cons_zero, Option.some.injEq] at hget
          rw [← hget]
          exact hm
        | succ j =>
          rw [List.getElem?_cons_succ] at hget
          exact hfirst j iv' (by omega) hget

theorem find_interval_none (timestamp : ℚ) (intervals : List interval_data_t) :
    ∀ b : Nat, find_interval timestamp intervals b = none →
      ∀ iv ∈ intervals, ¬ |iv.timestamp - timestamp| < 1 / 1000 := by
  induction intervals with
  | nil =>
    intro b _ iv hiv
    simp at hiv
  | cons iv0 rest ih =>
    intro b h iv hiv
    unfold find_interval at h
    by_cases hm : |iv0.timestamp - timestamp| < 1 / 1000
    · rw [if_pos hm] at h
      simp at h
    · rw [if_neg hm] at h
      rcases List.mem_cons.mp hiv with rfl | hmem
      · exact hm
      · exact ih (b + 1) h iv hmem

theorem store_at_length (m : hpc_measurement_t) (intervals : List interval_data_t) :
    ∀ j : Nat, (store_at m j intervals).length = intervals.length := by
  induction intervals with
  | nil =>
    intro j
    cases j <;> rfl
  | cons iv rest ih =>
    intro j
    cases j with
    | zero => simp [store_at]
    | succ j => simp [store_at, ih j]

theorem store_at_mem (m : hpc_measurement_t) (intervals : List interval_data_t) :
    ∀ (j : Nat) (iv2 : interval_data_t), iv2 ∈ store_at m j intervals →
      iv2 ∈ intervals ∨
      ∃ iv, intervals[j]? = some iv ∧ iv.measurements.length < MAX_EVENTS ∧
        iv2 = { iv with measurements := iv.measurements ++ [m] } := by
  induction intervals with
  | nil =>
    intro j iv2 h
    cases j <;> simp [store_at] at h
  | cons iv0 rest ih =>
    intro j iv2 h
    cases j with
    | zero =>
      simp only [store_at, List.mem_cons] at h
      rcases h with h | h
      · by_cases hc : iv0.measurements.length < MAX_EVENTS
        · rw [if_pos hc] at h
          exact Or.inr ⟨iv0, by simp, hc, h⟩
        · rw [if_neg hc] at h
          exact Or.inl (by rw [h]; exact List.mem_cons_self _ _)
      · exact Or.inl (List.mem_cons_of_mem _ h)
    | succ j =>
      simp only [store_at, List.mem_cons] at h
      rcases h with h | h
      · exact Or.inl (by rw [h]; exact List.mem_cons_self _ _)
      · rcases ih j iv2 h with h1 | ⟨iv, hget, hc, heq⟩
        · exact Or.inl (List.mem_cons_of_mem _ h1)
        · exact Or.inr ⟨iv, by rw [List.getElem?_cons_succ]; exact hget, hc, heq⟩

theorem store_at_total (m : hpc_measurement_t) (intervals : List interval_data_t) :
    ∀ j : Nat, interval_total (store_at m j intervals) =
      interval_total intervals +
        (match intervals[j]? with
          | some iv => if iv.measurements.length < MAX_EVENTS then 1 else 0
          | none => 0) := by
  induction intervals with
  | nil =>
    intro j
    cases j <;> rfl
  | cons iv0 rest ih =>
    intro j
    cases j with
    | zero =>
      simp only [store_at, interval_total, List.map_cons, List.sum_cons,
        List.getElem?_cons_zero]
      by_cases hc : iv0.measurements.length < MAX_EVENTS
      · simp only [if_pos hc, List.length_append, List.length_singleton]
        omega
      · simp only [if_neg hc]
        omega
    | succ j =>
      have h := ih j
      simp only [interval_total] at h
      simp only [store_at, interval_total, List.map_cons, List.sum_cons,
        List.getElem?_cons_succ, h]
      omega

theorem store_at_of_full (m : hpc_measurement_t) (intervals : List interval_data_t) :
    ∀ (j : Nat) (iv : interval_data_t), intervals[j]? = some iv →
      ¬ iv.measurements.length < MAX_EVENTS → store_at m j intervals = intervals := by
  induction intervals with
  | nil =>
    intro j iv h
    simp at h
  | cons iv0 rest ih =>
    intro j iv h hc
    cases j with
    | zero =>
      simp only [List.getElem?_cons_zero, Option.some.injEq] at h
      subst h
      simp [store_at, hc]
    | succ j =>
      rw [List.getElem?_cons_succ] at h
      simp [store_at, ih j iv h hc]

theorem store_at_keeps_full (m : hpc_measurement_t) (intervals : List interval_data_t) :
    ∀ (j : Nat) (iv : interval_data_t), iv ∈ intervals →
      iv.measurements.length ≥ MAX_EVENTS → iv ∈ store_at m j intervals := by
  induction intervals with
  | nil =>
    intro j iv h
    simp at h
  | cons iv0 rest ih =>
    intro j iv h hc
    cases j with
    | zero =>
      simp only [store_at, List.mem_cons]
      rcases List.mem_cons.mp h with rfl | hmem
      · left
        rw [if_neg (by omega)]
      · exact Or.inr hmem
    | succ j =>
      simp only [store_at, List.mem_cons]
      rcases List.mem_cons.mp h with rfl | hmem
      · exact Or.inl rfl
      · exact Or.inr (ih j iv hmem hc)

theorem group_step_of_none (intervals : List interval_data_t) (m : hpc_measurement_t)
    (hf : find_interval m.perf_time intervals 0 = none) (hl : intervals.length < 1000) :
    group_step intervals m =
      intervals ++ [{ timestamp := m.perf_time, measurements := [m] }] := by
  have hstore : ∀ (l : List interval_data_t) (iv : interval_data_t),
      iv.measurements.length < MAX_EVENTS →
      store_at m l.length (l ++ [iv]) =
        l ++ [{ iv with measurements := iv.measurements ++ [m] }] := by
    intro l
    induction l with
    | nil =>
      intro iv hc
      simp [store_at, hc]
    | cons a l ih =>
      intro iv hc
      simp [store_at, ih iv hc]
  unfold group_step
  simp only [hf]
  rw [if_pos hl, hstore _ _ (by simp [MAX_EVENTS])]
  simp

theorem group_step_of_full (intervals : List interval_data_t) (m : hpc_measurement_t)
    (hf : find_interval m.perf_time intervals 0 = none) (hl : ¬ intervals.length < 1000) :
    group_step intervals m = intervals := by
  unfold group_step
  simp only [hf]
  rw [if_neg hl]

theorem group_step_of_some (intervals : List interval_data_t) (m : hpc_measurement_t)
    (k : Nat) (hf : find_interval m.perf_time intervals 0 = some k) :
    group_step intervals m = store_at m k intervals := by
  unfold group_step
  simp only [hf]

theorem group_step_invariant (seen : List hpc_measurement_t)
    (intervals : List interval_data_t) (m : hpc_measurement_t)
    (h : grouping_invariant seen intervals) :
    grouping_invariant (seen ++ [m]) (group_step intervals m) := by
  obtain ⟨hlen, hall⟩ := h
  have hold : ∀ iv ∈ intervals,
      (∀ x ∈ iv.measurements, |iv.timestamp - x.perf_time| < 1 / 1000) ∧
      iv.measurements.Sublist (seen ++ [m]) ∧ iv.measurements.length ≤ MAX_EVENTS := by
    intro iv hiv
    obtain ⟨h1, h2, h3⟩ := hall iv hiv
    exact ⟨h1, h2.trans (List.sublist_append_left _ _), h3⟩
  cases hf : find_interval m.perf_time intervals 0 with
  | none =>
    by_cases hl : intervals.length < 1000
    · rw [group_step_of_none intervals m hf hl]
      refine ⟨by rw [List.length_append, List.length_singleton]; omega, ?_⟩
      intro iv hiv
      rcases List.mem_append.mp hiv with hmem | hmem
      · exact hold iv hmem
      · rw [List.mem_singleton] at hmem
        subst hmem
        refine ⟨?_, ?_, by simp [MAX_EVENTS]⟩
        · intro x hx
          rw [List.mem_singleton] at hx
          subst hx
          simp
        · exact List.sublist_append_right _ _
    · rw [group_step_of_full intervals m hf hl]
      exact ⟨hlen, hold⟩
  | some k =>
    rw [group_step_of_some intervals m k hf]
    refine ⟨by rw [store_at_length]; exact hlen, ?_⟩
    intro iv2 hiv2
    rcases store_at_mem m intervals k iv2 hiv2 with hmem | ⟨iv, hget, hc, heq⟩
    · exact hold iv2 hmem
    · obtain ⟨-, ⟨iv1, hget1, hclose⟩, -⟩ := find_interval_some m.perf_time intervals 0 k hf
      rw [Nat.sub_zero, hget] at hget1
      have hiv1 : iv = iv1 := Option.some.inj hget1
      subst hiv1
      obtain ⟨h1, h2, -⟩ := hall iv (List.getElem?_mem hget)
      subst heq
      refine ⟨?_, ?_, ?_⟩
      · intro x hx
        rcases List.mem_append.mp hx with hx1 | hx1
        · exact h1 x hx1
        · rw [List.mem_singleton] at hx1
          subst hx1
          exact hclose
      · exact List.Sublist.append h2 (List.Sublist.refl _)
      · simp only [List.length_append, List.length_singleton]
        omega

theorem group_fold_invariant (ms : List hpc_measurement_t) :
    ∀ (seen : List hpc_measurement_t) (intervals : List interval_data_t),
      grouping_invariant seen intervals →
      grouping_invariant (seen ++ ms) (ms.foldl group_step intervals) := by
  induction ms with
  | nil =>
    intro seen intervals h
    simpa using h
  | cons m ms ih =>
    intro seen intervals h
    have h2 := ih (seen ++ [m]) (group_step intervals m) (group_step_invariant _ _ _ h)
    simpa [List.append_assoc] using h2

theorem group_step_total (intervals : List interval_data_t) (m : hpc_measurement_t) :
    interval_total (group_step intervals m) = interval_total intervals + 1 ∨
    (group_step intervals m = intervals ∧ capacity_reached intervals) := by
  cases hf : find_interval m.perf_time intervals 0 with
  | none =>
    by_cases hl : intervals.length < 1000
    · left
      rw [group_step_of_none intervals m hf hl]
      simp [interval_total]
    · right
      exact ⟨group_step_of_full intervals m hf hl, Or.inl (by omega)⟩
  | some k =>
    rw [group_step_of_some intervals m k hf]
    obtain ⟨-, ⟨iv, hget, -⟩, -⟩ := find_interval_some m.perf_time intervals 0 k hf
    rw [Nat.sub_zero] at hget
    by_cases hc : iv.measurements.length < MAX_EVENTS
    · left
      rw [store_at_total, hget]
      simp [hc]
    · right
      exact ⟨store_at_of_full m intervals k iv hget hc,
        Or.inr ⟨iv, List.getElem?_mem hget, by omega⟩⟩

theorem capacity_reached_step (intervals : List interval_data_t) (m : hpc_measurement_t)
    (h : capacity_reached intervals) : capacity_reached (group_step intervals m) := by
  cases hf : find_interval m.perf_time intervals 0 with
  | none =>
    by_cases hl : intervals.length < 1000
    · rw [group_step_of_none intervals m hf hl]
      rcases h with h | ⟨iv, hiv, hc⟩
      · omega
      · exact Or.inr ⟨iv, List.mem_append_left _ hiv, hc⟩
    · rw [group_step_of_full intervals m hf hl]
      exact h
  | some k =>
    rw [group_step_of_some intervals m k hf]
    rcases h with h | ⟨iv, hiv, hc⟩
    · left
      rw [store_at_length]
      exact h
    · exact Or.inr ⟨iv, store_at_keeps_full m intervals k iv hiv hc, hc⟩

theorem capacity_reached_fold (ms : List hpc_measurement_t) :
    ∀ intervals : List interval_data_t, capacity_reached intervals →
      capacity_reached (ms.foldl group_step intervals) := by
  induction ms with
  | nil =>
    intro intervals h
    exact h
  | cons m ms ih =>
    intro intervals h
    exact ih _ (capacity_reached_step intervals m h)

theorem group_fold_total (ms : List hpc_measurement_t) :
    ∀ intervals : List interval_data_t,
      ¬ capacity_reached (ms.foldl group_step intervals) →
      interval_total (ms.foldl group_step intervals) = interval_total intervals + ms.length := by
  induction ms with
  | nil =>
    intro intervals _
    simp
  | cons m ms ih =>
    intro intervals h
    rw [List.foldl_cons] at h ⊢
    rw [ih _ h]
    rcases group_step_total intervals m with ht | ⟨-, hcap⟩
    · rw [ht, List.length_cons]
      omega
    · exact absurd (capacity_reached_fold ms _ (capacity_reached_step intervals m hcap)) h

/-- Counterexample to C26: of seventeen samples with the same `perf_time` only
sixteen are placed in an interval; the seventeenth is dropped. -/
theorem crowded_interval_counterexample :
    crowded_stream.length = 17 ∧
    (group_measurements crowded_stream).map (fun iv => iv.measurements.length) = [16] ∧
    interval_total (group_measurements crowded_stream) = 16 := by
  decide!

/-- C26 as amended: in the grouping of `monitor_system`, every sample that is stored
lies in an interval whose timestamp differs from the sample's `perf_time` by less
than 1 ms; a sample goes to the first such interval in creation order, and a new
interval is opened for it when none matches and fewer than 1000 intervals exist; a
sample is dropped when none matches and 1000 intervals exist, or when its interval
already holds `MAX_EVENTS` samples, and no sample is dropped as long as neither
capacity is reached; samples keep their stream order inside an interval; and only
intervals containing at least three samples are passed to `engineer_features`, the
others are discarded. -/
theorem group_measurements_spec (ms : List hpc_measurement_t) :
    (∀ iv ∈ group_measurements ms, ∀ m ∈ iv.measurements,
      |iv.timestamp - m.perf_time| < 1 / 1000) ∧
    (∀ iv ∈ group_measurements ms, iv.measurements.Sublist ms) ∧
    (group_measurements ms).length ≤ 1000 ∧
    (∀ iv ∈ group_measurements ms, iv.measurements.length ≤ MAX_EVENTS) ∧
    (¬ capacity_reached (group_measurements ms) →
      interval_total (group_measurements ms) = ms.length) ∧
    (∀ (intervals : List interval_data_t) (m : hpc_measurement_t) (k : Nat),
      find_interval m.perf_time intervals 0 = some k →
      group_step intervals m = store_at m k intervals ∧
      (∃ iv, intervals[k]? = some iv ∧ |iv.timestamp - m.perf_time| < 1 / 1000) ∧
      (∀ j iv, j < k → intervals[j]? = some iv →
        ¬ |iv.timestamp - m.perf_time| < 1 / 1000)) ∧
    (∀ (intervals : List interval_data_t) (m : hpc_measurement_t),
      find_interval m.perf_time intervals 0 = none →
      (∀ iv ∈ intervals, ¬ |iv.timestamp - m.perf_time| < 1 / 1000) ∧
      (intervals.length < 1000 →
        group_step intervals m =
          intervals ++ [{ timestamp := m.perf_time, measurements := [m] }]) ∧
      (¬ intervals.length < 1000 → group_step intervals m = intervals)) ∧
    (∀ (intervals : List interval_data_t) (m : hpc_measurement_t),
      interval_total (group_step intervals m) = interval_total intervals + 1 ∨
      (group_step intervals m = intervals ∧ capacity_reached intervals)) ∧
    (∀ (now : Int) (ids : hpc_ids_t) (iv : interval_data_t),
      iv.measurements.length < 3 → process_interval now ids iv = ids) ∧
    (∀ (intervals : List interval_data_t) (iv : interval_data_t),
      iv ∈ engineered_intervals intervals ↔ iv ∈ intervals ∧ iv.measurements.length ≥ 3) := by
  have hinv : grouping_invariant ms (group_measurements ms) := by
    have h := group_fold_invariant ms [] [] ⟨by simp, by simp⟩
    simpa [group_measurements] using h
  refine ⟨fun iv hiv => (hinv.2 iv hiv).1, fun iv hiv => (hinv.2 iv hiv).2.1, hinv.1,
    fun iv hiv => (hinv.2 iv hiv).2.2, ?_, ?_, ?_, group_step_total, ?_, ?_⟩
  · intro h
    have ht := group_fold_total ms [] h
    simpa [group_measurements, interval_total] using ht
  · intro intervals m k hf
    obtain ⟨-, hex, hfirst⟩ := find_interval_some m.perf_time intervals 0 k hf
    rw [Nat.sub_zero] at hex hfirst
    exact ⟨group_step_of_some intervals m k hf, hex, hfirst⟩
  · intro intervals m hf
    exact ⟨find_interval_none m.perf_time intervals 0 hf,
      group_step_of_none intervals m hf, group_step_of_full intervals m hf⟩
  · intro now ids iv h
    unfold process_interval
    rw [if_neg (by omega)]
  · intro intervals iv
    simp [engineered_intervals]

/-- Witness for C26: in the stream with the dropped counter no capacity is reached,
so all eight samples are stored. -/
theorem group_measurements_spec_witness :
    interval_total (group_measurements dropped_counter_stream) =
      dropped_counter_stream.length :=
  (group_measurements_spec dropped_counter_stream).2.2.2.2.1 (by
    unfold capacity_reached
    decide!)

/-! ## Severity as a function of the magnitude of the score -/

theorem get_severity_string_abs (z : ℚ) (config : config_t) :
    get_severity_string |z| config = get_severity_string z config := by
  unfold get_severity_string
  rw [abs_abs]

theorem compute_robust_z_score_reflect (median mad d : ℚ) :
    compute_robust_z_score (median - d) median mad =
      -compute_robust_z_score (median + d) median mad := by
  unfold compute_robust_z_score
  simp only
  rw [← neg_div]
  congr 1
  ring

/-- C38: for every configuration, ordered or not, the severity is monotone in the
magnitude of the score: `|z1| ≤ |z2|` gives
`rank (severity z1) ≤ rank (severity z2)` with normal < medium < high < critical.
The severity depends only on `|z|`: `z`, `|z|` and `-z` get the same severity, and
so do a value `d` above the median and a value `d` below it. -/
theorem get_severity_string_monotone (config : config_t) (z1 z2 : ℚ)
    (h : |z1| ≤ |z2|) :
    severity_rank (get_severity_string z1 config) ≤
      severity_rank (get_severity_string z2 config) ∧
    get_severity_string z1 config = get_severity_string |z1| config ∧
    get_severity_string (-z1) config = get_severity_string z1 config ∧
    (|z1| = |z2| → get_severity_string z1 config = get_severity_string z2 config) ∧
    ∀ median mad d : ℚ,
      get_severity_string (compute_robust_z_score (median + d) median mad) config =
        get_severity_string (compute_robust_z_score (median - d) median mad) config := by
  refine ⟨?_, (get_severity_string_abs z1 config).symm, ?_, ?_, ?_⟩
  · unfold get_severity_string
    split_ifs <;>
      first
      | (exfalso; simp only [ge_iff_le, not_le] at *; linarith)
      | simp [severity_rank]
  · unfold get_severity_string
    rw [abs_neg]
  · intro he
    unfold get_severity_string
    rw [he]
  · intro median mad d
    rw [compute_robust_z_score_reflect]
    unfold get_severity_string
    rw [abs_neg]

/-- Witness for C38 with the misordered thresholds: the scores 7/2 and -9/2. -/
theorem get_severity_string_monotone_witness :
    severity_rank (get_severity_string (7 / 2) misordered_config) ≤
      severity_rank (get_severity_string (-9 / 2) misordered_config) :=
  (get_severity_string_monotone misordered_config (7 / 2) (-9 / 2) (by decide!)).1

/-! ## Every alert has crossed the threshold it records -/

theorem get_severity_string_crossed (z : ℚ) (config : config_t)
    (hn : get_severity_string z config ≠ "normal") :
    |z| ≥ get_threshold_for_severity (get_severity_string z config) config ∧
    (get_severity_string z config = "medium" ∨ get_severity_string z config = "high" ∨
      get_severity_string z config = "critical") ∧
    ((get_severity_string z config = "critical" ∧
        get_threshold_for_severity (get_severity_string z config) config =
          config.robust_z_threshold_critical) ∨
      (get_severity_string z config = "high" ∧
        get_threshold_for_severity (get_severity_string z config) config =
          config.robust_z_threshold_high) ∨
      (get_severity_string z config = "medium" ∧
        get_threshold_for_severity (get_severity_string z config) config =
          config.robust_z_threshold_medium)) := by
  unfold get_severity_string at hn ⊢
  split_ifs at hn ⊢ with h1 h2 h3
  · have ht : get_threshold_for_severity "critical" config =
        config.robust_z_threshold_critical := by simp [get_threshold_for_severity]
    rw [ht]
    exact ⟨h1, Or.inr (Or.inr rfl), Or.inl ⟨rfl, rfl⟩⟩
  · have ht : get_threshold_for_severity "high" config =
        config.robust_z_threshold_high := by simp [get_threshold_for_severity]
    rw [ht]
    exact ⟨h2, Or.inr (Or.inl rfl), Or.inr (Or.inl ⟨rfl, rfl⟩)⟩
  · have ht : get_threshold_for_severity "medium" config =
        config.robust_z_threshold_medium := by simp [get_threshold_for_severity]
    rw [ht]
    exact ⟨h3, Or.inl rfl, Or.inr (Or.inr ⟨rfl, rfl⟩)⟩
  · exact absurd rfl hn

/-- C39: every alert that `check_feature_anomaly` produces (return value not 0) has
crossed the threshold it records, `|robust_z_score| ≥ threshold`; its severity is
"medium", "high" or "critical", never "normal"; and its threshold is the
configured threshold of that severity, so the fallback 0.0 of
`get_threshold_for_severity` is never taken. -/
theorem check_feature_anomaly_crossed (feature_name : String) (value : ℚ)
    (baseline : baseline_stats_t) (config : config_t) (alert : anomaly_alert_t)
    (app_name : Option String) (now : ℚ)
    (hbuilt :
      (check_feature_anomaly feature_name value baseline config alert app_name now).1 ≠ 0) :
    |(check_feature_anomaly feature_name value baseline config alert app_name
        now).2.robust_z_score| ≥
      (check_feature_anomaly feature_name value baseline config alert app_name
        now).2.threshold ∧
    ((check_feature_anomaly feature_name value baseline config alert app_name now).2.severity
        = "medium" ∨
      (check_feature_anomaly feature_name value baseline config alert app_name now).2.severity
        = "high" ∨
      (check_feature_anomaly feature_name value baseline config alert app_name now).2.severity
        = "critical") ∧
    (check_feature_anomaly feature_name value baseline config alert app_name now).2.severity
      ≠ "normal" ∧
    (((check_feature_anomaly feature_name value baseline config alert app_name
          now).2.severity = "critical" ∧
        (check_feature_anomaly feature_name value baseline config alert app_name
          now).2.threshold = config.robust_z_threshold_critical) ∨
      ((check_feature_anomaly feature_name value baseline config alert app_name
          now).2.severity = "high" ∧
        (check_feature_anomaly feature_name value baseline config alert app_name
          now).2.threshold = config.robust_z_threshold_high) ∨
      ((check_feature_anomaly feature_name value baseline config alert app_name
          now).2.severity = "medium" ∧
        (check_feature_anomaly feature_name value baseline config alert app_name
          now).2.threshold = config.robust_z_threshold_medium)) := by
  by_cases hn : get_severity_string
      (compute_robust_z_score value baseline.median baseline.mad) config = "normal"
  · exfalso
    apply hbuilt
    rw [check_feature_anomaly_of_normal _ _ _ _ _ _ _ (fun h => h hn)]
  · have hres : (check_feature_anomaly feature_name value baseline config alert app_name
        now).2 =
        { application_name := app_name.getD "system",
          baseline_type := if app_name.isSome then "per_app" else "global",
          feature := feature_name,
          measured_value := value,
          baseline_median := baseline.median,
          robust_z_score := compute_robust_z_score value baseline.median baseline.mad,
          threshold := get_threshold_for_severity
            (get_severity_string
              (compute_robust_z_score value baseline.median baseline.mad) config) config,
          severity := get_severity_string
            (compute_robust_z_score value baseline.median baseline.mad) config,
          timestamp := now } := by
      unfold check_feature_anomaly
      simp only
      rw [if_neg hn]
    rw [hres]
    simp only
    obtain ⟨h1, h2, h3⟩ := get_severity_string_crossed _ config hn
    exact ⟨h1, h2, hn, h3⟩

/-- Witness for C39: baseline median 1.0 and MAD 0.1, observed `ipc` 1.35 with the
default thresholds: the score 3.5 has crossed the recorded threshold 3. -/
theorem check_feature_anomaly_crossed_witness :
    |(check_feature_anomaly "ipc" (27 / 20) (stats_of 1 (1 / 10)) default_config
        anomaly_alert_t.blank none 100).2.robust_z_score| ≥
      (check_feature_anomaly "ipc" (27 / 20) (stats_of 1 (1 / 10)) default_config
        anomaly_alert_t.blank none 100).2.threshold ∧
    (check_feature_anomaly "ipc" (27 / 20) (stats_of 1 (1 / 10)) default_config
      anomaly_alert_t.blank none 100).2.threshold = 3 :=
  ⟨(check_feature_anomaly_crossed "ipc" (27 / 20) (stats_of 1 (1 / 10)) default_config
      anomaly_alert_t.blank none 100 (by decide!)).1, by decide!⟩

/-! ## Configuration loading -/

theorem load_config_none (config : config_t) :
    load_config config none = (0, default_config) := rfl

theorem load_config_empty (config : config_t) :
    load_config config (some []) = (0, default_config) := rfl

theorem load_config_some (config : config_t) (json : List Char) (h : json ≠ []) :
    load_config config (some json) = (0, parse_config_values default_config json) := by
  have hl : ¬ json.length ≤ 0 := by
    intro h0
    exact h (List.length_eq_zero.mp (Nat.le_zero.mp h0))
  unfold load_config
  simp only [if_neg hl]
  rfl

theorem parse_config_values_fields (config : config_t) (json : List Char) :
    (parse_config_values config json).alert_cooldown_seconds =
      (if extract_json_int json "alert_cooldown_seconds" > 0 then
        extract_json_int json "alert_cooldown_seconds"
      else config.alert_cooldown_seconds) ∧
    (parse_config_values config json).robust_z_threshold_medium =
      (if extract_json_double json "robust_z_threshold_medium" > 0 then
        extract_json_double json "robust_z_threshold_medium"
      else config.robust_z_threshold_medium) ∧
    (parse_config_values config json).robust_z_threshold_high =
      (if extract_json_double json "robust_z_threshold_high" > 0 then
        extract_json_double json "robust_z_threshold_high"
      else config.robust_z_threshold_high) ∧
    (parse_config_values config json).robust_z_threshold_critical =
      (if extract_json_double json "robust_z_threshold_critical" > 0 then
        extract_json_double json "robust_z_threshold_critical"
      else config.robust_z_threshold_critical) ∧
    (parse_config_values config json).use_robust_statistics =
      extract_json_bool json "use_robust_statistics" ∧
    (parse_config_values config json).num_events =
      (if ((extract_json_string_array json "perf_events" MAX_EVENTS).length : Int) > 0 then
        ((extract_json_string_array json "perf_events" MAX_EVENTS).length : Int)
      else config.num_events) ∧
    (parse_config_values config json).runs_per_app =
      (if extract_json_int json "runs_per_app" > 0 then
        extract_json_int json "runs_per_app"
      else config.runs_per_app) := by
  unfold parse_config_values
  lift_lets
  intro s1 c1 s2 c2 s3 c3 i4 c4 i5 c5 i6 c6 i7 c7 i8 c8 d9 c9 d10 c10 d11 c11 i12 c12 c13 ev n c14
  refine ⟨?_, ?_, ?_, ?_, ?_, ?_, ?_⟩
  · simp only [c14, c13, c12, c11, c10, c9, c8, c7, c6, c5, c4, c3, c2, c1, i12,
      apply_ite config_t.alert_cooldown_seconds, ite_self]
  · simp only [c14, c13, c12, c11, c10, c9, c8, c7, c6, c5, c4, c3, c2, c1, d9,
      apply_ite config_t.robust_z_threshold_medium, ite_self]
  · simp only [c14, c13, c12, c11, c10, c9, c8, c7, c6, c5, c4, c3, c2, c1, d10,
      apply_ite config_t.robust_z_threshold_high, ite_self]
  · simp only [c14, c13, c12, c11, c10, c9, c8, c7, c6, c5, c4, c3, c2, c1, d11,
      apply_ite config_t.robust_z_threshold_critical, ite_self]
  · simp only [c14, c13, c12, c11, c10, c9, c8, c7, c6, c5, c4, c3, c2, c1,
      apply_ite config_t.use_robust_statistics, ite_self]
  · simp only [c14, c13, c12, c11, c10, c9, c8, c7, c6, c5, c4, c3, c2, c1, n, ev,
      apply_ite config_t.num_events, ite_self]
  · simp only [c14, c13, c12, c11, c10, c9, c8, c7, c6, c5, c4, c3, c2, c1, i5,
      apply_ite config_t.runs_per_app, ite_self]

theorem extract_json_bool_of_absent (json : List Char) (key : String)
    (h : strstr json ("\"" ++ key ++ "\":").data = none) :
    extract_json_bool json key = false := by
  unfold extract_json_bool
  simp only [h]

/-- C35: when the configuration file is missing or empty, `load_config` returns 0
and the defaults (200, 10, 50, 60, 0, thresholds 3/4/5, cooldown 30,
`use_robust_statistics` true, the thirteen default events). When the file is
present, `use_robust_statistics` does not keep its default: a file that sets only
`runs_per_app` leaves it false, and so does every non-empty file that does not
contain the key. -/
theorem load_config_defaults_and_bool :
    (∀ config : config_t, load_config config none = (0, default_config)) ∧
    (∀ config : config_t, load_config config (some []) = (0, default_config)) ∧
    default_config.sampling_interval_ms = 200 ∧ default_config.runs_per_app = 10 ∧
    default_config.min_samples_per_app = 50 ∧ default_config.max_runtime_seconds = 60 ∧
    default_config.core_affinity = 0 ∧ default_config.robust_z_threshold_medium = 3 ∧
    default_config.robust_z_threshold_high = 4 ∧
    default_config.robust_z_threshold_critical = 5 ∧
    default_config.alert_cooldown_seconds = 30 ∧
    default_config.use_robust_statistics = true ∧ default_config.num_events = 13 ∧
    (load_config config_t.zero (some runs_only_file)).1 = 0 ∧
    (load_config config_t.zero (some runs_only_file)).2.runs_per_app = 5 ∧
    (load_config config_t.zero (some runs_only_file)).2.alert_cooldown_seconds = 30 ∧
    (load_config config_t.zero (some runs_only_file)).2.use_robust_statistics = false ∧
    (∀ (config : config_t) (json : List Char), json ≠ [] →
      strstr json "\"use_robust_statistics\":".data = none →
        (load_config config (some json)).2.use_robust_statistics = false) := by
  refine ⟨load_config_none, load_config_empty, rfl, rfl, rfl, rfl, rfl, rfl, rfl, rfl, rfl,
    rfl, rfl, by decide!, by decide!, by decide!, by decide!, ?_⟩
  intro config json hne habs
  rw [load_config_some config json hne]
  rw [(parse_config_values_fields default_config json).2.2.2.2.1]
  exact extract_json_bool_of_absent json "use_robust_statistics" habs

/-- C36, counterexample: a file that sets the medium threshold to 5.0 and the high
threshold to 4.0 is loaded successfully, with medium 5, high 4 and critical 5. -/
theorem load_config_misordered :
    (load_config config_t.zero (some misordered_file)).1 = 0 ∧
    (load_config config_t.zero (some misordered_file)).2.robust_z_threshold_medium = 5 ∧
    (load_config config_t.zero (some misordered_file)).2.robust_z_threshold_high = 4 ∧
    (load_config config_t.zero (some misordered_file)).2.robust_z_threshold_critical = 5 ∧
    ¬ ((load_config config_t.zero (some misordered_file)).2.robust_z_threshold_medium <
        (load_config config_t.zero (some misordered_file)).2.robust_z_threshold_high ∧
      (load_config config_t.zero (some misordered_file)).2.robust_z_threshold_high <
        (load_config config_t.zero (some misordered_file)).2.robust_z_threshold_critical) := by
  decide!

theorem load_config_fst (config : config_t) (file : Option (List Char)) :
    (load_config config file).1 = 0 := by
  cases file with
  | none => rfl
  | some json =>
    by_cases h : json = []
    · subst h
      rfl
    · rw [load_config_some config json h]

theorem load_config_thresholds_pos (config : config_t) (file : Option (List Char)) :
    0 < (load_config config file).2.robust_z_threshold_medium ∧
    0 < (load_config config file).2.robust_z_threshold_high ∧
    0 < (load_config config file).2.robust_z_threshold_critical := by
  cases file with
  | none =>
    rw [load_config_none]
    norm_num [default_config]
  | some json =>
    by_cases hj : json = []
    · subst hj
      rw [load_config_empty]
      norm_num [default_config]
    · rw [load_config_some config json hj]
      obtain ⟨-, hm, hh, hc, -⟩ := parse_config_values_fields default_config json
      rw [hm, hh, hc]
      refine ⟨?_, ?_, ?_⟩ <;> split_ifs with hp <;>
        first
        | exact hp
        | norm_num [default_config]

/-- C36, amended: `load_config` checks each threshold for positivity only and never
compares them. It always returns 0, and the three thresholds of the configuration
it returns are positive: each one is the value the file gives for its key when
that value is positive, and the default (3, 4, 5) otherwise; with no file or an
empty file they are 3 < 4 < 5. -/
theorem load_config_thresholds (config : config_t) (file : Option (List Char)) :
    (load_config config file).1 = 0 ∧
    0 < (load_config config file).2.robust_z_threshold_medium ∧
    0 < (load_config config file).2.robust_z_threshold_high ∧
    0 < (load_config config file).2.robust_z_threshold_critical ∧
    (∀ json : List Char, file = some json → json ≠ [] →
      (load_config config file).2.robust_z_threshold_medium =
        (if extract_json_double json "robust_z_threshold_medium" > 0 then
          extract_json_double json "robust_z_threshold_medium" else 3) ∧
      (load_config config file).2.robust_z_threshold_high =
        (if extract_json_double json "robust_z_threshold_high" > 0 then
          extract_json_double json "robust_z_threshold_high" else 4) ∧
      (load_config config file).2.robust_z_threshold_critical =
        (if extract_json_double json "robust_z_threshold_critical" > 0 then
          extract_json_double json "robust_z_threshold_critical" else 5)) ∧
    (file = none ∨ file = some [] →
      (load_config config file).2.robust_z_threshold_medium = 3 ∧
      (load_config config file).2.robust_z_threshold_high = 4 ∧
      (load_config config file).2.robust_z_threshold_critical = 5) := by
  have hval : ∀ json : List Char, file = some json → json ≠ [] →
      (load_config config file).2.robust_z_threshold_medium =
        (if extract_json_double json "robust_z_threshold_medium" > 0 then
          extract_json_double json "robust_z_threshold_medium" else 3) ∧
      (load_config config file).2.robust_z_threshold_high =
        (if extract_json_double json "robust_z_threshold_high" > 0 then
          extract_json_double json "robust_z_threshold_high" else 4) ∧
      (load_config config file).2.robust_z_threshold_critical =
        (if extract_json_double json "robust_z_threshold_critical" > 0 then
          extract_json_double json "robust_z_threshold_critical" else 5) := by
    intro json hf hne
    subst hf
    rw [load_config_some config json hne]
    obtain ⟨-, hm, hh, hc, -⟩ := parse_config_values_fields default_config json
    exact ⟨hm, hh, hc⟩
  have hdef : file = none ∨ file = some [] →
      (load_config config file).2.robust_z_threshold_medium = 3 ∧
      (load_config config file).2.robust_z_threshold_high = 4 ∧
      (load_config config file).2.robust_z_threshold_critical = 5 := by
    rintro (h | h) <;> subst h <;> exact ⟨rfl, rfl, rfl⟩
  obtain ⟨p1, p2, p3⟩ := load_config_thresholds_pos config file
  exact ⟨load_config_fst config file, p1, p2, p3, hval, hdef⟩

/-- C37, counterexample: a file that sets `alert_cooldown_seconds` to 0 is loaded
with the default cooldown 30, and so is a file that sets it to 2147483648, which
`atoi` reads as a negative `int`; 4294967341 is loaded as 45. -/
theorem load_config_zero_cooldown :
    extract_json_int zero_cooldown_file "alert_cooldown_seconds" = 0 ∧
    (load_config config_t.zero (some zero_cooldown_file)).1 = 0 ∧
    (load_config config_t.zero (some zero_cooldown_file)).2.alert_cooldown_seconds = 30 ∧
    (load_config config_t.zero (some int_min_cooldown_file)).2.alert_cooldown_seconds = 30 ∧
    (load_config config_t.zero (some wrapped_cooldown_file)).2.alert_cooldown_seconds =
      45 := by
  decide!

/-! ## The event count after loading, and the chunking loops -/

theorem string_array_loop_length (room : Nat) :
    ∀ (start : List Char) (results : List (List Char)),
      (string_array_loop room start results).length ≤ results.length + room := by
  induction room with
  | zero =>
    intro start results
    simp [string_array_loop]
  | succ room ih =>
    intro start results
    unfold string_array_loop
    split_ifs with h
    · omega
    · split
      · split
        · omega
        · refine le_trans (ih _ _) ?_
          simp only [List.length_append, List.length_singleton]
          omega
      · omega

theorem extract_json_string_array_length (json : List Char) (key : String) (max_items : Nat) :
    (extract_json_string_array json key max_items).length ≤ max_items := by
  unfold extract_json_string_array
  simp only
  split
  · simp
  · split
    · refine le_trans (string_array_loop_length _ _ _) ?_
      simp
    · simp

theorem load_config_num_events (config : config_t) (file : Option (List Char)) :
    1 ≤ (load_config config file).2.num_events ∧
    (load_config config file).2.num_events ≤ (MAX_EVENTS : Int) := by
  cases file with
  | none =>
    rw [load_config_none]
    decide
  | some json =>
    by_cases hj : json = []
    · subst hj
      rw [load_config_empty]
      decide
    · rw [load_config_some config json hj]
      rw [(parse_config_values_fields default_config json).2.2.2.2.2.1]
      have hlen := extract_json_string_array_length json "perf_events" MAX_EVENTS
      split_ifs with hp
      · constructor
        · omega
        · exact_mod_cast hlen
      · decide

theorem complete_chunks_of_short (n : Nat) (measurements : List hpc_measurement_t)
    (h : measurements.length < n) : complete_chunks n measurements = [] := by
  unfold complete_chunks
  rw [Nat.div_eq_of_lt h]
  rfl

theorem complete_chunks_of_long (n : Nat) (measurements : List hpc_measurement_t)
    (hn : 0 < n) (h : n ≤ measurements.length) :
    complete_chunks n measurements =
      measurements.take n :: complete_chunks n (measurements.drop n) := by
  unfold complete_chunks
  have hd : measurements.length / n = (measurements.length - n) / n + 1 := by
    rw [← Nat.sub_add_cancel h, Nat.add_div_right _ hn, Nat.add_sub_cancel]
  rw [hd, List.length_drop, List.range_succ_eq_map, List.map_cons, List.map_map]
  simp only [Nat.zero_mul, List.drop_zero]
  congr 1
  apply List.map_congr_left
  intro k _
  simp only [Function.comp, List.drop_drop]
  congr 2
  rw [Nat.succ_mul]
  omega

theorem chunk_features_of_short (n : Nat) (now : ℚ) (measurements : List hpc_measurement_t)
    (h : measurements.length < n) : chunk_features n now measurements = [] := by
  unfold chunk_features
  rw [complete_chunks_of_short n measurements h]
  rfl

theorem chunk_features_of_long (n : Nat) (now : ℚ) (measurements : List hpc_measurement_t)
    (hn : 0 < n) (h : n ≤ measurements.length) :
    chunk_features n now measurements =
      (chunk_feature now (measurements.take n)).toList ++
        chunk_features n now (measurements.drop n) := by
  unfold chunk_features
  rw [complete_chunks_of_long n measurements hn h, List.filterMap_cons]
  cases chunk_feature now (List.take n measurements) <;> rfl

theorem monitor_loop_nil (num_events : Nat) (app_name : Option String) (now : Int)
    (fuel : Nat) (ids : hpc_ids_t) :
    monitor_loop num_events app_name now fuel [] ids = ids := by
  cases fuel <;> simp [monitor_loop]

theorem chunk_loop_nil (num_events : Nat) (now : ℚ) (fuel : Nat)
    (feature_samples : List feature_vector_t) :
    chunk_loop num_events now fuel [] feature_samples = feature_samples := by
  cases fuel <;> simp [chunk_loop]

theorem monitor_loop_spec (num_events : Nat) (app_name : Option String) (now : Int)
    (hn : 0 < num_events) (fuel : Nat) :
    ∀ (measurements : List hpc_measurement_t) (ids : hpc_ids_t),
      measurements.length ≤ fuel →
      monitor_loop num_events app_name now fuel measurements ids =
        (chunk_features num_events (now : ℚ) measurements).foldl
          (fun ids features => (detect_anomalies ids features app_name now).2) ids := by
  induction fuel with
  | zero =>
    intro measurements ids hle
    have hnil : measurements = [] := List.length_eq_zero.mp (Nat.le_zero.mp hle)
    subst hnil
    rw [chunk_features_of_short num_events _ [] hn]
    rfl
  | succ fuel ih =>
    intro measurements ids hle
    unfold monitor_loop
    by_cases hpos : measurements.length > 0
    · rw [if_pos hpos]
      simp only
      by_cases hlong : num_events ≤ measurements.length
      · have htake : (measurements.take num_events).length = num_events := by
          rw [List.length_take]
          exact Nat.min_eq_left hlong
        have hdrop : (measurements.drop num_events).length ≤ fuel := by
          rw [List.length_drop]
          omega
        rw [if_pos htake, ih _ _ hdrop, chunk_features_of_long num_events _ measurements hn hlong,
          List.foldl_append]
        congr 1
        unfold chunk_feature
        split_ifs <;> rfl
      · have hshort : measurements.length < num_events := not_le.mp hlong
        have htake : ¬ (measurements.take num_events).length = num_events := by
          rw [List.length_take]
          omega
        have hdrop : measurements.drop num_events = [] :=
          List.drop_eq_nil_of_le (le_of_lt hshort)
        rw [if_neg htake, hdrop, monitor_loop_nil,
          chunk_features_of_short num_events _ measurements hshort]
        rfl
    · have hnil : measurements = [] := List.length_eq_zero.mp (by omega)
      subst hnil
      rw [if_neg hpos, chunk_features_of_short num_events _ [] hn]
      rfl

theorem chunk_loop_spec (num_events : Nat) (now : ℚ) (hn : 0 < num_events) (fuel : Nat) :
    ∀ (measurements : List hpc_measurement_t) (feature_samples : List feature_vector_t),
      measurements.length ≤ fuel →
      chunk_loop num_events now fuel measurements feature_samples =
        feature_samples ++
          (chunk_features num_events now measurements).take
            (MAX_SAMPLES - feature_samples.length) := by
  induction fuel with
  | zero =>
    intro measurements feature_samples hle
    have hnil : measurements = [] := List.length_eq_zero.mp (Nat.le_zero.mp hle)
    subst hnil
    rw [chunk_features_of_short num_events _ [] hn]
    simp [chunk_loop]
  | succ fuel ih =>
    intro measurements feature_samples hle
    unfold chunk_loop
    by_cases hc : measurements.length > 0 ∧ feature_samples.length < MAX_SAMPLES
    · rw [if_pos hc]
      simp only
      by_cases hlong : num_events ≤ measurements.length
      · have htake : (measurements.take num_events).length = num_events := by
          rw [List.length_take]
          exact Nat.min_eq_left hlong
        have hdrop : (measurements.drop num_events).length ≤ fuel := by
          rw [List.length_drop]
          omega
        rw [if_pos htake, ih _ _ hdrop, chunk_features_of_long num_events _ measurements hn hlong]
        unfold chunk_feature
        have hroom : MAX_SAMPLES - feature_samples.length =
            (MAX_SAMPLES - (feature_samples.length + 1)) + 1 := by omega
        split_ifs with he
        · rw [List.length_append, List.length_singleton, hroom, Option.toList,
            List.singleton_append, List.take_succ_cons, List.append_assoc,
            List.singleton_append]
        · rw [Option.toList, List.nil_append]
      · have hshort : measurements.length < num_events := not_le.mp hlong
        have htake : ¬ (measurements.take num_events).length = num_events := by
          rw [List.length_take]
          omega
        have hdrop : measurements.drop num_events = [] :=
          List.drop_eq_nil_of_le (le_of_lt hshort)
        rw [if_neg htake, hdrop, chunk_loop_nil,
          chunk_features_of_short num_events _ measurements hshort]
        simp
    · rw [if_neg hc]
      by_cases hpos : measurements.length > 0
      · have hfull : MAX_SAMPLES - feature_samples.length = 0 := by
          have : ¬ feature_samples.length < MAX_SAMPLES := fun h => hc ⟨hpos, h⟩
          omega
        rw [hfull]
        simp
      · have hnil : measurements = [] := List.length_eq_zero.mp (by omega)
        subst hnil
        rw [chunk_features_of_short num_events _ [] hn]
        simp

theorem complete_chunks_length (n : Nat) (measurements : List hpc_measurement_t) :
    (complete_chunks n measurements).length = measurements.length / n := by
  unfold complete_chunks
  rw [List.length_map, List.length_range]

theorem complete_chunks_mem_length (n : Nat) (measurements chunk : List hpc_measurement_t)
    (h : chunk ∈ complete_chunks n measurements) : chunk.length = n := by
  unfold complete_chunks at h
  rw [List.mem_map] at h
  obtain ⟨k, hk, rfl⟩ := h
  rw [List.mem_range] at hk
  rw [List.length_take, List.length_drop]
  have h1 : (k + 1) * n ≤ measurements.length :=
    le_trans (Nat.mul_le_mul_right n hk) (Nat.div_mul_le_self _ _)
  rw [Nat.succ_mul] at h1
  omega

theorem chunk_features_length (n : Nat) (now : ℚ) (measurements : List hpc_measurement_t) :
    (chunk_features n now measurements).length ≤ measurements.length / n := by
  unfold chunk_features
  rw [← complete_chunks_length n measurements]
  exact List.length_filterMap_le _ _

theorem process_session_of_pos (num_events : Int) (app_name : Option String) (now : Int)
    (measurements : List hpc_measurement_t) (ids : hpc_ids_t) (hn : 0 < num_events) :
    process_session num_events app_name now measurements ids =
      some ((chunk_features num_events.toNat (now : ℚ) measurements).foldl
        (fun ids features => (detect_anomalies ids features app_name now).2) ids) := by
  unfold process_session
  rw [if_neg (not_le.mpr hn)]
  rw [monitor_loop_spec num_events.toNat app_name now (by omega) _ _ _ (le_refl _)]

theorem monitor_pid_terminates (ids : hpc_ids_t) (app_name : String) (built : Bool)
    (session : Option (List hpc_measurement_t)) (now : Int)
    (hn : 0 < ids.config.num_events) :
    ∃ r, monitor_pid ids app_name built session now = some r := by
  cases built <;> cases session <;>
    simp [monitor_pid, process_session_of_pos _ _ _ _ _ hn]

theorem monitor_app_terminates (ids : hpc_ids_t) (app_name : String)
    (executable built : Bool) (session : Option (List hpc_measurement_t)) (now : Int)
    (hn : 0 < ids.config.num_events) :
    ∃ r, monitor_app ids app_name executable built session now = some r := by
  cases executable <;> cases built <;> cases session <;>
    simp [monitor_app, process_session_of_pos _ _ _ _ _ hn]

/-- C40: for every file content `load_config` returns 0 with
`1 ≤ num_events ≤ MAX_EVENTS = 16`. With that `num_events`, the chunking loops of
`collect_baseline`, `monitor_pid` and `monitor_app` terminate for every
measurement sequence (more iterations than samples change nothing, and the three
functions return); only the complete chunks of exactly `num_events` consecutive
samples reach `engineer_features`, a trailing partial chunk is dropped; and at
most `count / num_events` feature vectors are produced (the collector stores
those that fit below `MAX_SAMPLES`, the monitors hand each of them to
`detect_anomalies`). -/
theorem load_config_chunking (config : config_t) (file : Option (List Char)) :
    (load_config config file).1 = 0 ∧
    1 ≤ (load_config config file).2.num_events ∧
    (load_config config file).2.num_events ≤ 16 ∧
    (∀ (now : ℚ) (measurements : List hpc_measurement_t)
        (feature_samples : List feature_vector_t),
      process_run (load_config config file).2.num_events now measurements feature_samples =
        some (feature_samples ++
          (chunk_features (load_config config file).2.num_events.toNat now measurements).take
            (MAX_SAMPLES - feature_samples.length))) ∧
    (∀ (app_name : Option String) (now : Int) (measurements : List hpc_measurement_t)
        (ids : hpc_ids_t),
      process_session (load_config config file).2.num_events app_name now measurements ids =
        some ((chunk_features (load_config config file).2.num_events.toNat (now : ℚ)
            measurements).foldl
          (fun ids features => (detect_anomalies ids features app_name now).2) ids)) ∧
    (∀ (now : ℚ) (measurements : List hpc_measurement_t) (feature_samples : List feature_vector_t)
        (fuel : Nat), measurements.length ≤ fuel →
      chunk_loop (load_config config file).2.num_events.toNat now fuel measurements
          feature_samples =
        chunk_loop (load_config config file).2.num_events.toNat now measurements.length
          measurements feature_samples) ∧
    (∀ (app_name : Option String) (now : Int) (measurements : List hpc_measurement_t)
        (ids : hpc_ids_t) (fuel : Nat), measurements.length ≤ fuel →
      monitor_loop (load_config config file).2.num_events.toNat app_name now fuel measurements
          ids =
        monitor_loop (load_config config file).2.num_events.toNat app_name now
          measurements.length measurements ids) ∧
    (∀ measurements chunk : List hpc_measurement_t,
      chunk ∈ complete_chunks (load_config config file).2.num_events.toNat measurements →
        chunk.length = (load_config config file).2.num_events.toNat) ∧
    (∀ (now : ℚ) (measurements : List hpc_measurement_t),
      (chunk_features (load_config config file).2.num_events.toNat now measurements).length ≤
        measurements.length / (load_config config file).2.num_events.toNat) ∧
    (∀ ids : hpc_ids_t, ids.config = (load_config config file).2 →
      (∀ (app_name : String) (env : collect_env),
        ∃ r, collect_baseline ids app_name env = some r) ∧
      (∀ (app_name : String) (built : Bool) (session : Option (List hpc_measurement_t))
          (now : Int), ∃ r, monitor_pid ids app_name built session now = some r) ∧
      (∀ (app_name : String) (executable built : Bool)
          (session : Option (List hpc_measurement_t)) (now : Int),
        ∃ r, monitor_app ids app_name executable built session now = some r)) := by
  obtain ⟨h1, h16⟩ := load_config_num_events config file
  have hpos : 0 < (load_config config file).2.num_events := by omega
  have hnat : 0 < (load_config config file).2.num_events.toNat := by omega
  refine ⟨load_config_fst config file, h1, h16, ?_, ?_, ?_, ?_, ?_, ?_, ?_⟩
  · intro now measurements feature_samples
    rw [process_run_of_pos _ _ _ _ hpos, chunk_loop_spec _ now hnat _ _ _ (le_refl _)]
  · intro app_name now measurements ids
    exact process_session_of_pos _ _ _ _ _ hpos
  · intro now measurements feature_samples fuel hfuel
    rw [chunk_loop_spec _ now hnat _ _ _ hfuel, chunk_loop_spec _ now hnat _ _ _ (le_refl _)]
  · intro app_name now measurements ids fuel hfuel
    rw [monitor_loop_spec _ app_name now hnat _ _ _ hfuel,
      monitor_loop_spec _ app_name now hnat _ _ _ (le_refl _)]
  · intro measurements chunk hmem
    exact complete_chunks_mem_length _ _ _ hmem
  · intro now measurements
    exact chunk_features_length _ _ _
  · intro ids hids
    have hn : 0 < ids.config.num_events := by
      rw [hids]
      exact hpos
    refine ⟨?_, ?_, ?_⟩
    · intro app_name env
      obtain ⟨r, hr, -⟩ := collect_baseline_outcome ids app_name env hn
      exact ⟨r, hr⟩
    · intro app_name built session now
      exact monitor_pid_terminates ids app_name built session now hn
    · intro app_name executable built session now
      exact monitor_app_terminates ids app_name executable built session now hn

/-! ## Parsing the records of the sample source -/

theorem next_field_append_comma (f r : List Char) (h : ',' ∉ f) :
    next_field (f ++ ',' :: r) = (f, r) := by
  induction f with
  | nil => simp [next_field]
  | cons c cs ih =>
    have hc : c ≠ ',' := fun hc => h (by simp [hc])
    have hcs : ',' ∉ cs := fun hm => h (List.mem_cons_of_mem _ hm)
    simp [next_field, hc, ih hcs]

theorem next_field_no_comma (f : List Char) (h : ',' ∉ f) : next_field f = (f, []) := by
  induction f with
  | nil => simp [next_field]
  | cons c cs ih =>
    have hc : c ≠ ',' := fun hc => h (by simp [hc])
    have hcs : ',' ∉ cs := fun hm => h (List.mem_cons_of_mem _ hm)
    simp [next_field, hc, ih hcs]

theorem skip_blanks_eq_dropWhile (f : List Char) :
    skip_blanks f = f.dropWhile fun c => c = ' ' || c = '\t' := by
  induction f with
  | nil => rfl
  | cons c cs ih =>
    unfold skip_blanks
    by_cases hc : c = ' ' ∨ c = '\t'
    · rw [if_pos hc, ih, List.dropWhile_cons]
      simp [hc]
    · rw [if_neg hc, List.dropWhile_cons]
      have : ¬ (c = ' ' ∨ c = '\t') := hc
      simp [this]

theorem trim_token_eq_strip (f : List Char) (h : strip_blanks f ≠ []) :
    trim_token f = strip_blanks f := by
  unfold trim_token
  unfold strip_blanks at h ⊢
  rw [skip_blanks_eq_dropWhile]
  generalize (f.dropWhile fun c => c = ' ' || c = '\t') = t at h ⊢
  cases t with
  | nil => exact absurd rfl h
  | cons c rest =>
    simp only [trim_end]
    rw [List.reverse_cons, List.dropWhile_append] at h ⊢
    by_cases he : (List.dropWhile (fun e => e = ' ' || e = '\t' || e = '\n')
        rest.reverse).isEmpty = true
    · rw [if_pos he] at h ⊢
      have hnil : List.dropWhile (fun e => e = ' ' || e = '\t' || e = '\n')
          rest.reverse = [] := List.isEmpty_iff.mp he
      rw [hnil]
      rw [List.dropWhile_cons] at h ⊢
      split_ifs at h ⊢ with hb
      · simp at h
      · rfl
    · rw [if_neg he]
      rw [List.reverse_append]
      rfl

theorem read_digits_of_digits (ds : List Char) (h : ∀ c ∈ ds, is_digit c = true) :
    ∀ acc k : Nat, read_digits ds acc k =
      (ds.foldl (fun acc c => acc * 10 + (c.toNat - 48)) acc, k + ds.length, []) := by
  induction ds with
  | nil =>
    intro acc k
    rfl
  | cons c cs ih =>
    intro acc k
    have hc : is_digit c = true := h c (List.mem_cons_self _ _)
    have hcs : ∀ d ∈ cs, is_digit d = true := fun d hd => h d (List.mem_cons_of_mem _ hd)
    unfold read_digits
    rw [if_pos hc, ih hcs, List.foldl_cons, List.length_cons]
    congr 2
    omega

theorem is_digit_not_space (c : Char) (h : is_digit c = true) : is_space c = false := by
  unfold is_space
  simp only [Bool.or_eq_false_iff, decide_eq_false_iff_not]
  refine ⟨⟨⟨⟨⟨?_, ?_⟩, ?_⟩, ?_⟩, ?_⟩, ?_⟩ <;>
    · rintro rfl
      revert h
      decide

theorem strtoull_of_digits (ds : List Char) (hne : ds ≠ [])
    (h : ∀ c ∈ ds, is_digit c = true) :
    strtoull ds = min (decimal_value ds) ULLONG_MAX := by
  cases ds with
  | nil => exact absurd rfl hne
  | cons c cs =>
    have hc : is_digit c = true := h c (List.mem_cons_self _ _)
    have hsp : skip_space (c :: cs) = c :: cs := by
      unfold skip_space
      rw [is_digit_not_space c hc]
      rfl
    have hminus : c ≠ '-' := by
      rintro rfl
      revert hc
      decide
    have hplus : c ≠ '+' := by
      rintro rfl
      revert hc
      decide
    have hsign : read_sign (c :: cs) = (false, c :: cs) := by
      unfold read_sign
      split
      · rename_i heq
        exact absurd (List.cons.inj heq).1 hminus
      · rename_i heq
        exact absurd (List.cons.inj heq).1 hplus
      · rfl
    unfold strtoull
    simp only [hsp, hsign, read_digits_of_digits (c :: cs) h]
    unfold decimal_value
    by_cases hbig : List.foldl (fun acc c => acc * 10 + (c.toNat - 48)) 0 (c :: cs) >
        ULLONG_MAX
    · rw [if_pos hbig]
      exact (Nat.min_eq_right (le_of_lt hbig)).symm
    · rw [if_neg hbig]
      simp only [Bool.false_eq_true, if_false]
      exact (Nat.min_eq_left (not_lt.mp hbig)).symm

theorem strstr_of_digits (ds : List Char) (h : ∀ c ∈ ds, is_digit c = true)
    (n0 : Char) (ns : List Char) (hn : is_digit n0 = false) :
    strstr ds (n0 :: ns) = none := by
  induction ds with
  | nil => simp [strstr]
  | cons c cs ih =>
    have hc : is_digit c = true := h c (List.mem_cons_self _ _)
    have hcs : ∀ d ∈ cs, is_digit d = true := fun d hd => h d (List.mem_cons_of_mem _ hd)
    have hne : c ≠ n0 := by
      rintro rfl
      rw [hc] at hn
      exact Bool.noConfusion hn
    unfold strstr
    simp [starts_with, hne, ih hcs]

theorem store_field_value (token : List Char) (measurement : hpc_measurement_t)
    (hne : token ≠ []) (h : ∀ c ∈ token, is_digit c = true) :
    store_field 1 token measurement =
      some { measurement with value := min (decimal_value token) ULLONG_MAX } := by
  have h1 : strstr token "<not supported>".data = none :=
    strstr_of_digits token h '<' _ (by decide)
  have h2 : strstr token "<not counted>".data = none :=
    strstr_of_digits token h '<' _ (by decide)
  have h3 : strstr token "<not available>".data = none :=
    strstr_of_digits token h '<' _ (by decide)
  unfold store_field
  simp only [h1, h2, h3, Option.isSome_none, Bool.false_eq_true, or_self, if_false]
  rw [strtoull_of_digits token hne h]

theorem field_loop_step (room field : Nat) (ptr : List Char)
    (measurement stored : hpc_measurement_t) (hne : ptr ≠ [])
    (hs : store_field field (trim_token (next_field ptr).1) measurement = some stored) :
    field_loop (room + 1) field ptr measurement =
      field_loop room (field + 1) (next_field ptr).2 stored := by
  rw [field_loop, if_neg hne]
  simp only [hs]

theorem field_loop_tail (room : Nat) :
    ∀ (n : Nat) (ptr : List Char) (measurement : hpc_measurement_t),
      ∃ k, field_loop room (n + 4) ptr measurement = (some k, measurement) ∧ n + 4 ≤ k := by
  induction room with
  | zero =>
    intro n ptr measurement
    exact ⟨n + 4, rfl, le_refl _⟩
  | succ room ih =>
    intro n ptr measurement
    by_cases hne : ptr = []
    · refine ⟨n + 4, ?_, le_refl _⟩
      rw [field_loop, if_pos hne]
    · have hs : store_field (n + 4) (trim_token (next_field ptr).1) measurement =
          some measurement := rfl
      rw [field_loop_step room (n + 4) ptr measurement measurement hne hs]
      obtain ⟨k, hk, hle⟩ := ih (n + 1) (next_field ptr).2 measurement
      exact ⟨k, hk, by omega⟩

theorem next_field_of_tail (f tail : List Char) (h : ',' ∉ f)
    (htail : tail = [] ∨ ∃ more, tail = ',' :: more) :
    (next_field (f ++ tail)).1 = f := by
  rcases htail with rfl | ⟨more, rfl⟩
  · rw [List.append_nil, next_field_no_comma f h]
  · rw [next_field_append_comma f more h]

theorem field_loop_step_comma (room field : Nat) (f r : List Char)
    (measurement stored : hpc_measurement_t) (h : ',' ∉ f)
    (hs : store_field field (trim_token f) measurement = some stored) :
    field_loop (room + 1) field (f ++ ',' :: r) measurement =
      field_loop room (field + 1) r stored := by
  have hne : f ++ ',' :: r ≠ [] := by simp
  have hs2 : store_field field (trim_token (next_field (f ++ ',' :: r)).1) measurement =
      some stored := by
    rw [next_field_append_comma f r h]
    exact hs
  rw [field_loop_step room field _ measurement stored hne hs2, next_field_append_comma f r h]

theorem field_loop_step_tail (room field : Nat) (f tail : List Char)
    (measurement stored : hpc_measurement_t) (h : ',' ∉ f) (hf : f ≠ [])
    (htail : tail = [] ∨ ∃ more, tail = ',' :: more)
    (hs : store_field field (trim_token f) measurement = some stored) :
    field_loop (room + 1) field (f ++ tail) measurement =
      field_loop room (field + 1) (next_field (f ++ tail)).2 stored := by
  have hne : f ++ tail ≠ [] := by simp [hf]
  have hs2 : store_field field (trim_token (next_field (f ++ tail)).1) measurement =
      some stored := by
    rw [next_field_of_tail f tail h htail]
    exact hs
  exact field_loop_step room field _ measurement stored hne hs2

/-- The record lines `perf_time,value,field2,counter` with more fields or none:
what `parse_perf_line` returns for them. -/
theorem parse_perf_line_of_record (f0 f1 f2 f3 tail : List Char) (wall_time : ℚ)
    (measurement : hpc_measurement_t)
    (h0 : ',' ∉ f0) (h1 : ',' ∉ f1) (h2 : ',' ∉ f2) (h3 : ',' ∉ f3)
    (htail : tail = [] ∨ ∃ more, tail = ',' :: more)
    (hvalue : trim_token f1 ≠ [] ∧ ∀ c ∈ trim_token f1, is_digit c = true)
    (hcounter : strip_blanks f3 ≠ []) :
    parse_perf_line (f0 ++ ',' :: (f1 ++ ',' :: (f2 ++ ',' :: (f3 ++ tail)))) wall_time
        measurement =
      (0, { wall_time := wall_time,
            perf_time := atof (trim_token f0),
            counter := String.mk ((strip_blanks f3).take 63),
            value := min (decimal_value (trim_token f1)) ULLONG_MAX,
            duration_ms := SAMPLING_INTERVAL_MS }) := by
  have hf3 : f3 ≠ [] := by
    rintro rfl
    exact hcounter rfl
  unfold parse_perf_line
  simp only
  rw [field_loop_step_comma 7 0 f0 _ _ _ h0 rfl,
    field_loop_step_comma 6 1 f1 _ _ _ h1 (store_field_value _ _ hvalue.1 hvalue.2),
    field_loop_step_comma 5 2 f2 _ _ _ h2 rfl,
    field_loop_step_tail 4 3 f3 tail _ _ h3 hf3 htail rfl,
    trim_token_eq_strip f3 hcounter]
  obtain ⟨k, hk, hle⟩ := field_loop_tail 4 0 (next_field (f3 ++ tail)).2
    { wall_time := wall_time, perf_time := atof (trim_token f0),
      counter := String.mk ((strip_blanks f3).take 63),
      value := min (decimal_value (trim_token f1)) ULLONG_MAX,
      duration_ms := SAMPLING_INTERVAL_MS }
  have hlen : 0 < (String.mk ((strip_blanks f3).take 63)).length := by
    rw [String.length_mk, List.length_take]
    have : 0 < (strip_blanks f3).length := List.length_pos.mpr hcounter
    omega
  rw [Nat.zero_add] at hk hle
  dsimp only
  rw [hk]
  dsimp only
  rw [if_pos ⟨hle, hlen⟩]

/-- C33, counterexample: a record with a counter name of 64 characters and the
value `2 ^ 64` is accepted, but the counter stored has 63 characters and the value
stored is `2 ^ 64 - 1`. -/
theorem parse_perf_line_long_counter :
    long_counter_line =
      "1.5".data ++ ',' :: ("18446744073709551616".data ++ ',' :: ([] ++ ',' ::
        (List.replicate 64 'c' ++ ",100.00".data))) ∧
    (parse_perf_line long_counter_line 7 hpc_measurement_t.zero).1 = 0 ∧
    (parse_perf_line long_counter_line 7 hpc_measurement_t.zero).2.counter =
      String.mk (List.replicate 63 'c') ∧
    (parse_perf_line long_counter_line 7 hpc_measurement_t.zero).2.counter ≠
      String.mk (List.replicate 64 'c') ∧
    decimal_value "18446744073709551616".data = 2 ^ 64 ∧
    (parse_perf_line long_counter_line 7 hpc_measurement_t.zero).2.value = 2 ^ 64 - 1 := by
  decide!

/-- C33, amended: for every record line `f0,f1,f2,f3` (with or without further
fields) whose value field `f1` is a non-empty run of decimal digits between blanks
and whose counter field `f3` is not blank, `parse_perf_line` returns 0 and a
sample with `perf_time` = field 0 read by `atof`, `value` = the number that
field 1 denotes, capped at `2 ^ 64 - 1`, `counter` = field 3 without its
surrounding blanks, cut to its first 63 characters, and `wall_time` = the wall
time supplied. Field 2 is a field of its own, empty or not: the counter is never
read from it. A counter of at most 63 characters and a value below `2 ^ 64` are
stored unchanged. -/
theorem parse_perf_line_record_spec (f0 f1 f2 f3 tail : List Char) (wall_time : ℚ)
    (measurement : hpc_measurement_t)
    (h0 : ',' ∉ f0) (h1 : ',' ∉ f1) (h2 : ',' ∉ f2) (h3 : ',' ∉ f3)
    (htail : tail = [] ∨ ∃ more, tail = ',' :: more)
    (hvalue : trim_token f1 ≠ [] ∧ ∀ c ∈ trim_token f1, is_digit c = true)
    (hcounter : strip_blanks f3 ≠ []) :
    (parse_perf_line (f0 ++ ',' :: (f1 ++ ',' :: (f2 ++ ',' :: (f3 ++ tail)))) wall_time
      measurement).1 = 0 ∧
    (parse_perf_line (f0 ++ ',' :: (f1 ++ ',' :: (f2 ++ ',' :: (f3 ++ tail)))) wall_time
      measurement).2.perf_time = atof (trim_token f0) ∧
    (parse_perf_line (f0 ++ ',' :: (f1 ++ ',' :: (f2 ++ ',' :: (f3 ++ tail)))) wall_time
      measurement).2.value = min (decimal_value (trim_token f1)) (2 ^ 64 - 1) ∧
    (parse_perf_line (f0 ++ ',' :: (f1 ++ ',' :: (f2 ++ ',' :: (f3 ++ tail)))) wall_time
      measurement).2.counter = String.mk ((strip_blanks f3).take 63) ∧
    (parse_perf_line (f0 ++ ',' :: (f1 ++ ',' :: (f2 ++ ',' :: (f3 ++ tail)))) wall_time
      measurement).2.wall_time = wall_time ∧
    (parse_perf_line (f0 ++ ',' :: (f1 ++ ',' :: (f2 ++ ',' :: (f3 ++ tail)))) wall_time
      measurement).2.duration_ms = 200 ∧
    (decimal_value (trim_token f1) < 2 ^ 64 →
      (parse_perf_line (f0 ++ ',' :: (f1 ++ ',' :: (f2 ++ ',' :: (f3 ++ tail)))) wall_time
        measurement).2.value = decimal_value (trim_token f1)) ∧
    ((strip_blanks f3).length ≤ 63 →
      (parse_perf_line (f0 ++ ',' :: (f1 ++ ',' :: (f2 ++ ',' :: (f3 ++ tail)))) wall_time
        measurement).2.counter = String.mk (strip_blanks f3)) := by
  rw [parse_perf_line_of_record f0 f1 f2 f3 tail wall_time measurement h0 h1 h2 h3 htail
    hvalue hcounter]
  refine ⟨rfl, rfl, rfl, rfl, rfl, rfl, ?_, ?_⟩
  · intro hlt
    have hle : decimal_value (trim_token f1) ≤ ULLONG_MAX := by
      unfold ULLONG_MAX
      omega
    exact Nat.min_eq_left hle
  · intro hlen
    simp only
    rw [List.take_of_length_le hlen]

/-- Witness for C33: the record `1.0,100,, cycles,200,100.00` with its newline. -/
theorem parse_perf_line_record_spec_witness :
    (parse_perf_line "1.0,100,, cycles,200,100.00\n".data 7 hpc_measurement_t.zero).1 = 0 ∧
    (parse_perf_line "1.0,100,, cycles,200,100.00\n".data 7
      hpc_measurement_t.zero).2.value = 100 ∧
    (parse_perf_line "1.0,100,, cycles,200,100.00\n".data 7
      hpc_measurement_t.zero).2.counter = "cycles" :=
  have h := parse_perf_line_record_spec "1.0".data "100".data [] " cycles".data
    ",200,100.00\n".data 7 hpc_measurement_t.zero (by decide) (by decide) (by decide)
    (by decide) (Or.inr ⟨_, rfl⟩) (by decide!) (by decide!)
  ⟨h.1, h.2.2.2.2.2.2.1 (by decide!), h.2.2.2.2.2.2.2 (by decide!)⟩

/-! ## Records that yield no sample -/

theorem next_field_count (ptr : List Char) :
    (next_field ptr).2 = [] ∨ (next_field ptr).2.count ',' + 1 ≤ ptr.count ',' := by
  induction ptr with
  | nil => exact Or.inl rfl
  | cons c cs ih =>
    unfold next_field
    by_cases hc : c = ','
    · rw [if_pos hc]
      right
      subst hc
      simp
    · rw [if_neg hc]
      rcases ih with h | h
      · exact Or.inl h
      · right
        have hcount : (c :: cs).count ',' = cs.count ',' := by
          rw [List.count_cons]
          simp [hc]
        rw [hcount]
        exact h

theorem field_bound_next (ptr : List Char) (hne : ptr ≠ []) :
    field_bound (next_field ptr).2 + 1 ≤ field_bound ptr := by
  unfold field_bound
  rw [if_neg hne]
  rcases next_field_count ptr with h | h
  · rw [if_pos h]
    omega
  · split_ifs <;> omega

theorem field_loop_bound (room : Nat) :
    ∀ (field : Nat) (ptr : List Char) (measurement : hpc_measurement_t) (k : Nat),
      (field_loop room field ptr measurement).1 = some k → k ≤ field + field_bound ptr := by
  induction room with
  | zero =>
    intro field ptr measurement k hk
    have hkf : field = k := Option.some.inj hk
    omega
  | succ room ih =>
    intro field ptr measurement k hk
    by_cases hne : ptr = []
    · rw [field_loop, if_pos hne] at hk
      have hkf : field = k := Option.some.inj hk
      omega
    · rw [field_loop, if_neg hne] at hk
      simp only at hk
      cases hs : store_field field (trim_token (next_field ptr).1) measurement with
      | none =>
        rw [hs] at hk
        exact absurd hk (by simp)
      | some stored =>
        rw [hs] at hk
        have h1 := ih (field + 1) (next_field ptr).2 stored k hk
        have h2 := field_bound_next ptr hne
        omega

theorem parse_perf_line_of_few_fields (line : List Char) (wall_time : ℚ)
    (measurement : hpc_measurement_t) (h : line.count ',' < 3) :
    (parse_perf_line line wall_time measurement).1 = -1 := by
  unfold parse_perf_line
  simp only
  cases hs : (field_loop 8 0 line
      { measurement with wall_time := wall_time, duration_ms := SAMPLING_INTERVAL_MS }).1 with
  | none => rfl
  | some k =>
    have hb := field_loop_bound 8 0 line _ k hs
    have hfb : field_bound line ≤ line.count ',' + 1 := by
      unfold field_bound
      split_ifs <;> omega
    have hk : ¬ k ≥ 4 := by omega
    simp only
    rw [if_neg (fun hc => hk hc.1)]

theorem parse_perf_line_of_marker (f0 f1 tail : List Char) (wall_time : ℚ)
    (measurement : hpc_measurement_t) (h0 : ',' ∉ f0) (h1 : ',' ∉ f1) (hf1 : f1 ≠ [])
    (htail : tail = [] ∨ ∃ more, tail = ',' :: more)
    (hmark : (strstr (trim_token f1) "<not supported>".data).isSome ∨
      (strstr (trim_token f1) "<not counted>".data).isSome ∨
      (strstr (trim_token f1) "<not available>".data).isSome) :
    (parse_perf_line (f0 ++ ',' :: (f1 ++ tail)) wall_time measurement).1 = -1 := by
  have hne : f1 ++ tail ≠ [] := by simp [hf1]
  unfold parse_perf_line
  simp only
  rw [field_loop_step_comma 7 0 f0 _ _ _ h0 rfl, field_loop, if_neg hne,
    next_field_of_tail f1 tail h1 htail]
  have hs : ∀ m : hpc_measurement_t, store_field 1 (trim_token f1) m = none := by
    intro m
    unfold store_field
    simp only [if_pos hmark]
  simp only [hs]

theorem read_loop_skip (start_time timeout : Int) (line : perf_line) (lines : List perf_line)
    (measurements : List hpc_measurement_t)
    (hparse : (parse_perf_line line.text (line.clock_at_parse : ℚ)
      hpc_measurement_t.zero).1 ≠ 0)
    (htime : ¬ (timeout > 0 ∧ line.clock_at_check - start_time > timeout)) :
    read_loop start_time timeout (line :: lines) measurements =
      read_loop start_time timeout lines measurements := by
  rw [read_loop]
  by_cases hroom : measurements.length < MAX_SAMPLES
  · rw [if_pos hroom, if_neg htime, if_neg hparse]
    split_ifs <;> rfl
  · rw [if_neg hroom]
    cases lines with
    | nil => rfl
    | cons l ls => rw [read_loop, if_neg hroom]

theorem execute_perf_command_result (output : Option (List perf_line))
    (start_time timeout : Int) :
    ((execute_perf_command output start_time timeout).1 = 0 ↔
      (execute_perf_command output start_time timeout).2 ≠ []) ∧
    ((execute_perf_command output start_time timeout).1 = 0 ∨
      (execute_perf_command output start_time timeout).1 = -1) := by
  unfold execute_perf_command
  cases output with
  | none => simp
  | some lines =>
    simp only
    split_ifs with h
    · have hnil : read_loop start_time timeout lines [] = [] := List.length_eq_zero.mp h
      simp [hnil]
    · have hne : read_loop start_time timeout lines [] ≠ [] :=
        fun hn => h (by rw [hn]; rfl)
      simp [hne]

/-- C34: the newline that ends a line is not trimmed from a counter field that
holds nothing else. The record `1.0,100,,` with an empty counter name, read by
`fgets` as `1.0,100,,\n`, makes `parse_perf_line` return 0 with the counter
`"\n"`, and `execute_perf_command` stores that sample and succeeds with it alone.
The rest holds: the three markers in the value field and fewer than four fields
give -1, and so does the empty counter field of `1.0,100,,` without newline, of
`1.0,100,, ,200` and of `1.0,100,,` followed by blanks; a record that gives -1 is
skipped and the loop goes on with the next line; and the session returns 0 exactly
when a sample was stored. -/
theorem parse_perf_line_empty_counter :
    (parse_perf_line "1.0,100,,\n".data 50 hpc_measurement_t.zero).1 = 0 ∧
    (parse_perf_line "1.0,100,,\n".data 50 hpc_measurement_t.zero).2.counter = "\n" ∧
    (execute_perf_command (some [empty_counter_line]) 50 60).1 = 0 ∧
    (execute_perf_command (some [empty_counter_line]) 50 60).2.map
        (fun m => (m.perf_time, m.value, m.counter, m.wall_time, m.duration_ms)) =
      [(1, 100, "\n", 50, 200)] ∧
    (parse_perf_line "1.0,100,,".data 50 hpc_measurement_t.zero).1 = -1 ∧
    (parse_perf_line "1.0,100,, ,200\n".data 50 hpc_measurement_t.zero).1 = -1 ∧
    (parse_perf_line "1.0,100,,  ".data 50 hpc_measurement_t.zero).1 = -1 ∧
    (parse_perf_line "1.0,<not counted>,,cycles,0,0.00\n".data 50
      hpc_measurement_t.zero).1 = -1 ∧
    (∀ (line : List Char) (wall_time : ℚ) (measurement : hpc_measurement_t),
      line.count ',' < 3 → (parse_perf_line line wall_time measurement).1 = -1) ∧
    (∀ (f0 f1 tail : List Char) (wall_time : ℚ) (measurement : hpc_measurement_t),
      ',' ∉ f0 → ',' ∉ f1 → (tail = [] ∨ ∃ more, tail = ',' :: more) →
      (trim_token f1 = "<not supported>".data ∨ trim_token f1 = "<not counted>".data ∨
        trim_token f1 = "<not available>".data) →
      (parse_perf_line (f0 ++ ',' :: (f1 ++ tail)) wall_time measurement).1 = -1) ∧
    (∀ (start_time timeout : Int) (line : perf_line) (lines : List perf_line)
        (measurements : List hpc_measurement_t),
      (parse_perf_line line.text (line.clock_at_parse : ℚ) hpc_measurement_t.zero).1 ≠ 0 →
      ¬ (timeout > 0 ∧ line.clock_at_check - start_time > timeout) →
      read_loop start_time timeout (line :: lines) measurements =
        read_loop start_time timeout lines measurements) ∧
    (∀ (output : Option (List perf_line)) (start_time timeout : Int),
      (execute_perf_command output start_time timeout).1 = 0 ↔
        (execute_perf_command output start_time timeout).2 ≠ []) := by
  refine ⟨by decide!, by decide!, by decide!, by decide!, by decide!, by decide!, by decide!,
    by decide!, parse_perf_line_of_few_fields, ?_, read_loop_skip, ?_⟩
  · intro f0 f1 tail wall_time measurement h0 h1 htail hmark
    have hf1 : f1 ≠ [] := by
      rintro rfl
      rcases hmark with h | h | h <;> exact absurd h (by decide)
    apply parse_perf_line_of_marker f0 f1 tail wall_time measurement h0 h1 hf1 htail
    rcases hmark with h | h | h <;> rw [h]
    · exact Or.inl (by decide)
    · exact Or.inr (Or.inl (by decide))
    · exact Or.inr (Or.inr (by decide))
  · intro output start_time timeout
    exact (execute_perf_command_result output start_time timeout).1

/-! ## Exit codes and option conflicts of the command line programs -/

theorem run_mode_collect_all (st : cli_state) (ids : hpc_ids_t) (env : main_env)
    (r : Int × List operation) (hr : run_mode st ids env = some r)
    (hmem : operation.collect_all_baselines ∈ r.2) : 1 ≤ r.1 := by
  unfold run_mode at hr
  split_ifs at hr with h1 h2 h3 h4 h5
  · split at hr
    · exact absurd hr (by simp)
    · have h := Option.some.inj hr
      subst h
      simp at hmem
  · split at hr
    · exact absurd hr (by simp)
    · have h := Option.some.inj hr
      subst h
      simp at hmem
  · have h := Option.some.inj hr
    subst h
    simp at hmem
  · split at hr
    · exact absurd hr (by simp)
    · split_ifs at hr with hpos
      · have h := Option.some.inj hr
        subst h
        exact hpos
      · have h := Option.some.inj hr
        subst h
        exact le_refl _
  · split at hr
    · exact absurd hr (by simp)
    · split_ifs at hr <;>
      · have h := Option.some.inj hr
        subst h
        simp at hmem
  · have h := Option.some.inj hr
    subst h
    simp at hmem

/-- C31: in the mode `--collect-baseline` the program `hpc_ids` returns the number
of baselines produced, not 0. With two applications whose collection succeeds,
`collect_all_baselines` returns 2 and the exit code is 2, while
`baseline_collector` exits with 0 in the same situation; with one application the
exit code is 1, the code of a failure. Whenever `hpc_ids` has run
`collect_all_baselines`, its exit code is at least 1. -/
theorem hpc_ids_main_collect_all_exit :
    collect_all_baselines
        (hpc_ids_init (0, small_config) none (some [])).2 example_main_env.apps = some 2 ∧
    hpc_ids_main [cli_option.b] example_main_env =
      some (2, [operation.hpc_ids_init, operation.collect_all_baselines]) ∧
    baseline_collector_main [] example_main_env =
      some (0, [operation.hpc_ids_init, operation.collect_all_baselines]) ∧
    hpc_ids_main [cli_option.b] { example_main_env with apps := [("matmul", good_env)] } =
      some (1, [operation.hpc_ids_init, operation.collect_all_baselines]) ∧
    hpc_ids_main [cli_option.b] { example_main_env with apps := [("matmul", failing_env)] } =
      some (1, [operation.hpc_ids_init, operation.collect_all_baselines]) ∧
    hpc_ids_main [cli_option.collect_app "matmul"] example_main_env =
      some (0, [operation.hpc_ids_init, operation.collect_baseline]) ∧
    (∀ (options : List cli_option) (env : main_env) (r : Int × List operation),
      hpc_ids_main options env = some r → operation.collect_all_baselines ∈ r.2 →
        1 ≤ r.1) := by
  refine ⟨by decide!, by decide!, by decide!, by decide!, by decide!, by decide!, ?_⟩
  intro options env r hr hmem
  unfold hpc_ids_main at hr
  split at hr
  · have h := Option.some.inj hr
    subst h
    simp at hmem
  · dsimp only at hr
    split_ifs at hr with h1 h2 h3 h4 h5
    · have h := Option.some.inj hr
      subst h
      simp at hmem
    · have h := Option.some.inj hr
      subst h
      simp at hmem
    · have h := Option.some.inj hr
      subst h
      simp at hmem
    · have h := Option.some.inj hr
      subst h
      simp at hmem
    · have h := Option.some.inj hr
      subst h
      simp at hmem
    · exact run_mode_collect_all _ _ _ r hr hmem

theorem parse_options_error (options : List cli_option) :
    ∀ (st : cli_state) (code : Int), parse_options options st = Except.error code →
      code = if help_reached options = true then 0 else 1 := by
  induction options with
  | nil =>
    intro st code h
    simp [parse_options] at h
  | cons o rest ih =>
    intro st code h
    cases o with
    | m =>
      rw [parse_options] at h
      rw [help_reached]
      exact ih _ code h
    | p optarg =>
      rw [parse_options] at h
      rw [help_reached]
      exact ih _ code h
    | a optarg =>
      rw [parse_options] at h
      rw [help_reached]
      exact ih _ code h
    | d optarg =>
      rw [parse_options] at h
      rw [help_reached]
      by_cases hd : atoi optarg ≤ 0
      · rw [if_pos hd] at h ⊢
        have hc : code = 1 := (Except.error.inj h).symm
        rw [hc]
        rfl
      · rw [if_neg hd] at h ⊢
        exact ih _ code h
    | c optarg =>
      rw [parse_options] at h
      rw [help_reached]
      exact ih _ code h
    | b =>
      rw [parse_options] at h
      rw [help_reached]
      exact ih _ code h
    | collect_app optarg =>
      rw [parse_options] at h
      rw [help_reached]
      exact ih _ code h
    | h =>
      rw [parse_options] at h
      have hc : code = 0 := (Except.error.inj h).symm
      rw [hc]
      rfl
    | unknown =>
      rw [parse_options] at h
      have hc : code = 1 := (Except.error.inj h).symm
      rw [hc]
      rfl

theorem parse_options_ok_help (options : List cli_option) :
    ∀ (st st2 : cli_state), parse_options options st = Except.ok st2 →
      help_reached options = false := by
  induction options with
  | nil =>
    intro st st2 h
    rfl
  | cons o rest ih =>
    intro st st2 h
    cases o with
    | m =>
      rw [parse_options] at h
      rw [help_reached]
      exact ih _ st2 h
    | p optarg =>
      rw [parse_options] at h
      rw [help_reached]
      exact ih _ st2 h
    | a optarg =>
      rw [parse_options] at h
      rw [help_reached]
      exact ih _ st2 h
    | d optarg =>
      rw [parse_options] at h
      rw [help_reached]
      by_cases hd : atoi optarg ≤ 0
      · rw [if_pos hd] at h
        exact absurd h (by simp)
      · rw [if_neg hd] at h ⊢
        exact ih _ st2 h
    | c optarg =>
      rw [parse_options] at h
      rw [help_reached]
      exact ih _ st2 h
    | b =>
      rw [parse_options] at h
      rw [help_reached]
      exact ih _ st2 h
    | collect_app optarg =>
      rw [parse_options] at h
      rw [help_reached]
      exact ih _ st2 h
    | h =>
      rw [parse_options] at h
      exact absurd h (by simp)
    | unknown =>
      rw [parse_options] at h
      exact absurd h (by simp)

theorem parse_options_ok (options : List cli_option) :
    ∀ (st st2 : cli_state), parse_options options st = Except.ok st2 →
      (st.monitor_mode = true ∨ cli_option.m ∈ options → st2.monitor_mode = true) ∧
      (st.collect_mode = true ∨ cli_option.b ∈ options → st2.collect_mode = true) ∧
      (st.collect_app.isSome = true ∨ (∃ x, cli_option.collect_app x ∈ options) →
        st2.collect_app.isSome = true) ∧
      (st.app_name.isSome = true ∨ (∃ x, cli_option.a x ∈ options) →
        st2.app_name.isSome = true) ∧
      st2.target_pid = options.foldl
        (fun pid o =>
          match o with
          | cli_option.p optarg => atoi optarg
          | _ => pid)
        st.target_pid := by
  induction options with
  | nil =>
    intro st st2 h
    rw [parse_options] at h
    have hs : st = st2 := Except.ok.inj h
    subst hs
    simp
  | cons o rest ih =>
    intro st st2 h
    cases o with
    | m =>
      rw [parse_options] at h
      obtain ⟨h1, h2, h3, h4, h5⟩ := ih _ st2 h
      refine ⟨fun _ => h1 (Or.inl rfl), ?_, ?_, ?_, h5⟩
      · rintro (hc | hc)
        · exact h2 (Or.inl hc)
        · exact h2 (Or.inr (by simpa using hc))
      · rintro (hc | ⟨x, hc⟩)
        · exact h3 (Or.inl hc)
        · exact h3 (Or.inr ⟨x, by simpa using hc⟩)
      · rintro (hc | ⟨x, hc⟩)
        · exact h4 (Or.inl hc)
        · exact h4 (Or.inr ⟨x, by simpa using hc⟩)
    | p optarg =>
      rw [parse_options] at h
      obtain ⟨h1, h2, h3, h4, h5⟩ := ih _ st2 h
      refine ⟨?_, ?_, ?_, ?_, h5⟩
      · rintro (hc | hc)
        · exact h1 (Or.inl hc)
        · exact h1 (Or.inr (by simpa using hc))
      · rintro (hc | hc)
        · exact h2 (Or.inl hc)
        · exact h2 (Or.inr (by simpa using hc))
      · rintro (hc | ⟨x, hc⟩)
        · exact h3 (Or.inl hc)
        · exact h3 (Or.inr ⟨x, by simpa using hc⟩)
      · rintro (hc | ⟨x, hc⟩)
        · exact h4 (Or.inl hc)
        · exact h4 (Or.inr ⟨x, by simpa using hc⟩)
    | a optarg =>
      rw [parse_options] at h
      obtain ⟨h1, h2, h3, h4, h5⟩ := ih _ st2 h
      refine ⟨?_, ?_, ?_, fun _ => h4 (Or.inl rfl), h5⟩
      · rintro (hc | hc)
        · exact h1 (Or.inl hc)
        · exact h1 (Or.inr (by simpa using hc))
      · rintro (hc | hc)
        · exact h2 (Or.inl hc)
        · exact h2 (Or.inr (by simpa using hc))
      · rintro (hc | ⟨x, hc⟩)
        · exact h3 (Or.inl hc)
        · exact h3 (Or.inr ⟨x, by simpa using hc⟩)
    | d optarg =>
      rw [parse_options] at h
      split_ifs at h with hd
      obtain ⟨h1, h2, h3, h4, h5⟩ := ih _ st2 h
      refine ⟨?_, ?_, ?_, ?_, h5⟩
      · rintro (hc | hc)
        · exact h1 (Or.inl hc)
        · exact h1 (Or.inr (by simpa using hc))
      · rintro (hc | hc)
        · exact h2 (Or.inl hc)
        · exact h2 (Or.inr (by simpa using hc))
      · rintro (hc | ⟨x, hc⟩)
        · exact h3 (Or.inl hc)
        · exact h3 (Or.inr ⟨x, by simpa using hc⟩)
      · rintro (hc | ⟨x, hc⟩)
        · exact h4 (Or.inl hc)
        · exact h4 (Or.inr ⟨x, by simpa using hc⟩)
    | c optarg =>
      rw [parse_options] at h
      obtain ⟨h1, h2, h3, h4, h5⟩ := ih _ st2 h
      refine ⟨?_, ?_, ?_, ?_, h5⟩
      · rintro (hc | hc)
        · exact h1 (Or.inl hc)
        · exact h1 (Or.inr (by simpa using hc))
      · rintro (hc | hc)
        · exact h2 (Or.inl hc)
        · exact h2 (Or.inr (by simpa using hc))
      · rintro (hc | ⟨x, hc⟩)
        · exact h3 (Or.inl hc)
        · exact h3 (Or.inr ⟨x, by simpa using hc⟩)
      · rintro (hc | ⟨x, hc⟩)
        · exact h4 (Or.inl hc)
        · exact h4 (Or.inr ⟨x, by simpa using hc⟩)
    | b =>
      rw [parse_options] at h
      obtain ⟨h1, h2, h3, h4, h5⟩ := ih _ st2 h
      refine ⟨?_, fun _ => h2 (Or.inl rfl), ?_, ?_, h5⟩
      · rintro (hc | hc)
        · exact h1 (Or.inl hc)
        · exact h1 (Or.inr (by simpa using hc))
      · rintro (hc | ⟨x, hc⟩)
        · exact h3 (Or.inl hc)
        · exact h3 (Or.inr ⟨x, by simpa using hc⟩)
      · rintro (hc | ⟨x, hc⟩)
        · exact h4 (Or.inl hc)
        · exact h4 (Or.inr ⟨x, by simpa using hc⟩)
    | collect_app optarg =>
      rw [parse_options] at h
      obtain ⟨h1, h2, h3, h4, h5⟩ := ih _ st2 h
      refine ⟨?_, ?_, fun _ => h3 (Or.inl rfl), ?_, h5⟩
      · rintro (hc | hc)
        · exact h1 (Or.inl hc)
        · exact h1 (Or.inr (by simpa using hc))
      · rintro (hc | hc)
        · exact h2 (Or.inl hc)
        · exact h2 (Or.inr (by simpa using hc))
      · rintro (hc | ⟨x, hc⟩)
        · exact h4 (Or.inl hc)
        · exact h4 (Or.inr ⟨x, by simpa using hc⟩)
    | h =>
      rw [parse_options] at h
      exact absurd h (by simp)
    | unknown =>
      rw [parse_options] at h
      exact absurd h (by simp)

/-- C32, counterexample: with `--help` after `--monitor --collect-baseline` the
program prints the usage text and exits with 0; with `--monitor --pid 0
--app-name matmul` it is not refused and starts `monitor_app`, and so it does with
`--pid 4294967296`, which `atoi` reads as 0. -/
theorem hpc_ids_main_help_after_conflict :
    hpc_ids_main [cli_option.m, cli_option.b, cli_option.h] example_main_env =
      some (0, []) ∧
    hpc_ids_main [cli_option.m, cli_option.p "0".data, cli_option.a "matmul"]
        example_main_env =
      some (-1, [operation.hpc_ids_init, operation.monitor_app]) ∧
    hpc_ids_main [cli_option.m, cli_option.p "4294967296".data, cli_option.a "matmul"]
        example_main_env =
      some (-1, [operation.hpc_ids_init, operation.monitor_app]) := by
  decide!

/-- C32, amended: for every option list that asks for monitor mode together with
`--collect-baseline` or `--collect-app`, for `--collect-baseline` together with
`--collect-app`, or for an application name together with a process id that is
positive (the last `--pid`, as the `int` that `atoi` reads), the program starts no
operation, not even `hpc_ids_init`. Its exit code is 1, except that it is 0 when
the option loop ends at a `--help` option (no unknown option and no `--duration`
with a value that is not positive comes before it). -/
theorem hpc_ids_main_conflicts (options : List cli_option) (env : main_env)
    (hconflict : requests_conflict options) :
    hpc_ids_main options env =
      some (if help_reached options = true then 0 else 1, []) := by
  unfold hpc_ids_main
  cases hp : parse_options options cli_state.init with
  | error code =>
    rw [parse_options_error options _ code hp]
  | ok st =>
    obtain ⟨hm, hb, hca, ha, hpid⟩ := parse_options_ok options _ st hp
    have hpid2 : st.target_pid = pid_in_force options := hpid
    rw [parse_options_ok_help options _ st hp]
    dsimp only
    by_cases c1 : st.monitor_mode = true ∧ st.collect_mode = true
    · rw [if_pos c1]
      rfl
    · rw [if_neg c1]
      by_cases c2 : st.monitor_mode = true ∧ st.collect_app.isSome = true
      · rw [if_pos c2]
        rfl
      · rw [if_neg c2]
        by_cases c3 : st.collect_mode = true ∧ st.collect_app.isSome = true
        · rw [if_pos c3]
          rfl
        · rw [if_neg c3]
          by_cases c4 : st.target_pid > 0 ∧ st.app_name.isSome = true
          · rw [if_pos c4]
            rfl
          · exfalso
            rcases hconflict with ⟨x1, x2⟩ | ⟨x1, x2⟩ | ⟨x1, x2⟩ | ⟨x1, x2⟩
            · exact c1 ⟨hm (Or.inr x1), hb (Or.inr x2)⟩
            · exact c2 ⟨hm (Or.inr x1), hca (Or.inr x2)⟩
            · exact c3 ⟨hb (Or.inr x1), hca (Or.inr x2)⟩
            · exact c4 ⟨by rw [hpid2]; exact x1, ha (Or.inr x2)⟩

/-- Witness for C32: `--monitor --collect-baseline` exits with 1 and starts
nothing. -/
theorem hpc_ids_main_conflicts_witness :
    hpc_ids_main [cli_option.m, cli_option.b] example_main_env = some (1, []) :=
  hpc_ids_main_conflicts [cli_option.m, cli_option.b] example_main_env
    (Or.inl ⟨by decide, by decide⟩)

/-! ## The cooldown that a configuration file sets -/

theorem starts_with_true_iff (l pat : List Char) :
    starts_with l pat = true ↔ pat <+: l := by
  induction pat generalizing l with
  | nil => simp [starts_with]
  | cons c cs ih =>
    cases l with
    | nil => simp [starts_with]
    | cons x xs =>
      simp only [starts_with, Bool.and_eq_true, decide_eq_true_eq, ih, List.cons_prefix_cons]
      constructor
      · rintro ⟨h1, h2⟩
        exact ⟨h1.symm, h2⟩
      · rintro ⟨h1, h2⟩
        exact ⟨h1.symm, h2⟩

theorem strstr_of_starts_with (l pat : List Char) (h : starts_with l pat = true) :
    strstr l pat = some l := by
  cases l with
  | nil =>
    cases pat with
    | nil => simp [strstr]
    | cons c cs => simp [starts_with] at h
  | cons x xs =>
    rw [strstr, if_pos h]

theorem strstr_first_occurrence (pat rest : List Char) :
    ∀ before : List Char,
      (∀ k, k < before.length → ¬ pat <+: before.drop k ++ pat) →
      strstr (before ++ (pat ++ rest)) pat = some (pat ++ rest) := by
  intro before
  induction before with
  | nil =>
    intro _
    apply strstr_of_starts_with
    rw [List.nil_append, starts_with_true_iff]
    exact List.prefix_append pat rest
  | cons c cs ih =>
    intro h
    have h0 : ¬ pat <+: (c :: cs) ++ pat := h 0 (by simp)
    have hs : ¬ starts_with ((c :: cs) ++ (pat ++ rest)) pat = true := by
      rw [starts_with_true_iff]
      intro hp
      apply h0
      have hp2 : pat <+: ((c :: cs) ++ pat) ++ rest := by
        rw [List.append_assoc]
        exact hp
      exact List.prefix_of_prefix_length_le hp2 (List.prefix_append _ _)
        (by simp only [List.length_append, List.length_cons]; omega)
    have hrec : ∀ k, k < cs.length → ¬ pat <+: cs.drop k ++ pat := by
      intro k hk
      exact h (k + 1) (by simp; omega)
    have hs2 : ¬ starts_with (c :: (cs ++ (pat ++ rest))) pat = true := hs
    rw [List.cons_append, strstr, if_neg hs2]
    exact ih hrec

theorem skip_json_space_blanks (blanks tail : List Char)
    (hb : ∀ c ∈ blanks, c = ' ' ∨ c = '\t' ∨ c = '\n')
    (ht : skip_json_space tail = tail) :
    skip_json_space (blanks ++ tail) = tail := by
  induction blanks with
  | nil => exact ht
  | cons c cs ih =>
    have hc := hb c (List.mem_cons_self _ _)
    rw [List.cons_append, skip_json_space, if_pos hc]
    exact ih (fun d hd => hb d (List.mem_cons_of_mem _ hd))

theorem read_digits_append (digits after : List Char)
    (hd : ∀ c ∈ digits, is_digit c = true)
    (ha : ∀ c ∈ after.head?, is_digit c = false) :
    ∀ acc k : Nat, read_digits (digits ++ after) acc k =
      (digits.foldl (fun acc c => acc * 10 + (c.toNat - 48)) acc, k + digits.length,
        after) := by
  induction digits with
  | nil =>
    intro acc k
    cases after with
    | nil => rfl
    | cons x xs =>
      have hx : is_digit x = false := ha x (by simp)
      simp [read_digits, hx]
  | cons c cs ih =>
    intro acc k
    have hc : is_digit c = true := hd c (List.mem_cons_self _ _)
    have hcs : ∀ d ∈ cs, is_digit d = true := fun d hdm => hd d (List.mem_cons_of_mem _ hdm)
    rw [List.cons_append, read_digits, if_pos hc, ih hcs, List.foldl_cons, List.length_cons]
    congr 2
    omega

theorem strtol_of_digits (c : Char) (cs after : List Char)
    (hd : ∀ x ∈ c :: cs, is_digit x = true)
    (ha : ∀ x ∈ after.head?, is_digit x = false) :
    strtol ((c :: cs) ++ after) =
      min (decimal_value (c :: cs) : Int) LONG_MAX := by
  have hc : is_digit c = true := hd c (List.mem_cons_self _ _)
  have hsp : skip_space ((c :: cs) ++ after) = (c :: cs) ++ after := by
    rw [List.cons_append, skip_space, is_digit_not_space c hc]
    rfl
  have hminus : c ≠ '-' := by
    rintro rfl
    revert hc
    decide
  have hplus : c ≠ '+' := by
    rintro rfl
    revert hc
    decide
  have hsign : read_sign ((c :: cs) ++ after) = (false, (c :: cs) ++ after) := by
    rw [List.cons_append]
    unfold read_sign
    split
    · rename_i heq
      exact absurd (List.cons.inj heq).1 hminus
    · rename_i heq
      exact absurd (List.cons.inj heq).1 hplus
    · rfl
  unfold strtol
  simp only [hsp, hsign, read_digits_append (c :: cs) after hd ha]
  have hnn : (0 : Int) ≤ (decimal_value (c :: cs) : Int) := Int.natCast_nonneg _
  have hdv : (List.foldl (fun acc c => acc * 10 + (c.toNat - 48)) 0 (c :: cs) : Nat) =
      decimal_value (c :: cs) := rfl
  rw [hdv]
  simp only [Bool.false_eq_true, if_false]
  by_cases hbig : (decimal_value (c :: cs) : Int) > LONG_MAX
  · rw [if_pos hbig]
    exact (min_eq_right (le_of_lt hbig)).symm
  · rw [if_neg hbig]
    have hlow : ¬ (decimal_value (c :: cs) : Int) < LONG_MIN := by
      unfold LONG_MIN
      omega
    rw [if_neg hlow]
    exact (min_eq_left (not_lt.mp hbig)).symm

theorem extract_json_int_cooldown_file (before blanks digits after : List Char)
    (hfirst : ∀ k, k < before.length →
      ¬ "\"alert_cooldown_seconds\":".data <+:
        before.drop k ++ "\"alert_cooldown_seconds\":".data)
    (hblanks : ∀ c ∈ blanks, c = ' ' ∨ c = '\t' ∨ c = '\n')
    (hdigits : digits ≠ [] ∧ ∀ c ∈ digits, is_digit c = true)
    (hafter : ∀ c ∈ after.head?, is_digit c = false) :
    extract_json_int (cooldown_file before blanks digits after) "alert_cooldown_seconds" =
      to_int32 (min (decimal_value digits : Int) LONG_MAX) := by
  obtain ⟨hne, hd⟩ := hdigits
  cases digits with
  | nil => exact absurd rfl hne
  | cons c cs =>
    have hc : is_digit c = true := hd c (List.mem_cons_self _ _)
    have hfound : strstr (cooldown_file before blanks (c :: cs) after)
        ("\"" ++ "alert_cooldown_seconds" ++ "\":").data =
        some ("\"alert_cooldown_seconds\":".data ++ (blanks ++ ((c :: cs) ++ after))) :=
      strstr_first_occurrence _ _ before hfirst
    have hjs : skip_json_space ((c :: cs) ++ after) = (c :: cs) ++ after := by
      have h1 : c ≠ ' ' := by
        rintro rfl
        revert hc
        decide
      have h2 : c ≠ '\t' := by
        rintro rfl
        revert hc
        decide
      have h3 : c ≠ '\n' := by
        rintro rfl
        revert hc
        decide
      rw [List.cons_append, skip_json_space]
      simp [h1, h2, h3]
    have hdrop : List.drop ("\"" ++ "alert_cooldown_seconds" ++ "\":").data.length
        ("\"alert_cooldown_seconds\":".data ++ (blanks ++ ((c :: cs) ++ after))) =
        blanks ++ ((c :: cs) ++ after) := by
      have hl : ("\"" ++ "alert_cooldown_seconds" ++ "\":").data.length =
          "\"alert_cooldown_seconds\":".data.length := rfl
      rw [hl, List.drop_left]
    unfold extract_json_int
    simp only [hfound, hdrop, skip_json_space_blanks blanks _ hblanks hjs]
    unfold atoi
    rw [strtol_of_digits c cs after hd hafter]

theorem to_int32_of_range (v : Int) (h0 : 0 ≤ v) (h1 : v ≤ 2 ^ 31 - 1) : to_int32 v = v := by
  unfold to_int32
  rw [Int.emod_eq_of_lt (by omega) (by omega)]
  omega

theorem cooldown_file_ne_nil (before blanks digits after : List Char) :
    cooldown_file before blanks digits after ≠ [] := by
  unfold cooldown_file
  simp

/-- C37, amended: `alert_cooldown_seconds` accepts every integer from 1 to
`2 ^ 31 - 1`. For every configuration file in which the first occurrence of the key
`"alert_cooldown_seconds":` is followed by blanks, the decimal digits of `n` and a
character that is not a digit, `load_config` returns 0 and yields
`alert_cooldown_seconds = n` when `1 ≤ n ≤ 2 ^ 31 - 1`, and keeps the default 30
when `n = 0`. A larger `n` first becomes the `int` that `atoi` reads, and that
`int` is stored when it is positive; otherwise the default stays. -/
theorem load_config_cooldown_spec (config : config_t) (before blanks digits after : List Char)
    (hfirst : ∀ k, k < before.length →
      ¬ "\"alert_cooldown_seconds\":".data <+:
        before.drop k ++ "\"alert_cooldown_seconds\":".data)
    (hblanks : ∀ c ∈ blanks, c = ' ' ∨ c = '\t' ∨ c = '\n')
    (hdigits : digits ≠ [] ∧ ∀ c ∈ digits, is_digit c = true)
    (hafter : ∀ c ∈ after.head?, is_digit c = false) :
    (load_config config (some (cooldown_file before blanks digits after))).1 = 0 ∧
    (1 ≤ decimal_value digits → decimal_value digits ≤ 2 ^ 31 - 1 →
      (load_config config
        (some (cooldown_file before blanks digits after))).2.alert_cooldown_seconds =
        decimal_value digits) ∧
    (decimal_value digits = 0 →
      (load_config config
        (some (cooldown_file before blanks digits after))).2.alert_cooldown_seconds = 30) ∧
    (load_config config
      (some (cooldown_file before blanks digits after))).2.alert_cooldown_seconds =
      (if to_int32 (min (decimal_value digits : Int) (2 ^ 63 - 1)) > 0 then
        to_int32 (min (decimal_value digits : Int) (2 ^ 63 - 1))
      else 30) := by
  have hne := cooldown_file_ne_nil before blanks digits after
  have hx := extract_json_int_cooldown_file before blanks digits after hfirst hblanks hdigits
    hafter
  have hf : (load_config config
      (some (cooldown_file before blanks digits after))).2.alert_cooldown_seconds =
      (if to_int32 (min (decimal_value digits : Int) (2 ^ 63 - 1)) > 0 then
        to_int32 (min (decimal_value digits : Int) (2 ^ 63 - 1))
      else 30) := by
    rw [load_config_some config _ hne, (parse_config_values_fields default_config _).1, hx]
    rfl
  refine ⟨load_config_fst config _, ?_, ?_, hf⟩
  · intro h1 h2
    have hmin : min (decimal_value digits : Int) (2 ^ 63 - 1) = (decimal_value digits : Int) := by
      apply min_eq_left
      omega
    have hr : to_int32 (decimal_value digits : Int) = (decimal_value digits : Int) :=
      to_int32_of_range _ (by omega) (by omega)
    rw [hf, hmin, hr, if_pos (by omega)]
  · intro h0
    rw [hf, h0]
    rfl

/-- Witness for C37: a file that sets `alert_cooldown_seconds` to 45. -/
theorem load_config_cooldown_spec_witness :
    cooldown_file "\x7b".data " ".data "45".data "\x7d".data = cooldown_45_file ∧
    (load_config config_t.zero (some cooldown_45_file)).2.alert_cooldown_seconds = 45 :=
  ⟨rfl, (load_config_cooldown_spec config_t.zero "\x7b".data " ".data "45".data "\x7d".data
    (by decide) (by decide) (by decide) (by decide)).2.1 (by decide!) (by decide!)⟩

/-! ## Rejection of an interval by the samples it holds -/

theorem last_occurrence_value_absent (name : String) (ms : List hpc_measurement_t)
    (h : ∀ m ∈ ms, m.counter ≠ name) : last_occurrence_value name ms = 0 := by
  unfold last_occurrence_value first_occurrence_value
  have hnone : ms.reverse.find? (fun m => decide (m.counter = name)) = none := by
    rw [List.find?_eq_none]
    intro m hm
    simpa using h m (List.mem_reverse.mp hm)
  rw [hnone]

theorem last_occurrence_value_present (name : String) (pre post : List hpc_measurement_t)
    (m : hpc_measurement_t) (hm : m.counter = name) (hpost : ∀ x ∈ post, x.counter ≠ name) :
    last_occurrence_value name (pre ++ m :: post) = m.value := by
  unfold last_occurrence_value first_occurrence_value
  have hnone : post.reverse.find? (fun m => decide (m.counter = name)) = none := by
    rw [List.find?_eq_none]
    intro x hx
    simpa using hpost x (List.mem_reverse.mp hx)
  rw [List.reverse_append, List.reverse_cons, List.append_assoc, List.find?_append, hnone]
  simp [hm]

/-- C9: `engineer_features` returns -1 and leaves the feature vector as it was if
and only if the interval is empty or its captured `cycles` value is 0 or its
captured `instructions` value is 0; in every other case it returns 0, whatever
other counters are missing. The captured value of a counter is the value of the
last sample that names it: it is 0 when no sample names the counter, and the value
of that sample otherwise. -/
theorem engineer_features_reject_spec (ms : List hpc_measurement_t) (now : ℚ)
    (f : feature_vector_t) :
    ((engineer_features ms now f).1 = -1 ↔
      ms = [] ∨ last_occurrence_value "cycles" ms = 0 ∨
        last_occurrence_value "instructions" ms = 0) ∧
    ((engineer_features ms now f).1 = -1 → (engineer_features ms now f).2 = f) ∧
    (ms ≠ [] → last_occurrence_value "cycles" ms ≠ 0 →
      last_occurrence_value "instructions" ms ≠ 0 → (engineer_features ms now f).1 = 0) ∧
    (extract_counters ms).cycles = last_occurrence_value "cycles" ms ∧
    (extract_counters ms).instructions = last_occurrence_value "instructions" ms ∧
    (∀ name : String, (∀ m ∈ ms, m.counter ≠ name) → last_occurrence_value name ms = 0) ∧
    (∀ (name : String) (pre post : List hpc_measurement_t) (m : hpc_measurement_t),
      ms = pre ++ m :: post → m.counter = name → (∀ x ∈ post, x.counter ≠ name) →
        last_occurrence_value name ms = m.value) := by
  have hc : (extract_counters ms).cycles = last_occurrence_value "cycles" ms :=
    extract_counters_field _ _ extract_step_cycles rfl ms
  have hi : (extract_counters ms).instructions = last_occurrence_value "instructions" ms :=
    extract_counters_field _ _ extract_step_instructions rfl ms
  obtain ⟨hiff, hkeep, hzero, -, -⟩ := engineer_features_reject_iff ms now f
  rw [hc, hi] at hiff
  refine ⟨hiff, hkeep, ?_, hc, hi, ?_, ?_⟩
  · intro hne h1 h2
    apply hzero
    intro hrej
    rcases hiff.mp hrej with h | h | h
    · exact hne h
    · exact h1 h
    · exact h2 h
  · intro name h
    exact last_occurrence_value_absent name ms h
  · intro name pre post m hms hm hpost
    rw [hms]
    exact last_occurrence_value_present name pre post m hm hpost

/-- Witness for C9: an interval with `cycles` 100 and `instructions` 200 and no
other counter is accepted; without the `instructions` sample, or with `cycles` 0,
it is rejected. -/
theorem engineer_features_reject_spec_witness :
    (engineer_features [sample "cycles" 100, sample "instructions" 200] 0
      feature_vector_t.zero).1 = 0 ∧
    (engineer_features [sample "cycles" 100, sample "branches" 5] 0
      feature_vector_t.zero).1 = -1 ∧
    (engineer_features [sample "cycles" 0, sample "instructions" 200] 0
      feature_vector_t.zero).1 = -1 :=
  ⟨(engineer_features_reject_spec [sample "cycles" 100, sample "instructions" 200] 0
      feature_vector_t.zero).2.2.1 (by simp) (by decide!) (by decide!),
    (engineer_features_reject_spec [sample "cycles" 100, sample "branches" 5] 0
      feature_vector_t.zero).1.mpr (Or.inr (Or.inr (by decide!))),
    (engineer_features_reject_spec [sample "cycles" 0, sample "instructions" 200] 0
      feature_vector_t.zero).1.mpr (Or.inr (Or.inl (by decide!)))⟩

/-! ## Cooldown commit of a call that is not gated -/

theorem load_config_cooldown_pos (config : config_t) (file : Option (List Char)) :
    0 < (load_config config file).2.alert_cooldown_seconds := by
  cases file with
  | none =>
    rw [load_config_none]
    decide
  | some json =>
    by_cases hj : json = []
    · subst hj
      rw [load_config_empty]
      decide
    · rw [load_config_some config json hj, (parse_config_values_fields default_config json).1]
      split_ifs with hp
      · exact hp
      · decide

/-- C17: cooldown commit. For every `detect_anomalies` call at clock reading `now`
that is not gated by the cooldown, on a detector with a positive cooldown (every
configuration that `load_config` returns has one): when at least one feature is
anomalous the call emits and sets `last_alert_time = now`; the new
`last_alert_time` equals `now` if and only if at least one alert was emitted (the
return value is positive, the sink has grown); and it is unchanged otherwise. -/
theorem detect_anomalies_commit_iff (ids : hpc_ids_t) (features : feature_vector_t)
    (app_name : Option String) (now : Int)
    (hungated : ¬ now - ids.last_alert_time < ids.config.alert_cooldown_seconds)
    (hcool : 0 < ids.config.alert_cooldown_seconds) :
    (any_anomalous ids.config (resolve_baseline ids app_name) features →
      (detect_anomalies ids features app_name now).1 > 0 ∧
      (detect_anomalies ids features app_name now).2.alerts ≠ ids.alerts ∧
      (detect_anomalies ids features app_name now).2.last_alert_time = now) ∧
    ((detect_anomalies ids features app_name now).2.last_alert_time = now ↔
      (detect_anomalies ids features app_name now).1 > 0) ∧
    ((detect_anomalies ids features app_name now).2.last_alert_time = now ↔
      (detect_anomalies ids features app_name now).2.alerts ≠ ids.alerts) ∧
    (¬ (detect_anomalies ids features app_name now).1 > 0 →
      (detect_anomalies ids features app_name now).2.last_alert_time =
        ids.last_alert_time) ∧
    (∀ (config : config_t) (file : Option (List Char)),
      0 < (load_config config file).2.alert_cooldown_seconds) := by
  obtain ⟨-, hpos, hzero, hiff⟩ := detect_anomalies_timer ids features app_name now
  have hne : ids.last_alert_time ≠ now := by
    intro h
    apply hungated
    rw [h]
    omega
  have hret : (detect_anomalies ids features app_name now).2.last_alert_time = now ↔
      (detect_anomalies ids features app_name now).1 > 0 := by
    constructor
    · intro h
      by_contra hn
      exact hne ((hzero hn).symm.trans h)
    · intro h
      exact (hpos h).2
  refine ⟨?_, hret, hret.trans hiff, hzero, load_config_cooldown_pos⟩
  intro hany
  have hcount : (detect_anomalies ids features app_name now).1 > 0 := by
    have hrc := (run_checks_count_pos_iff ids features (resolve_baseline ids app_name)
      app_name (now : ℚ)).mpr hany
    unfold detect_anomalies
    simp only
    rw [if_neg hungated, if_pos hrc]
    exact hrc
  exact ⟨hcount, hiff.mp hcount, (hpos hcount).2⟩

/-- Witness for C17: the first call of the cooldown example, at `t = 100` with
cooldown 30 and `last_alert_time = 0`, is not gated; its `ipc` is anomalous, so it
emits and sets `last_alert_time = 100`. -/
theorem detect_anomalies_commit_iff_witness :
    (detect_anomalies example_detector (features_of_ipc (3 / 2)) none 100).1 > 0 ∧
    (detect_anomalies example_detector (features_of_ipc (3 / 2)) none
      100).2.last_alert_time = 100 :=
  have h := (detect_anomalies_commit_iff example_detector (features_of_ipc (3 / 2)) none 100
    (by simp [example_detector, detector_of, default_config])
    (by simp [example_detector, detector_of, default_config])).1
    (Or.inl anomalous_example_ipc)
  ⟨h.1, h.2.2⟩

/-! ## Application profiles at start-up -/

theorem load_app_baselines_cut_name :
    (load_app_baselines hpc_ids_t.zero
      (some [{ d_name := "baseline_matmul.json", contents := some empty_profile }])).1 = 0 ∧
    ((load_app_baselines hpc_ids_t.zero
      (some [{ d_name := "baseline_matmul.json", contents := none },
             { d_name := "baseline_matmul", contents := some empty_profile }])).2.app_baselines.map
        fun r => (r.name, r.has_baseline)) = [("matmul", true)] ∧
    ((load_app_baselines hpc_ids_t.zero
      (some [{ d_name := "baseline_.json", contents := none },
             { d_name := "baseline_", contents := some empty_profile }])).2.app_baselines.map
        fun r => (r.name, r.has_baseline)) = [("", true)] := by
  decide!

end HpcIds
